import Mathlib

/-!
# MPEG-2 Annex-B unit parser (`source/parserAnnexBMpeg2.cpp`)

A shallow embedding of the unit-header classifier, the two payload decoders
(`sequence_header`, `sequence_extension`) and the orchestrating
`parseAndAddNALUnit`, and of the zoom step of the zoomable view
(`MoveAndZoomableView::zoom`), followed by the properties established about them.

Conventions of the embedding:
* a C++ method that mutates `this` takes the object as `self` and returns the new object;
* a thrown exception is an `Except.error`; state written before the throw is
  kept (the tree nodes that were already attached, the members already assigned);
* a nullable `TreeItem *` is an `Option TreeItem`; `new TreeItem(.., parent)` appends
  the new node to the children of `parent`.
-/

namespace parserAnnexBMpeg2

/-! ## Data model -/

/-- One byte of a `QByteArray`, as its unsigned value. -/
abbrev Byte := Fin 256

/-- Qt byte string. -/
abbrev QByteArray := List Byte

/-- Qt string. -/
abbrev QString := String

/-- The unit types, in the order in which `nal_unit_type_toString` names them. -/
inductive nal_unit_type_enum where
  | UNSPECIFIED
  | PICTURE
  | SLICE
  | USER_DATA
  | SEQUENCE_HEADER
  | SEQUENCE_ERROR
  | EXTENSION_START
  | SEQUENCE_END
  | GROUP_START
  | SYSTEM_START_CODE
  | RESERVED
  deriving DecidableEq, Repr

open nal_unit_type_enum

/-- The exceptions the parser can raise. `logic_error` is `std::logic_error` with its
message. `BufferOverrun` is the failure of a bit read past the end of the buffer and
`indexOutOfRange` is a `QByteArray::at` outside the array. -/
inductive ParseError where
  | logic_error (what : String)
  | BufferOverrun
  | indexOutOfRange
  deriving DecidableEq, Repr

/-- Members of `nal_unit_mpeg2` (with the ones inherited from `nal_unit`). -/
structure nal_unit_mpeg2 where
  filePosStartEnd : Nat × Nat
  nal_idx : Int
  nalPayload : QByteArray
  nal_unit_type : nal_unit_type_enum
  slice_id : Int
  system_start_codes : Int
  start_code_value : Int
  deriving DecidableEq, Repr

/-! ## The unit-header classifier -/

/-- `nal_unit_mpeg2::interprete_start_code`: sets the unit type (and `slice_id` or
`system_start_codes`) from the start code value and returns its meaning. -/
def interprete_start_code (self : nal_unit_mpeg2) (start_code : Int) : nal_unit_mpeg2 × QString :=
  if start_code = 0 then
    ({ self with nal_unit_type := PICTURE }, "picture_start_code")
  else if start_code ≥ 0x01 ∧ start_code ≤ 0xaf then
    ({ self with nal_unit_type := SLICE, slice_id := start_code - 1 }, "slice_start_code")
  else if start_code = 0xb0 ∨ start_code = 0xb1 ∨ start_code = 0xb6 then
    ({ self with nal_unit_type := RESERVED }, "reserved")
  else if start_code = 0xb2 then
    ({ self with nal_unit_type := USER_DATA }, "user_data_start_code")
  else if start_code = 0xb3 then
    ({ self with nal_unit_type := SEQUENCE_HEADER }, "sequence_header_code")
  else if start_code = 0xb4 then
    ({ self with nal_unit_type := SEQUENCE_ERROR }, "sequence_error_code")
  else if start_code = 0xb5 then
    ({ self with nal_unit_type := EXTENSION_START }, "extension_start_code")
  else if start_code = 0xb7 then
    ({ self with nal_unit_type := SEQUENCE_END }, "sequence_end_code")
  else if start_code = 0xb8 then
    ({ self with nal_unit_type := GROUP_START }, "group_start_code")
  else if start_code ≥ 0xb9 then
    ({ self with nal_unit_type := SYSTEM_START_CODE, system_start_codes := start_code - 0xb9 },
      "system start codes")
  else
    (self, "")

/-- `parserAnnexBMpeg2::nal_unit_type_toString`. -/
def nal_unit_type_toString : List QString :=
  ["UNSPECIFIED", "PICTURE", "SLICE", "USER_DATA", "SEQUENCE_HEADER", "SEQUENCE_ERROR",
   "EXTENSION_START", "SEQUENCE_END", "GROUP_START", "SYSTEM_START_CODE", "RESERVED"]

/-- The integer value of an enumerator (declaration order). -/
def nal_unit_type_enum.toIndex : nal_unit_type_enum → Nat
  | UNSPECIFIED => 0
  | PICTURE => 1
  | SLICE => 2
  | USER_DATA => 3
  | SEQUENCE_HEADER => 4
  | SEQUENCE_ERROR => 5
  | EXTENSION_START => 6
  | SEQUENCE_END => 7
  | GROUP_START => 8
  | SYSTEM_START_CODE => 9
  | RESERVED => 10

/-! ## The bit reader -/

/-- Bit `i` (0 is the most significant bit of the first byte) of a byte string; 0 past the end. -/
def bitAt (bytes : QByteArray) (i : Nat) : Nat :=
  ((bytes.getD (i / 8) 0).val / 2 ^ (7 - i % 8)) % 2

/-- The unsigned value of the `n` bits that start at bit `pos`, most significant first. -/
def bitsValue (bytes : QByteArray) (pos : Nat) : Nat → Nat
  | 0 => 0
  | n + 1 => bitsValue bytes pos n * 2 + bitAt bytes (pos + n)

/-- The characters `0`/`1` of the `n` bits that start at bit `pos`, in stream order. -/
def bitsChars (bytes : QByteArray) (pos n : Nat) : List Char :=
  (List.range n).map (fun j => if bitAt bytes (pos + j) = 1 then '1' else '0')

/-- Modelled from the spec: class `sub_byte_reader` is declared and defined outside the
sources at hand. Spec 4.1: a cursor over an immutable byte buffer, bit-granular and
starting at 0. -/
structure sub_byte_reader where
  byteArray : QByteArray
  pos : Nat
  deriving DecidableEq, Repr

/-- Modelled from the spec: `sub_byte_reader::readBits` is defined outside the sources at
hand. Spec 4.1: `readBits(n)`, `1 ≤ n ≤ 32`, consumes the next `n` bits most significant
bit first, advances the cursor and returns the unsigned value together with the exact
sequence of 0/1 characters consumed; it fails with `BufferOverrun` when fewer than `n`
bits remain, leaving the cursor at the end of the buffer. The decoders only ask for
widths between 1 and 18. -/
def sub_byte_reader.readBits (r : sub_byte_reader) (nrBits : Nat) :
    sub_byte_reader × Except ParseError (Nat × QString) :=
  if r.pos + nrBits ≤ 8 * r.byteArray.length then
    ({ r with pos := r.pos + nrBits },
      .ok (bitsValue r.byteArray r.pos nrBits, String.mk (bitsChars r.byteArray r.pos nrBits)))
  else
    ({ r with pos := 8 * r.byteArray.length }, .error ParseError.BufferOverrun)

/-! ## The diagnostic tree -/

/-- The meaning attached to a tree node: none, a text, or a table of enumeration labels. -/
inductive Meaning where
  | absent
  | text (s : QString)
  | table (labels : List QString)
  deriving DecidableEq, Repr

/-- Modelled from the spec: class `TreeItem` is declared outside the sources at hand.
Spec 3 (DiagnosticNode): name, decoded numeric value, coding notation, exact raw bit
string consumed, optional meaning string or enumeration-label table, ordered list of
child nodes (order is parse order). `itemData` holds the display strings the code
appends (the name first); a node made by `new TreeItem(parent)` has none. -/
inductive TreeItem where
  | mk (itemData : List QString) (value : Option Nat) (coding : QString) (code : QString)
      (meaning : Meaning) (childItems : List TreeItem)

namespace TreeItem

/-- The display strings of a node. -/
def itemData : TreeItem → List QString
  | mk d _ _ _ _ _ => d

/-- The decoded value a node records, if it records a field. -/
def value : TreeItem → Option Nat
  | mk _ v _ _ _ _ => v

/-- The coding notation of a node. -/
def coding : TreeItem → QString
  | mk _ _ c _ _ _ => c

/-- The raw bit string of a node. -/
def code : TreeItem → QString
  | mk _ _ _ c _ _ => c

/-- The meaning of a node. -/
def meaning : TreeItem → Meaning
  | mk _ _ _ _ m _ => m

/-- The children of a node, in insertion order. -/
def childItems : TreeItem → List TreeItem
  | mk _ _ _ _ _ cs => cs

/-- The name of a node: its first display string. -/
def name (t : TreeItem) : Option QString := t.itemData.head?

/-- The node `new TreeItem(parent)` creates: no data, no children. -/
def blank : TreeItem := mk [] none "" "" Meaning.absent []

/-- The node `new TreeItem(name, parent)` creates. -/
def named (name : QString) : TreeItem := mk [name] none "" "" Meaning.absent []

/-- The node `new TreeItem(name, value, coding, code, [meanings,] parent)` creates. -/
def field (name : QString) (value : Nat) (coding code : QString) (meaning : Meaning) : TreeItem :=
  mk [name] (some value) coding code meaning []

/-- Attaching a newly created node to its parent: it becomes the last child. -/
def addChild (t child : TreeItem) : TreeItem :=
  mk t.itemData t.value t.coding t.code t.meaning (t.childItems ++ [child])

/-- The statement `item->itemData.append(s)`. -/
def appendData (t : TreeItem) (s : QString) : TreeItem :=
  mk (t.itemData ++ [s]) t.value t.coding t.code t.meaning t.childItems

end TreeItem

/-- Attaching the (possibly absent) node `child` below the (possibly absent) `parent`. -/
def attach (parent child : Option TreeItem) : Option TreeItem :=
  match parent, child with
  | some p, some c => some (p.addChild c)
  | p, _ => p

/-! ## The read-and-record steps -/

/-- What a decoder body works on: the bit reader, the node `itemTree` the fields are
recorded under (absent when no tree is built) and the object being filled. -/
structure Ctx (σ : Type) where
  reader : sub_byte_reader
  itemTree : Option TreeItem
  self : σ

/-- A statement of a decoder body: it updates the context and either completes or throws.
The context at the throw is kept. -/
def P (σ α : Type) : Type := Ctx σ → Ctx σ × Except ParseError α

/-- Completing with a value. -/
def P.pure {σ α : Type} (a : α) : P σ α := fun c => (c, .ok a)

/-- Sequencing: a throw in the first statement skips the second. -/
def P.bind {σ α β : Type} (m : P σ α) (f : α → P σ β) : P σ β := fun c =>
  match m c with
  | (c1, .ok a) => f a c1
  | (c1, .error e) => (c1, .error e)

instance {σ : Type} : Monad (P σ) where
  pure := P.pure
  bind := P.bind

/-- The statement `throw e`. -/
def P.throw {σ α : Type} (e : ParseError) : P σ α := fun c => (c, .error e)

/-- Reading the object being filled. -/
def P.getSelf {σ : Type} : P σ σ := fun c => (c, .ok c.self)

/-- The coding notation `QString("u(v) -> u(%1)").arg(numBits)`. -/
def codingUV (numBits : Nat) : QString := "u(v) -> u(" ++ toString numBits ++ ")"

/-- The raw bit string of a flag: `(into != 0) ? "1" : "0"`. -/
def flagCode (b : Bool) : QString := if b then "1" else "0"

/-- Macro `READBITS_M(into, numBits, meanings)`: read `numBits` bits, assign them to the
member `into` (here: `assign`), and record a node named after the member when a tree is built. -/
def READBITS_M {σ : Type} (into : QString) (assign : σ → Nat → σ) (numBits : Nat)
    (meanings : Meaning) : P σ Unit := fun c =>
  match c.reader.readBits numBits with
  | (rd, .error e) => ({ c with reader := rd }, .error e)
  | (rd, .ok (v, code)) =>
    ({ reader := rd
       itemTree := c.itemTree.map
         (fun t => t.addChild (TreeItem.field into v (codingUV numBits) code meanings))
       self := assign c.self v }, .ok ())

/-- Macro `READBITS(into, numBits)`: as `READBITS_M`, with no meaning on the node. -/
def READBITS {σ : Type} (into : QString) (assign : σ → Nat → σ) (numBits : Nat) : P σ Unit :=
  READBITS_M into assign numBits Meaning.absent

/-- Macro `READFLAG_M(into, meanings)`: read one bit, assign `bit != 0` to the member and
record a node whose raw bit string is rebuilt from the flag. -/
def READFLAG_M {σ : Type} (into : QString) (assign : σ → Bool → σ) (meanings : Meaning) :
    P σ Unit := fun c =>
  match c.reader.readBits 1 with
  | (rd, .error e) => ({ c with reader := rd }, .error e)
  | (rd, .ok (v, _)) =>
    let b : Bool := v != 0
    ({ reader := rd
       itemTree := c.itemTree.map
         (fun t => t.addChild (TreeItem.field into b.toNat "u(1)" (flagCode b) meanings))
       self := assign c.self b }, .ok ())

/-- Macro `READFLAG(into)`: as `READFLAG_M`, with no meaning on the node. -/
def READFLAG {σ : Type} (into : QString) (assign : σ → Bool → σ) : P σ Unit :=
  READFLAG_M into assign Meaning.absent

/-- The statements `body i`, `body (i+1)`, ... run `count` times. -/
def loopFrom {σ : Type} (body : Nat → P σ Unit) : Nat → Nat → P σ Unit
  | 0, _ => P.pure ()
  | count + 1, i => P.bind (body i) (fun _ => loopFrom body count (i + 1))

/-- The loop `for (int i = lo; i < hi; i++) body`. -/
def forLoop {σ : Type} (lo hi : Nat) (body : Nat → P σ Unit) : P σ Unit :=
  loopFrom body (hi - lo) lo

/-- What a decoder leaves behind: the tree below `root`, the object, the reader and
whether it completed or threw. -/
structure Parsed (σ : Type) where
  root : Option TreeItem
  self : σ
  reader : sub_byte_reader
  result : Except ParseError Unit

/-- Running a decoder body: the reader starts at bit 0 of `data`, the node `name` is
created below `root` when there is a root, and it stays attached whether or not the body throws. -/
def runDecoder {σ : Type} (name : QString) (data : QByteArray) (root : Option TreeItem)
    (self : σ) (body : P σ Unit) : Parsed σ :=
  let c := body { reader := { byteArray := data, pos := 0 }
                  itemTree := root.map (fun _ => TreeItem.named name)
                  self := self }
  { root := attach root c.1.itemTree, self := c.1.self, reader := c.1.reader, result := c.2 }

/-! ## The unit header -/

/-- The message of the exception `parse_nal_unit_header` throws. -/
def headerLengthMessage : String := "The AVC header must have only one byte."

/-- The message of the exception both payload decoders throw on a zero marker bit. -/
def markerMessage : String :=
  "The marker_bit shall be set to 1 to prevent emulation of start codes."

/-- `nal_unit_mpeg2::parse_nal_unit_header`. -/
def parse_nal_unit_header (self : nal_unit_mpeg2) (header_byte : QByteArray)
    (root : Option TreeItem) : Parsed nal_unit_mpeg2 :=
  if header_byte.length ≠ 1 then
    { root := root, self := self, reader := { byteArray := header_byte, pos := 0 }
      result := .error (ParseError.logic_error headerLengthMessage) }
  else
    let reader : sub_byte_reader := { byteArray := header_byte, pos := 0 }
    let itemTree : Option TreeItem := root.map (fun _ => TreeItem.named "nal_unit_header()")
    match reader.readBits 8 with
    | (rd, .error e) => { root := attach root itemTree, self := self, reader := rd, result := .error e }
    | (rd, .ok (v, code)) =>
      let self1 : nal_unit_mpeg2 := { self with start_code_value := (v : Int) }
      let r := interprete_start_code self1 self1.start_code_value
      let itemTree1 := itemTree.map (fun t => t.addChild
        (TreeItem.field "start_code_value" v "u(v) -> u(8)" code (Meaning.text r.2)))
      { root := attach root itemTree1, self := r.1, reader := rd, result := .ok () }

/-! ## The sequence header -/

/-- Members of `sequence_header`. -/
structure sequence_header extends nal_unit_mpeg2 where
  horizontal_size_value : Nat
  vertical_size_value : Nat
  aspect_ratio_information : Nat
  frame_rate_code : Nat
  bit_rate_value : Nat
  marker_bit : Bool
  vbv_buffer_size_value : Nat
  constrained_parameters_flag : Bool
  load_intra_quantiser_matrix : Bool
  intra_quantiser_matrix : List Nat
  load_non_intra_quantiser_matrix : Bool
  non_intra_quantiser_matrix : List Nat
  deriving DecidableEq, Repr

/-- The constructor `sequence_header(const nal_unit_mpeg2 &nal)`: the base is copied
from `nal`; the other members start as the class declaration leaves them (`members`). -/
def sequence_header.ctor (nal : nal_unit_mpeg2) (members : sequence_header) : sequence_header :=
  { members with tonal_unit_mpeg2 := nal }

/-- The list `aspect_ratio_information_meaning`. -/
def aspect_ratio_information_meaning : List QString :=
  ["Forbidden", "SAR 1.0 (Square Sample)", "DAR 3:4", "DAR 9:16", "DAR 1:2.21", "Reserved"]

/-- The list `frame_rate_code_meaning`. -/
def frame_rate_code_meaning : List QString :=
  ["Forbidden", "24000:1001 (23.976...)", "24", "25", "30000:1001 (29.97...)", "30", "50",
   "60000:1001 (59.94)", "60", "Reserved"]

/-- The statements of `sequence_header::parse_sequence_header` after the reader and the
node `itemTree` are set up. -/
def sequence_header_body : P sequence_header Unit := do
  READBITS "horizontal_size_value" (fun s v => { s with horizontal_size_value := v }) 12
  READBITS "vertical_size_value" (fun s v => { s with vertical_size_value := v }) 12
  READBITS_M "aspect_ratio_information" (fun s v => { s with aspect_ratio_information := v }) 4
    (Meaning.table aspect_ratio_information_meaning)
  READBITS_M "frame_rate_code" (fun s v => { s with frame_rate_code := v }) 4
    (Meaning.table frame_rate_code_meaning)
  READBITS_M "bit_rate_value" (fun s v => { s with bit_rate_value := v }) 18
    (Meaning.text "The lower 18 bits of bit_rate.")
  READFLAG "marker_bit" (fun s b => { s with marker_bit := b })
  let s ← P.getSelf
  if !s.marker_bit then
    P.throw (ParseError.logic_error markerMessage)
  READBITS_M "vbv_buffer_size_value" (fun s v => { s with vbv_buffer_size_value := v }) 10
    (Meaning.text "the lower 10 bits of vbv_buffer_size")
  READFLAG "constrained_parameters_flag" (fun s b => { s with constrained_parameters_flag := b })
  READFLAG "load_intra_quantiser_matrix" (fun s b => { s with load_intra_quantiser_matrix := b })
  let s ← P.getSelf
  if s.load_intra_quantiser_matrix then
    forLoop 0 64 (fun i => READBITS "intra_quantiser_matrix[i]"
      (fun s v => { s with intra_quantiser_matrix := s.intra_quantiser_matrix.set i v }) 8)
  READFLAG "load_non_intra_quantiser_matrix"
    (fun s b => { s with load_non_intra_quantiser_matrix := b })
  let s ← P.getSelf
  if s.load_non_intra_quantiser_matrix then
    forLoop 0 64 (fun i => READBITS "non_intra_quantiser_matrix[i]"
      (fun s v => { s with non_intra_quantiser_matrix := s.non_intra_quantiser_matrix.set i v }) 8)

/-- `sequence_header::parse_sequence_header`. -/
def parse_sequence_header (self : sequence_header) (parameterSetData : QByteArray)
    (root : Option TreeItem) : Parsed sequence_header :=
  runDecoder "sequence_header()" parameterSetData root
    { self with nalPayload := parameterSetData } sequence_header_body

/-! ## The sequence extension -/

/-- Members of `sequence_extension`. -/
structure sequence_extension extends nal_unit_mpeg2 where
  extension_start_code_identifier : Nat
  profile_and_level_indication : Nat
  progressive_sequence : Bool
  chroma_format : Nat
  horizontal_size_extension : Nat
  vertical_size_extension : Nat
  bit_rate_extension : Nat
  marker_bit : Bool
  vbv_buffer_size_extension : Nat
  low_delay : Bool
  frame_rate_extension_n : Nat
  frame_rate_extension_d : Nat
  deriving DecidableEq, Repr

/-- The constructor `sequence_extension(const nal_unit_mpeg2 &nal)`: the base is copied
from `nal`; the other members start as the class declaration leaves them (`members`). -/
def sequence_extension.ctor (nal : nal_unit_mpeg2) (members : sequence_extension) :
    sequence_extension :=
  { members with tonal_unit_mpeg2 := nal }

/-- The list `extension_start_code_identifier_meaning`. -/
def extension_start_code_identifier_meaning : List QString :=
  ["Reserved", "Sequence Extension ID", "Sequence Display Extension ID",
   "Quant Matrix Extension ID", "Copyright Extension ID", "Sequence Scalable Extension ID",
   "Reserved", "Picture Display Extension ID", "Picture Coding Extension ID",
   "Picture Spatial Scalable Extension ID", "Picture Temporal Scalable Extension ID", "Reserved"]

/-- The list `progressive_sequence_meaning`. -/
def progressive_sequence_meaning : List QString :=
  ["the coded video sequence may contain both frame-pictures and field-pictures, and frame-picture may be progressive or interlaced frames.",
   "the coded video sequence contains only progressive frame-pictures"]

/-- The list `chroma_format_meaning`. -/
def chroma_format_meaning : List QString := ["Reserved", "4:2:0", "4:2:2", "4:4:4"]

/-- The list `low_delay_meaning`. -/
def low_delay_meaning : List QString :=
  ["sequence may contain B-pictures, the frame re-ordering delay is present in the VBV description and the bitstream shall not contain big pictures",
   "sequence does not contain any B-pictures, the frame e-ordering delay is not present in the VBV description and the bitstream may contain \x27big pictures\x27"]

/-- The statements of `sequence_extension::parse_sequence_extension` after the reader and
the node `itemTree` are set up. -/
def sequence_extension_body : P sequence_extension Unit := do
  READBITS_M "extension_start_code_identifier"
    (fun s v => { s with extension_start_code_identifier := v }) 4
    (Meaning.table extension_start_code_identifier_meaning)
  READBITS "profile_and_level_indication"
    (fun s v => { s with profile_and_level_indication := v }) 8
  READFLAG_M "progressive_sequence" (fun s b => { s with progressive_sequence := b })
    (Meaning.table progressive_sequence_meaning)
  READBITS_M "chroma_format" (fun s v => { s with chroma_format := v }) 2
    (Meaning.table chroma_format_meaning)
  READBITS_M "horizontal_size_extension" (fun s v => { s with horizontal_size_extension := v }) 2
    (Meaning.text "most significant bits from horizontal_size")
  READBITS_M "vertical_size_extension" (fun s v => { s with vertical_size_extension := v }) 2
    (Meaning.text "most significant bits from vertical_size")
  READBITS_M "bit_rate_extension" (fun s v => { s with bit_rate_extension := v }) 12
    (Meaning.text "12 most significant bits from bit_rate")
  READFLAG "marker_bit" (fun s b => { s with marker_bit := b })
  let s ← P.getSelf
  if !s.marker_bit then
    P.throw (ParseError.logic_error markerMessage)
  READBITS_M "vbv_buffer_size_extension" (fun s v => { s with vbv_buffer_size_extension := v }) 8
    (Meaning.text "most significant bits from vbv_buffer_size")
  READFLAG_M "low_delay" (fun s b => { s with low_delay := b }) (Meaning.table low_delay_meaning)
  READBITS "frame_rate_extension_n" (fun s v => { s with frame_rate_extension_n := v }) 2
  READBITS "frame_rate_extension_d" (fun s v => { s with frame_rate_extension_d := v }) 5

/-- `sequence_extension::parse_sequence_extension`. -/
def parse_sequence_extension (self : sequence_extension) (parameterSetData : QByteArray)
    (root : Option TreeItem) : Parsed sequence_extension :=
  runDecoder "sequence_extension()" parameterSetData root
    { self with nalPayload := parameterSetData } sequence_extension_body

/-! ## The orchestrator -/

/-- `QByteArray::at(i)`; an index outside the array is reported as `indexOutOfRange`. -/
def QByteArray_at (data : QByteArray) (i : Nat) : Except ParseError Byte :=
  match data.get? i with
  | some b => .ok b
  | none => .error ParseError.indexOutOfRange

/-- `QByteArray::mid(pos, len)`. -/
def QByteArray_mid (data : QByteArray) (pos len : Nat) : QByteArray := (data.drop pos).take len

/-- `QByteArray::mid(pos)`: everything from `pos` on. -/
def QByteArray_midFrom (data : QByteArray) (pos : Nat) : QByteArray := data.drop pos

/-- The comparison `data.at(i) == (char)c`. -/
def byteIs (data : QByteArray) (i : Nat) (c : Byte) : Except ParseError Bool :=
  match QByteArray_at data i with
  | .ok b => .ok (b == c)
  | .error e => .error e

/-- The operator `&&`: the right operand is evaluated only when the left one is true. -/
def shortAnd (a b : Except ParseError Bool) : Except ParseError Bool :=
  match a with
  | .ok true => b
  | .ok false => .ok false
  | .error e => .error e

/-- The first statements of `parseAndAddNALUnit`: the number of bytes to skip. -/
def startCodeSkip (data : QByteArray) : Except ParseError Nat :=
  match shortAnd (byteIs data 0 0) (shortAnd (byteIs data 1 0) (byteIs data 2 1)) with
  | .error e => .error e
  | .ok true => .ok 3
  | .ok false =>
    match shortAnd (byteIs data 0 0) (shortAnd (byteIs data 1 0)
        (shortAnd (byteIs data 2 0) (byteIs data 3 1))) with
    | .error e => .error e
    | .ok true => .ok 4
    | .ok false => .ok 0

/-- The member `nalUnitModel` of the parser, as far as `parseAndAddNALUnit` uses it. -/
structure NALUnitModel where
  rootItem : Option TreeItem

/-- The values the class declarations give to the members of a newly constructed object.
The declarations are outside the sources at hand, so the values are left open. -/
structure MemberDefaults where
  nal : nal_unit_mpeg2
  header : sequence_header
  extension : sequence_extension

/-- Modelled from the spec: the constructor `nal_unit_mpeg2(nalStartEndPosFile, nalID)` is
declared outside the sources at hand. Spec 3 (RawUnit): a unit carries its byte range in
the source buffer and its sequential index. -/
def nal_unit_mpeg2.ctor (members : nal_unit_mpeg2) (filePosStartEnd : Nat × Nat) (nal_idx : Int) :
    nal_unit_mpeg2 :=
  { members with filePosStartEnd := filePosStartEnd, nal_idx := nal_idx }

/-- The object a call of `parseAndAddNALUnit` has decoded when it returns. -/
inductive ParsedUnit where
  | header_only (nal : nal_unit_mpeg2)
  | with_sequence_header (h : sequence_header)
  | with_sequence_extension (e : sequence_extension)
  deriving DecidableEq, Repr

/-- What a call of `parseAndAddNALUnit` leaves behind: the tree of the caller, the tree of
the parser, the label of the caller (absent for a null pointer), the node `nalRoot` of the
unit (absent when no tree is built) and the decoded unit or the exception. -/
structure Outcome where
  parent : Option TreeItem
  nalUnitModel : NALUnitModel
  nalTypeName : Option QString
  nalRoot : Option TreeItem
  result : Except ParseError ParsedUnit

/-- The name `QString("NAL %1: %2").arg(nal_idx).arg(nal_unit_type_toString.value(type))
+ specificDescription`. -/
def unitName (nal : nal_unit_mpeg2) (specificDescription : QString) : QString :=
  "NAL " ++ toString nal.nal_idx ++ ": "
    ++ nal_unit_type_toString.getD nal.nal_unit_type.toIndex "" ++ specificDescription

/-- The state at the end of the call (or at the throw): `nalRoot` hangs below `parent`
when there is one and else below the root item of the parser. -/
def finishUnit (this : NALUnitModel) (parent nalRoot : Option TreeItem)
    (nalTypeName : Option QString) (result : Except ParseError ParsedUnit) : Outcome :=
  if parent.isSome then
    { parent := attach parent nalRoot, nalUnitModel := this, nalTypeName := nalTypeName
      nalRoot := nalRoot, result := result }
  else
    { parent := parent, nalUnitModel := { rootItem := attach this.rootItem nalRoot }
      nalTypeName := nalTypeName, nalRoot := nalRoot, result := result }

/-- `parserAnnexBMpeg2::parseAndAddNALUnit`. -/
def parseAndAddNALUnit (this : NALUnitModel) (dflt : MemberDefaults) (nalID : Int)
    (data : QByteArray) (parent : Option TreeItem) (nalStartEndPosFile : Nat × Nat)
    (nalTypeName : Option QString) : Outcome :=
  match startCodeSkip data with
  | .error e =>
    { parent := parent, nalUnitModel := this, nalTypeName := nalTypeName, nalRoot := none
      result := .error e }
  | .ok skip =>
    let nalHeaderBytes := QByteArray_mid data skip 1
    let payload := QByteArray_midFrom data (skip + 1)
    let nalRoot : Option TreeItem :=
      if parent.isSome then some TreeItem.blank
      else if this.rootItem.isSome then some TreeItem.blank
      else none
    let nal_mpeg2 := nal_unit_mpeg2.ctor dflt.nal nalStartEndPosFile nalID
    let hd := parse_nal_unit_header nal_mpeg2 nalHeaderBytes nalRoot
    match hd.result with
    | .error e => finishUnit this parent hd.root nalTypeName (.error e)
    | .ok _ =>
      if hd.self.nal_unit_type = SEQUENCE_HEADER then
        let p := parse_sequence_header (sequence_header.ctor hd.self dflt.header) payload hd.root
        match p.result with
        | .error e => finishUnit this parent p.root nalTypeName (.error e)
        | .ok _ =>
          finishUnit this parent
            (p.root.map (fun t => t.appendData (unitName hd.self " Sequence Header")))
            (nalTypeName.map (fun _ => " SeqHeader"))
            (.ok (ParsedUnit.with_sequence_header p.self))
      else if hd.self.nal_unit_type = EXTENSION_START then
        let p := parse_sequence_extension (sequence_extension.ctor hd.self dflt.extension)
          payload hd.root
        match p.result with
        | .error e => finishUnit this parent p.root nalTypeName (.error e)
        | .ok _ =>
          finishUnit this parent
            (p.root.map (fun t => t.appendData (unitName hd.self " Sequence Extension")))
            (nalTypeName.map (fun _ => " SeqExt"))
            (.ok (ParsedUnit.with_sequence_extension p.self))
      else
        finishUnit this parent (hd.root.map (fun t => t.appendData (unitName hd.self "")))
          nalTypeName (.ok (ParsedUnit.header_only hd.self))

/-! ## Auxiliary definitions for the proofs -/

/-- Attaching the nodes of a list one after the other. -/
def addChildren (t : TreeItem) (nodes : List TreeItem) : TreeItem := nodes.foldl TreeItem.addChild t

/-- The node a `READBITS` or `READBITS_M` of `n` bits at bit `pos` records. -/
def bitNode (into : QString) (bytes : QByteArray) (pos n : Nat) (m : Meaning) : TreeItem :=
  TreeItem.field into (bitsValue bytes pos n) (codingUV n) (String.mk (bitsChars bytes pos n)) m

/-- The node a `READFLAG` or `READFLAG_M` at bit `pos` records. -/
def flagNode (into : QString) (bytes : QByteArray) (pos : Nat) (m : Meaning) : TreeItem :=
  TreeItem.field into (bitsValue bytes pos 1 != 0).toNat "u(1)" (flagCode (bitsValue bytes pos 1 != 0)) m

/-- The nodes `parse_sequence_extension` records up to and including the marker bit. -/
def extensionNodesBeforeMarker (bytes : QByteArray) : List TreeItem :=
  [bitNode "extension_start_code_identifier" bytes 0 4 (Meaning.table extension_start_code_identifier_meaning),
   bitNode "profile_and_level_indication" bytes 4 8 Meaning.absent,
   flagNode "progressive_sequence" bytes 12 (Meaning.table progressive_sequence_meaning),
   bitNode "chroma_format" bytes 13 2 (Meaning.table chroma_format_meaning),
   bitNode "horizontal_size_extension" bytes 15 2 (Meaning.text "most significant bits from horizontal_size"),
   bitNode "vertical_size_extension" bytes 17 2 (Meaning.text "most significant bits from vertical_size"),
   bitNode "bit_rate_extension" bytes 19 12 (Meaning.text "12 most significant bits from bit_rate"),
   flagNode "marker_bit" bytes 31 Meaning.absent]

/-- The nodes `parse_sequence_extension` records after the marker bit. -/
def extensionNodesAfterMarker (bytes : QByteArray) : List TreeItem :=
  [bitNode "vbv_buffer_size_extension" bytes 32 8 (Meaning.text "most significant bits from vbv_buffer_size"),
   flagNode "low_delay" bytes 40 (Meaning.table low_delay_meaning),
   bitNode "frame_rate_extension_n" bytes 41 2 Meaning.absent,
   bitNode "frame_rate_extension_d" bytes 43 5 Meaning.absent]

/-- The members `parse_sequence_extension` has assigned once the marker bit is read. -/
def extensionBeforeMarker (s : sequence_extension) (bytes : QByteArray) : sequence_extension :=
  { s with
    extension_start_code_identifier := bitsValue bytes 0 4
    profile_and_level_indication := bitsValue bytes 4 8
    progressive_sequence := bitsValue bytes 12 1 != 0
    chroma_format := bitsValue bytes 13 2
    horizontal_size_extension := bitsValue bytes 15 2
    vertical_size_extension := bitsValue bytes 17 2
    bit_rate_extension := bitsValue bytes 19 12
    marker_bit := bitsValue bytes 31 1 != 0 }

/-- The members `parse_sequence_extension` has assigned when it completes. -/
def extensionAfterMarker (s : sequence_extension) (bytes : QByteArray) : sequence_extension :=
  { extensionBeforeMarker s bytes with
    vbv_buffer_size_extension := bitsValue bytes 32 8
    low_delay := bitsValue bytes 40 1 != 0
    frame_rate_extension_n := bitsValue bytes 41 2
    frame_rate_extension_d := bitsValue bytes 43 5 }

/-- The nodes a matrix loop records: `count` fields of 8 bits from bit `pos` on. -/
def matrixNodes (into : QString) (bytes : QByteArray) : Nat → Nat → List TreeItem
  | _, 0 => []
  | pos, count + 1 => bitNode into bytes pos 8 Meaning.absent :: matrixNodes into bytes (pos + 8) count

/-- The object after `count` rounds of a matrix loop that starts at index `i` and bit `pos`. -/
def assignMany {σ : Type} (assign : Nat → σ → Nat → σ) (bytes : QByteArray) :
    Nat → Nat → Nat → σ → σ
  | 0, _, _, s => s
  | count + 1, i, pos, s => assignMany assign bytes count (i + 1) (pos + 8) (assign i s (bitsValue bytes pos 8))

/-- The nodes `parse_sequence_header` records up to and including the marker bit. -/
def headerNodesBeforeMarker (bytes : QByteArray) : List TreeItem :=
  [bitNode "horizontal_size_value" bytes 0 12 Meaning.absent,
   bitNode "vertical_size_value" bytes 12 12 Meaning.absent,
   bitNode "aspect_ratio_information" bytes 24 4 (Meaning.table aspect_ratio_information_meaning),
   bitNode "frame_rate_code" bytes 28 4 (Meaning.table frame_rate_code_meaning),
   bitNode "bit_rate_value" bytes 32 18 (Meaning.text "The lower 18 bits of bit_rate."),
   flagNode "marker_bit" bytes 50 Meaning.absent]

/-- The three nodes `parse_sequence_header` records right after the marker bit. -/
def headerNodesFlags (bytes : QByteArray) : List TreeItem :=
  [bitNode "vbv_buffer_size_value" bytes 51 10 (Meaning.text "the lower 10 bits of vbv_buffer_size"),
   flagNode "constrained_parameters_flag" bytes 61 Meaning.absent,
   flagNode "load_intra_quantiser_matrix" bytes 62 Meaning.absent]

/-- The members `parse_sequence_header` has assigned once the marker bit is read. -/
def headerBeforeMarker (s : sequence_header) (bytes : QByteArray) : sequence_header :=
  { s with
    horizontal_size_value := bitsValue bytes 0 12
    vertical_size_value := bitsValue bytes 12 12
    aspect_ratio_information := bitsValue bytes 24 4
    frame_rate_code := bitsValue bytes 28 4
    bit_rate_value := bitsValue bytes 32 18
    marker_bit := bitsValue bytes 50 1 != 0 }

/-- The members `parse_sequence_header` has assigned once `load_intra_quantiser_matrix` is read. -/
def headerFlags (s : sequence_header) (bytes : QByteArray) : sequence_header :=
  { headerBeforeMarker s bytes with
    vbv_buffer_size_value := bitsValue bytes 51 10
    constrained_parameters_flag := bitsValue bytes 61 1 != 0
    load_intra_quantiser_matrix := bitsValue bytes 62 1 != 0 }

/-- The number of rounds of the first matrix loop: 64 when bit 62 is set, else none. -/
def intraCount (bytes : QByteArray) : Nat := if bitsValue bytes 62 1 != 0 then 64 else 0

/-- The bit `load_non_intra_quantiser_matrix` is read at. -/
def nonIntraFlagPos (bytes : QByteArray) : Nat := 63 + 8 * intraCount bytes

/-- The number of rounds of the second matrix loop. -/
def nonIntraCount (bytes : QByteArray) : Nat :=
  if bitsValue bytes (nonIntraFlagPos bytes) 1 != 0 then 64 else 0

/-- The number of bits a complete `parse_sequence_header` consumes. -/
def headerBits (bytes : QByteArray) : Nat := nonIntraFlagPos bytes + 1 + 8 * nonIntraCount bytes

/-- The nodes a complete `parse_sequence_header` records, in order. -/
def headerNodes (bytes : QByteArray) : List TreeItem :=
  headerNodesBeforeMarker bytes ++ headerNodesFlags bytes
    ++ matrixNodes "intra_quantiser_matrix[i]" bytes 63 (intraCount bytes)
    ++ [flagNode "load_non_intra_quantiser_matrix" bytes (nonIntraFlagPos bytes) Meaning.absent]
    ++ matrixNodes "non_intra_quantiser_matrix[i]" bytes (nonIntraFlagPos bytes + 1)
        (nonIntraCount bytes)

/-- The object once the first matrix loop of `parse_sequence_header` is through. -/
def headerIntra (s : sequence_header) (bytes : QByteArray) : sequence_header :=
  assignMany (fun i s v => { s with intra_quantiser_matrix := s.intra_quantiser_matrix.set i v })
    bytes (intraCount bytes) 0 63 (headerFlags s bytes)

/-- The object a complete `parse_sequence_header` leaves. -/
def headerDecoded (s : sequence_header) (bytes : QByteArray) : sequence_header :=
  assignMany
    (fun i s v => { s with non_intra_quantiser_matrix := s.non_intra_quantiser_matrix.set i v })
    bytes (nonIntraCount bytes) 0 (nonIntraFlagPos bytes + 1)
    { headerIntra s bytes with
      load_non_intra_quantiser_matrix := bitsValue bytes (nonIntraFlagPos bytes) 1 != 0 }

/-- The values a matrix loop reads: `count` fields of 8 bits from bit `pos` on. -/
def matrixValues (bytes : QByteArray) : Nat → Nat → List Nat
  | _, 0 => []
  | pos, count + 1 => bitsValue bytes pos 8 :: matrixValues bytes (pos + 8) count

/-- The array after `count` rounds of a matrix loop that starts at index `i` and bit `pos`. -/
def setMany (bytes : QByteArray) : Nat → Nat → Nat → List Nat → List Nat
  | 0, _, _, m => m
  | count + 1, i, pos, m => setMany bytes count (i + 1) (pos + 8) (m.set i (bitsValue bytes pos 8))

/-- A statement is oblivious of the tree when the exception it throws or the value it
completes with, the reader and the object it leaves do not depend on the node `itemTree`. -/
def Oblivious {σ α : Type} (m : P σ α) : Prop :=
  ∀ (r : sub_byte_reader) (t1 t2 : Option TreeItem) (s : σ),
    (m ⟨r, t1, s⟩).2 = (m ⟨r, t2, s⟩).2 ∧
    (m ⟨r, t1, s⟩).1.reader = (m ⟨r, t2, s⟩).1.reader ∧
    (m ⟨r, t1, s⟩).1.self = (m ⟨r, t2, s⟩).1.self

/-! ## Sample inputs -/

/-- A unit object as a constructor may leave it. -/
def sampleNal : nal_unit_mpeg2 :=
  { filePosStartEnd := (0, 0), nal_idx := 0, nalPayload := [], nal_unit_type := UNSPECIFIED
    slice_id := -1, system_start_codes := -1, start_code_value := -1 }

/-- A sequence header object before decoding, its matrices holding 64 zeros. -/
def sampleHeader : sequence_header :=
  { sampleNal with
    horizontal_size_value := 0, vertical_size_value := 0, aspect_ratio_information := 0
    frame_rate_code := 0, bit_rate_value := 0, marker_bit := false, vbv_buffer_size_value := 0
    constrained_parameters_flag := false, load_intra_quantiser_matrix := false
    intra_quantiser_matrix := List.replicate 64 0, load_non_intra_quantiser_matrix := false
    non_intra_quantiser_matrix := List.replicate 64 0 }

/-- A sequence extension object before decoding. -/
def sampleExtension : sequence_extension :=
  { sampleNal with
    extension_start_code_identifier := 0, profile_and_level_indication := 0
    progressive_sequence := false, chroma_format := 0, horizontal_size_extension := 0
    vertical_size_extension := 0, bit_rate_extension := 0, marker_bit := false
    vbv_buffer_size_extension := 0, low_delay := false, frame_rate_extension_n := 0
    frame_rate_extension_d := 0 }

/-- The member values of newly constructed objects used in the examples. -/
def sampleDefaults : MemberDefaults :=
  { nal := sampleNal, header := sampleHeader, extension := sampleExtension }

/-- A sequence header payload: 176 x 144, marker bit set, no matrices. -/
def sampleHeaderPayload : QByteArray := [0x0B, 0x00, 0x90, 0x13, 0xFF, 0xFF, 0xE0, 0x18]

/-- The payload `sampleHeaderPayload` with the marker bit cleared. -/
def sampleHeaderPayloadNoMarker : QByteArray := [0x0B, 0x00, 0x90, 0x13, 0xFF, 0xFF, 0xC0, 0x18]

/-- A sequence header payload of 72 bytes with `load_intra_quantiser_matrix` set: the eight
bytes of `sampleHeaderPayload` with bit 62 raised, then the 64 matrix entries 1, 2, ..., 64
from bit 63 on (each byte holds the low seven bits of an entry in its upper bits), and
`load_non_intra_quantiser_matrix` cleared in bit 575. -/
def sampleHeaderPayloadIntra : QByteArray :=
  [0x0B, 0x00, 0x90, 0x13, 0xFF, 0xFF, 0xE0, 0x1A,
   2, 4, 6, 8, 10, 12, 14, 16, 18, 20, 22, 24, 26, 28, 30, 32,
   34, 36, 38, 40, 42, 44, 46, 48, 50, 52, 54, 56, 58, 60, 62, 64,
   66, 68, 70, 72, 74, 76, 78, 80, 82, 84, 86, 88, 90, 92, 94, 96,
   98, 100, 102, 104, 106, 108, 110, 112, 114, 116, 118, 120, 122, 124, 126, 128]

/-- A sequence extension payload with the marker bit set. -/
def sampleExtensionPayload : QByteArray := [0x14, 0x8A, 0x00, 0x01, 0x00, 0x00]


/-! ## Names of the unit types and further sample inputs -/

/-- The identifier of an enumerator, as written in the source. -/
def nal_unit_type_enum.identifier : nal_unit_type_enum → QString
  | UNSPECIFIED => "UNSPECIFIED"
  | PICTURE => "PICTURE"
  | SLICE => "SLICE"
  | USER_DATA => "USER_DATA"
  | SEQUENCE_HEADER => "SEQUENCE_HEADER"
  | SEQUENCE_ERROR => "SEQUENCE_ERROR"
  | EXTENSION_START => "EXTENSION_START"
  | SEQUENCE_END => "SEQUENCE_END"
  | GROUP_START => "GROUP_START"
  | SYSTEM_START_CODE => "SYSTEM_START_CODE"
  | RESERVED => "RESERVED"

/-- The raw bit strings of a list of nodes, one after the other. -/
def rawBits (nodes : List TreeItem) : List Char := (nodes.map (fun c => c.code.data)).flatten

/-- A group start unit: a 3-byte start code and the header byte 0xB8, no payload. -/
def sampleGroupStartUnit : QByteArray := [0, 0, 1, 0xB8]

/-- A picture unit: a 4-byte start code and the header byte 0x00, no payload. -/
def samplePictureUnit : QByteArray := [0, 0, 0, 1, 0x00]

/-- A sequence extension payload with the marker bit cleared. -/
def sampleExtensionPayloadNoMarker : QByteArray := [0x14, 0x8A, 0x00, 0x00, 0x00, 0x00]


/-- The display string expected on the root node of a unit parsed as `u` with index `nalID`. -/
def ParsedUnit.rootName (nalID : Int) : ParsedUnit → QString
  | ParsedUnit.with_sequence_header _ =>
    "NAL " ++ toString nalID ++ ": " ++ SEQUENCE_HEADER.identifier ++ " Sequence Header"
  | ParsedUnit.with_sequence_extension _ =>
    "NAL " ++ toString nalID ++ ": " ++ EXTENSION_START.identifier ++ " Sequence Extension"
  | ParsedUnit.header_only nal =>
    "NAL " ++ toString nalID ++ ": " ++ nal.nal_unit_type.identifier ++ ""

end parserAnnexBMpeg2

/-! ## The zoomable view (`YUViewLib/src/ui/views/MoveAndZoomableView.cpp`)

The zoom factor is a C++ `double`. A double is modelled by its value in IEEE 754 binary64:
NaN, an infinity, or a sign and an exact rational magnitude. The two operations that `zoom`
applies to `newZoom`, multiplication and division by `ZOOM_STEP_FACTOR`, are modelled with
their rounding (to nearest, ties to even), overflow to infinity and gradual underflow.
The `while` loops of `zoom` run on fuel: `none` means that the fuel ran out before the loop
condition became false. -/

namespace MoveAndZoomableView

/-- The `const int ZOOM_STEP_FACTOR`. -/
def ZOOM_STEP_FACTOR : Int := 2

/-- The three zoom modes that `zoom` distinguishes. -/
inductive ZoomMode where
  | IN
  | OUT
  | TO_VALUE
  deriving DecidableEq, Repr

/-- A `QPoint`: integer widget coordinates. -/
structure QPoint where
  x : Int
  y : Int
  deriving DecidableEq, Repr

/-- The test `QPoint::isNull`: both coordinates are zero. -/
def QPoint.isNull (p : QPoint) : Bool := p.x == 0 && p.y == 0

/-- Coordinate-wise sum, `QPoint + QPoint`. -/
def QPoint.add (p q : QPoint) : QPoint := ⟨p.x + q.x, p.y + q.y⟩

/-- Coordinate-wise difference, `QPoint - QPoint`. -/
def QPoint.sub (p q : QPoint) : QPoint := ⟨p.x - q.x, p.y - q.y⟩

/-- A `double` by its value: not a number, plus or minus infinity, or a finite value given
by its sign bit and its magnitude (so that `finite true 0` is the negative zero). -/
inductive Double where
  | nan
  | inf (negative : Bool)
  | finite (negative : Bool) (magnitude : ℚ)
  deriving DecidableEq, Repr

/-- The magnitudes of the finite doubles: `m * 2 ^ e / 2 ^ 1074` with a significand
`m < 2 ^ 53` and `e ≤ 2045`, from the smallest subnormal `2 ^ -1074` up to
`(2 ^ 53 - 1) * 2 ^ 971`. -/
def Double.isMagnitude (q : ℚ) : Prop :=
  ∃ m e : Nat, m < 2 ^ 53 ∧ e ≤ 2045 ∧ q = (m : ℚ) * 2 ^ e / 2 ^ 1074

/-- The values that a `double` can hold: the magnitude of a finite one is representable. -/
def Double.isDouble : Double → Prop
  | Double.finite _ q => Double.isMagnitude q
  | _ => True

/-- The rational value of a finite double from its sign bit and magnitude. -/
def Double.signed (negative : Bool) (magnitude : ℚ) : ℚ :=
  if negative then -magnitude else magnitude

/-- The comparison `a < b` of two doubles: false when either is NaN. -/
def Double.lt : Double → Double → Bool
  | Double.nan, _ => false
  | _, Double.nan => false
  | Double.inf n1, Double.inf n2 => n1 && !n2
  | Double.inf n, Double.finite _ _ => n
  | Double.finite _ _, Double.inf n => !n
  | Double.finite s a, Double.finite t b => decide (Double.signed s a < Double.signed t b)

/-- The comparison `a <= b` of two doubles: false when either is NaN. -/
def Double.le : Double → Double → Bool
  | Double.nan, _ => false
  | _, Double.nan => false
  | Double.inf n1, Double.inf n2 => n1 || !n2
  | Double.inf n, Double.finite _ _ => n
  | Double.finite _ _, Double.inf n => !n
  | Double.finite s a, Double.finite t b => decide (Double.signed s a ≤ Double.signed t b)

/-- The nearest integer to a rational that is not negative, a tie going to the even one. -/
def roundHalfEven (x : ℚ) : Int :=
  if x - ⌊x⌋ < 1 / 2 then ⌊x⌋
  else if x - ⌊x⌋ > 1 / 2 then ⌊x⌋ + 1
  else if ⌊x⌋ % 2 = 0 then ⌊x⌋
  else ⌊x⌋ + 1

/-- The product `x * ZOOM_STEP_FACTOR` of a double with 2.0. Doubling a finite double is
exact unless the result leaves the range of the finite doubles, that is, reaches
`2 ^ 1024`; then it is the infinity of the same sign. -/
def Double.mulStep : Double → Double
  | Double.nan => Double.nan
  | Double.inf n => Double.inf n
  | Double.finite s m =>
    if m * ZOOM_STEP_FACTOR ≥ 2 ^ 1024 then Double.inf s
    else Double.finite s (m * ZOOM_STEP_FACTOR)

/-- The quotient `x / ZOOM_STEP_FACTOR` of a double by 2.0. Halving a finite double is
exact while the result is a normal number (at least `2 ^ -1022`); a smaller result is
rounded to a multiple of `2 ^ -1074`, ties to even, so that halving the smallest subnormal
gives zero. -/
def Double.divStep : Double → Double
  | Double.nan => Double.nan
  | Double.inf n => Double.inf n
  | Double.finite s m =>
    if m / ZOOM_STEP_FACTOR ≥ 1 / 2 ^ 1022 then Double.finite s (m / ZOOM_STEP_FACTOR)
    else Double.finite s (roundHalfEven (m / ZOOM_STEP_FACTOR * 2 ^ 1074) / 2 ^ 1074)

/-- What `setZoomFactor(zoom, false)` and `setMoveOffset(offset, false)` write in a
linked view: with `setLinkedViews` false they only assign the member. -/
structure LinkedView where
  zoomFactor : Double
  moveOffset : QPoint
  deriving DecidableEq, Repr

/-- The members of the view that `zoom` reads or writes. -/
structure View where
  zoomFactor : Double
  moveOffset : QPoint
  enableLink : Bool
  slaveViews : List LinkedView
  deriving DecidableEq, Repr

/-- The method `setZoomFactor(zoom, setLinkedViews)`: forwards the factor to the linked
views when linking is enabled and requested, then assigns `zoomFactor`. -/
def setZoomFactor (self : View) (zoom : Double) (setLinkedViews : Bool) : View :=
  let slaves :=
    if self.enableLink && setLinkedViews then
      self.slaveViews.map (fun v => { v with zoomFactor := zoom })
    else self.slaveViews
  { self with slaveViews := slaves, zoomFactor := zoom }

/-- The method `setMoveOffset(offset, setLinkedViews)`: same pattern for `moveOffset`. -/
def setMoveOffset (self : View) (offset : QPoint) (setLinkedViews : Bool) : View :=
  let slaves :=
    if self.enableLink && setLinkedViews then
      self.slaveViews.map (fun v => { v with moveOffset := offset })
    else self.slaveViews
  { self with slaveViews := slaves, moveOffset := offset }

/-- A loop `while (cond(x)) x = step(x);` on fuel, started at `x`. -/
def whileLoop (cond : Double → Bool) (step : Double → Double) : Nat → Double → Option Double
  | 0, _ => none
  | fuel + 1, x => if cond x then whileLoop cond step fuel (step x) else some x

/-- The value of `newZoom` after the mode-dependent part of `zoom`, for the current
`zoomFactor`. `newZoom` starts as 1.0; `a > b` is `b < a` and `a >= b` is `b <= a`. -/
def nextZoom (fuel : Nat) (zoomMode : ZoomMode) (zoomFactor newZoomFactor : Double) :
    Option Double :=
  match zoomMode with
  | ZoomMode.IN =>
    if Double.lt (Double.finite false 1) zoomFactor then
      whileLoop
        (fun newZoom => Double.le newZoom zoomFactor && Double.lt newZoom (Double.inf false))
        Double.mulStep fuel (Double.finite false 1)
    else
      (whileLoop (fun newZoom => Double.lt zoomFactor newZoom) Double.divStep fuel
        (Double.finite false 1)).map Double.mulStep
  | ZoomMode.OUT =>
    if Double.lt (Double.finite false 1) zoomFactor then
      (whileLoop (fun newZoom => Double.lt newZoom zoomFactor) Double.mulStep fuel
        (Double.finite false 1)).map Double.divStep
    else
      whileLoop
        (fun newZoom => Double.le zoomFactor newZoom && Double.lt (Double.finite false 0) newZoom)
        Double.divStep fuel (Double.finite false 1)
  | ZoomMode.TO_VALUE => some newZoomFactor

/-- The method `zoom(zoomMode, zoomPoint, newZoomFactor)`. Four things are arguments:
`origin` is the centre of the widget rectangle that `getMoveOffsetCoordinateSystemOrigin`
returns, `divide` is the division of two doubles (it only yields `stepZoomFactor`, which
goes into the move offset), `scale` is Qt's `double * QPoint`, and `linked` is the default
value of the `setLinkedViews` argument of the two setters. -/
def zoom (fuel : Nat) (origin : QPoint) (divide : Double → Double → Double)
    (scale : Double → QPoint → QPoint) (linked : Bool)
    (self : View) (zoomMode : ZoomMode) (zoomPoint : QPoint) (newZoomFactor : Double) :
    Option View :=
  match nextZoom fuel zoomMode self.zoomFactor newZoomFactor with
  | none => none
  | some newZoom =>
    let stepZoomFactor := divide newZoom self.zoomFactor
    let moved :=
      if !zoomPoint.isNull then
        let centerMoveOffset := origin.add self.moveOffset
        let movementDelta := centerMoveOffset.sub zoomPoint
        let newMoveOffset :=
          if Double.le (Double.finite false 1) stepZoomFactor then
            self.moveOffset.add movementDelta
          else self.moveOffset.sub (scale stepZoomFactor movementDelta)
        setMoveOffset self newMoveOffset linked
      else self
    some (setZoomFactor moved newZoom linked)

/-- A view with the given zoom factor, no offset and no linked views. -/
def sampleView (zoomFactor : Double) : View := ⟨zoomFactor, ⟨0, 0⟩, false, []⟩

/-- A stand-in for the division of doubles: the exact quotient of two finite values, not
rounded, and NaN in every other case. -/
def sampleDivide : Double → Double → Double
  | Double.finite s a, Double.finite t b =>
    if b = 0 then Double.nan else Double.finite (s != t) (a / b)
  | _, _ => Double.nan

/-- A stand-in for the product of a double and a point: each coordinate is rounded down,
and the point is kept when the factor is not finite. -/
def sampleScale : Double → QPoint → QPoint
  | Double.finite s f, p => ⟨⌊Double.signed s f * p.x⌋, ⌊Double.signed s f * p.y⌋⟩
  | _, p => p

/-- The double nearest to 1.9, `0x3FFE666666666666`. -/
def sampleZoom19 : Double := Double.finite false (8556839292003942 / 2 ^ 52)

/-- The double nearest to 0.3, `0x3FD3333333333333`. -/
def sampleZoom03 : Double := Double.finite false (5404319552844595 / 2 ^ 54)

/-- The double `2 ^ 1023`, which a view reaches by zooming in 1023 times from 1.0. -/
def sampleZoomHuge : Double := Double.finite false (2 ^ 1023)

end MoveAndZoomableView

namespace parserAnnexBMpeg2
open nal_unit_type_enum



/-! ## Lemmas on the bit reader and the read-and-record steps -/

theorem bitsValue_add (bytes : QByteArray) (pos m n : Nat) :
    bitsValue bytes pos (m + n) = bitsValue bytes pos m * 2 ^ n + bitsValue bytes (pos + m) n := by
  induction n with
  | zero => simp [bitsValue]
  | succ n ih =>
    rw [← Nat.add_assoc, bitsValue, ih, bitsValue, Nat.pow_succ, Nat.add_assoc pos m n]
    ring

theorem bitsValue_in_byte (bytes : QByteArray) (k o n : Nat) (h : o + n ≤ 8) :
    bitsValue bytes (8 * k + o) n = ((bytes.getD k 0).val / 2 ^ (8 - o - n)) % 2 ^ n := by
  induction n with
  | zero => simp [bitsValue, Nat.mod_one]
  | succ n ih =>
    have hk : (8 * k + o + n) / 8 = k := by omega
    have ho : (8 * k + o + n) % 8 = o + n := by omega
    rw [bitsValue, ih (by omega), bitAt, hk, ho]
    have e1 : 8 - o - n = (7 - (o + n)) + 1 := by omega
    have e2 : 8 - o - (n + 1) = 7 - (o + n) := by omega
    rw [e1, e2, Nat.pow_succ, ← Nat.div_div_eq_div_mul, Nat.pow_succ, Nat.mul_comm (2 ^ n) 2,
      Nat.mod_mul]
    ring

theorem P_bind_apply {σ α β : Type} (m : P σ α) (f : α → P σ β) (c : Ctx σ) :
    (m >>= f) c = match m c with
      | (c1, .ok a) => f a c1
      | (c1, .error e) => (c1, .error e) := rfl

theorem P_pure_apply {σ α : Type} (a : α) (c : Ctx σ) : (pure a : P σ α) c = (c, .ok a) := rfl

theorem P_getSelf_apply {σ : Type} (c : Ctx σ) : (P.getSelf : P σ σ) c = (c, .ok c.self) := rfl

theorem P_throw_apply {σ α : Type} (e : ParseError) (c : Ctx σ) :
    (P.throw e : P σ α) c = (c, .error e) := rfl

theorem READBITS_M_ok {σ : Type} (into : QString) (assign : σ → Nat → σ) (n : Nat) (m : Meaning)
    (bytes : QByteArray) (pos : Nat) (t : Option TreeItem) (s : σ)
    (h : pos + n ≤ 8 * bytes.length) :
    READBITS_M into assign n m ⟨⟨bytes, pos⟩, t, s⟩ =
      (⟨⟨bytes, pos + n⟩, t.map (fun t => t.addChild (bitNode into bytes pos n m)),
        assign s (bitsValue bytes pos n)⟩, .ok ()) := by
  simp [READBITS_M, sub_byte_reader.readBits, h, bitNode]

theorem READBITS_M_overrun {σ : Type} (into : QString) (assign : σ → Nat → σ) (n : Nat)
    (m : Meaning) (bytes : QByteArray) (pos : Nat) (t : Option TreeItem) (s : σ)
    (h : 8 * bytes.length < pos + n) :
    READBITS_M into assign n m ⟨⟨bytes, pos⟩, t, s⟩ =
      (⟨⟨bytes, 8 * bytes.length⟩, t, s⟩, .error ParseError.BufferOverrun) := by
  have h1 : ¬ (pos + n ≤ 8 * bytes.length) := by omega
  simp [READBITS_M, sub_byte_reader.readBits, h1]

theorem READFLAG_M_ok {σ : Type} (into : QString) (assign : σ → Bool → σ) (m : Meaning)
    (bytes : QByteArray) (pos : Nat) (t : Option TreeItem) (s : σ)
    (h : pos + 1 ≤ 8 * bytes.length) :
    READFLAG_M into assign m ⟨⟨bytes, pos⟩, t, s⟩ =
      (⟨⟨bytes, pos + 1⟩, t.map (fun t => t.addChild (flagNode into bytes pos m)),
        assign s (bitsValue bytes pos 1 != 0)⟩, .ok ()) := by
  simp [READFLAG_M, sub_byte_reader.readBits, h, flagNode]

theorem READFLAG_M_overrun {σ : Type} (into : QString) (assign : σ → Bool → σ)
    (m : Meaning) (bytes : QByteArray) (pos : Nat) (t : Option TreeItem) (s : σ)
    (h : 8 * bytes.length < pos + 1) :
    READFLAG_M into assign m ⟨⟨bytes, pos⟩, t, s⟩ =
      (⟨⟨bytes, 8 * bytes.length⟩, t, s⟩, .error ParseError.BufferOverrun) := by
  have h1 : ¬ (pos + 1 ≤ 8 * bytes.length) := by omega
  simp [READFLAG_M, sub_byte_reader.readBits, h1]

theorem extension_body_ok (bytes : QByteArray) (t : Option TreeItem) (s : sequence_extension)
    (h : 48 ≤ 8 * bytes.length) (hm : bitsValue bytes 31 1 = 1) :
    sequence_extension_body ⟨⟨bytes, 0⟩, t, s⟩ =
      (⟨⟨bytes, 48⟩,
        t.map (fun t => addChildren t (extensionNodesBeforeMarker bytes ++ extensionNodesAfterMarker bytes)),
        extensionAfterMarker s bytes⟩, .ok ()) := by
  have hb : (bitsValue bytes 31 1 != 0) = true := by simp [hm]
  simp (disch := omega) only [sequence_extension_body, P_bind_apply, P_pure_apply, P_getSelf_apply,
    P_throw_apply, READBITS, READFLAG, READBITS_M_ok, READFLAG_M_ok, Nat.reduceAdd, Nat.zero_add,
    hb, Bool.not_true, Bool.not_false, Bool.false_eq_true, if_true, if_false]
  cases t <;> simp [extensionAfterMarker, extensionBeforeMarker, extensionNodesBeforeMarker,
    extensionNodesAfterMarker, hb, addChildren]

theorem extension_body_marker (bytes : QByteArray) (t : Option TreeItem) (s : sequence_extension)
    (h : 32 ≤ 8 * bytes.length) (hm : bitsValue bytes 31 1 = 0) :
    sequence_extension_body ⟨⟨bytes, 0⟩, t, s⟩ =
      (⟨⟨bytes, 32⟩,
        t.map (fun t => addChildren t (extensionNodesBeforeMarker bytes)),
        extensionBeforeMarker s bytes⟩, .error (ParseError.logic_error markerMessage)) := by
  have hb : (bitsValue bytes 31 1 != 0) = false := by simp [hm]
  simp (disch := omega) only [sequence_extension_body, P_bind_apply, P_pure_apply, P_getSelf_apply,
    P_throw_apply, READBITS, READFLAG, READBITS_M_ok, READFLAG_M_ok, Nat.reduceAdd, Nat.zero_add,
    hb, Bool.not_true, Bool.not_false, Bool.false_eq_true, if_true, if_false]
  cases t <;> simp [extensionAfterMarker, extensionBeforeMarker, extensionNodesBeforeMarker,
    extensionNodesAfterMarker, hb, addChildren]

theorem extension_body_short (bytes : QByteArray) (t : Option TreeItem) (s : sequence_extension)
    (h : 8 * bytes.length < 48) (hm : bitsValue bytes 31 1 = 1) :
    (sequence_extension_body ⟨⟨bytes, 0⟩, t, s⟩).2 = .error ParseError.BufferOverrun := by
  have hl : bytes.length = 0 ∨ bytes.length = 1 ∨ bytes.length = 2 ∨ bytes.length = 3 ∨
      bytes.length = 4 ∨ bytes.length = 5 := by omega
  have hb : (bitsValue bytes 31 1 != 0) = true := by simp [hm]
  rcases hl with hl | hl | hl | hl | hl | hl <;>
  simp (disch := omega) only [sequence_extension_body, P_bind_apply, P_pure_apply, P_getSelf_apply,
    P_throw_apply, READBITS, READFLAG, READBITS_M_ok, READFLAG_M_ok, READBITS_M_overrun,
    READFLAG_M_overrun, Nat.reduceAdd, Nat.zero_add, hb, Bool.not_true, Bool.not_false,
    Bool.false_eq_true, if_true, if_false]

theorem loopFrom_ok {σ : Type} (into : QString) (assign : Nat → σ → Nat → σ) (bytes : QByteArray)
    (count : Nat) : ∀ (i pos : Nat) (t : Option TreeItem) (s : σ),
    pos + 8 * count ≤ 8 * bytes.length →
    loopFrom (fun i => READBITS_M into (assign i) 8 Meaning.absent) count i ⟨⟨bytes, pos⟩, t, s⟩ =
      (⟨⟨bytes, pos + 8 * count⟩, t.map (fun t => addChildren t (matrixNodes into bytes pos count)),
        assignMany assign bytes count i pos s⟩, .ok ()) := by
  induction count with
  | zero =>
    intro i pos t s _
    cases t <;> simp [loopFrom, P.pure, matrixNodes, assignMany, addChildren]
  | succ count ih =>
    intro i pos t s h
    have h1 : pos + 8 ≤ 8 * bytes.length := by omega
    have h2 : pos + 8 + 8 * count ≤ 8 * bytes.length := by omega
    simp only [loopFrom, P.bind, READBITS_M_ok _ _ _ _ _ _ _ _ h1, ih _ _ _ _ h2]
    have e : pos + 8 + 8 * count = pos + 8 * (count + 1) := by omega
    cases t <;> simp [matrixNodes, assignMany, addChildren, e]

theorem loopFrom_short {σ : Type} (into : QString) (assign : Nat → σ → Nat → σ) (bytes : QByteArray)
    (count : Nat) : ∀ (i pos : Nat) (t : Option TreeItem) (s : σ),
    pos ≤ 8 * bytes.length → 8 * bytes.length < pos + 8 * count →
    loopFrom (fun i => READBITS_M into (assign i) 8 Meaning.absent) count i ⟨⟨bytes, pos⟩, t, s⟩ =
      (⟨⟨bytes, 8 * bytes.length⟩,
        t.map (fun t => addChildren t (matrixNodes into bytes pos ((8 * bytes.length - pos) / 8))),
        assignMany assign bytes ((8 * bytes.length - pos) / 8) i pos s⟩,
       .error ParseError.BufferOverrun) := by
  induction count with
  | zero => intro i pos t s h0 h; omega
  | succ count ih =>
    intro i pos t s h0 h
    by_cases h1 : pos + 8 ≤ 8 * bytes.length
    · have h2 : 8 * bytes.length < pos + 8 + 8 * count := by omega
      have e : (8 * bytes.length - pos) / 8 = (8 * bytes.length - (pos + 8)) / 8 + 1 := by omega
      simp only [loopFrom, P.bind, READBITS_M_ok _ _ _ _ _ _ _ _ h1, ih _ _ _ _ h1 h2]
      cases t <;> simp [matrixNodes, assignMany, addChildren, e]
    · have h2 : 8 * bytes.length < pos + 8 := by omega
      have e : (8 * bytes.length - pos) / 8 = 0 := by omega
      simp only [loopFrom, P.bind, READBITS_M_overrun _ _ _ _ _ _ _ _ h2]
      cases t <;> simp [matrixNodes, assignMany, addChildren, e]

theorem matrixNodes_zero (into : QString) (bytes : QByteArray) (pos : Nat) :
    matrixNodes into bytes pos 0 = [] := rfl

theorem assignMany_zero {σ : Type} (assign : Nat → σ → Nat → σ) (bytes : QByteArray)
    (i pos : Nat) (s : σ) : assignMany assign bytes 0 i pos s = s := rfl

theorem header_body_ok (bytes : QByteArray) (t : Option TreeItem) (s : sequence_header)
    (hm : bitsValue bytes 50 1 = 1) (h : headerBits bytes ≤ 8 * bytes.length) :
    sequence_header_body ⟨⟨bytes, 0⟩, t, s⟩ =
      (⟨⟨bytes, headerBits bytes⟩, t.map (fun t => addChildren t (headerNodes bytes)),
        headerDecoded s bytes⟩, .ok ()) := by
  have hb : (bitsValue bytes 50 1 != 0) = true := by simp [hm]
  cases ha : (bitsValue bytes 62 1 != 0)
  · have hp : nonIntraFlagPos bytes = 63 := by simp [nonIntraFlagPos, intraCount, ha]
    cases hn : (bitsValue bytes 63 1 != 0)
    · have hc : nonIntraCount bytes = 0 := by simp [nonIntraCount, hp, hn]
      have hL : 64 ≤ 8 * bytes.length := by simpa [headerBits, hp, hc] using h
      simp (disch := omega) only [sequence_header_body, P_bind_apply, P_pure_apply,
        P_getSelf_apply, P_throw_apply, READBITS, READFLAG, READBITS_M_ok, READFLAG_M_ok,
        Nat.reduceAdd, Nat.zero_add, hb, ha, hn, Bool.not_true, Bool.not_false,
        Bool.false_eq_true, if_true, if_false]
      cases t <;> simp [headerBits, headerNodes, headerDecoded, headerIntra, headerFlags,
        headerBeforeMarker, headerNodesBeforeMarker, headerNodesFlags, intraCount, nonIntraCount,
        nonIntraFlagPos, matrixNodes_zero, assignMany_zero, addChildren, ha, hn, hb]
    · have hc : nonIntraCount bytes = 64 := by simp [nonIntraCount, hp, hn]
      have hL : 576 ≤ 8 * bytes.length := by simpa [headerBits, hp, hc] using h
      simp (disch := omega) only [sequence_header_body, P_bind_apply, P_pure_apply,
        P_getSelf_apply, P_throw_apply, READBITS, READFLAG, READBITS_M_ok, READFLAG_M_ok,
        forLoop, Nat.sub_zero, loopFrom_ok,
        Nat.reduceAdd, Nat.reduceMul, Nat.zero_add, hb, ha, hn, Bool.not_true, Bool.not_false,
        Bool.false_eq_true, if_true, if_false]
      cases t <;> simp [headerBits, headerNodes, headerDecoded, headerIntra, headerFlags,
        headerBeforeMarker, headerNodesBeforeMarker, headerNodesFlags, intraCount, nonIntraCount,
        nonIntraFlagPos, matrixNodes_zero, assignMany_zero, addChildren, ha, hn, hb,
        List.foldl_append]
  · have hp : nonIntraFlagPos bytes = 575 := by simp [nonIntraFlagPos, intraCount, ha]
    cases hn : (bitsValue bytes 575 1 != 0)
    · have hc : nonIntraCount bytes = 0 := by simp [nonIntraCount, hp, hn]
      have hL : 576 ≤ 8 * bytes.length := by simpa [headerBits, hp, hc] using h
      simp (disch := omega) only [sequence_header_body, P_bind_apply, P_pure_apply,
        P_getSelf_apply, P_throw_apply, READBITS, READFLAG, READBITS_M_ok, READFLAG_M_ok,
        forLoop, Nat.sub_zero, loopFrom_ok,
        Nat.reduceAdd, Nat.reduceMul, Nat.zero_add, hb, ha, hn, Bool.not_true, Bool.not_false,
        Bool.false_eq_true, if_true, if_false]
      cases t <;> simp [headerBits, headerNodes, headerDecoded, headerIntra, headerFlags,
        headerBeforeMarker, headerNodesBeforeMarker, headerNodesFlags, intraCount, nonIntraCount,
        nonIntraFlagPos, matrixNodes_zero, assignMany_zero, addChildren, ha, hn, hb,
        List.foldl_append]
    · have hc : nonIntraCount bytes = 64 := by simp [nonIntraCount, hp, hn]
      have hL : 1088 ≤ 8 * bytes.length := by simpa [headerBits, hp, hc] using h
      simp (disch := omega) only [sequence_header_body, P_bind_apply, P_pure_apply,
        P_getSelf_apply, P_throw_apply, READBITS, READFLAG, READBITS_M_ok, READFLAG_M_ok,
        forLoop, Nat.sub_zero, loopFrom_ok,
        Nat.reduceAdd, Nat.reduceMul, Nat.zero_add, hb, ha, hn, Bool.not_true, Bool.not_false,
        Bool.false_eq_true, if_true, if_false]
      cases t <;> simp [headerBits, headerNodes, headerDecoded, headerIntra, headerFlags,
        headerBeforeMarker, headerNodesBeforeMarker, headerNodesFlags, intraCount, nonIntraCount,
        nonIntraFlagPos, matrixNodes_zero, assignMany_zero, addChildren, ha, hn, hb,
        List.foldl_append]

theorem header_body_marker (bytes : QByteArray) (t : Option TreeItem) (s : sequence_header)
    (h : 51 ≤ 8 * bytes.length) (hm : bitsValue bytes 50 1 = 0) :
    sequence_header_body ⟨⟨bytes, 0⟩, t, s⟩ =
      (⟨⟨bytes, 51⟩, t.map (fun t => addChildren t (headerNodesBeforeMarker bytes)),
        headerBeforeMarker s bytes⟩, .error (ParseError.logic_error markerMessage)) := by
  have hb : (bitsValue bytes 50 1 != 0) = false := by simp [hm]
  simp (disch := omega) only [sequence_header_body, P_bind_apply, P_pure_apply,
    P_getSelf_apply, P_throw_apply, READBITS, READFLAG, READBITS_M_ok, READFLAG_M_ok,
    Nat.reduceAdd, Nat.zero_add, hb, Bool.not_true, Bool.not_false,
    Bool.false_eq_true, if_true, if_false]
  cases t <;> simp [headerBeforeMarker, headerNodesBeforeMarker, addChildren, hb]

theorem header_body_overrun_early (bytes : QByteArray) (t : Option TreeItem)
    (s : sequence_header) (h : 8 * bytes.length < 51) :
    (sequence_header_body ⟨⟨bytes, 0⟩, t, s⟩).2 = .error ParseError.BufferOverrun := by
  have hl : bytes.length = 0 ∨ bytes.length = 1 ∨ bytes.length = 2 ∨ bytes.length = 3 ∨
      bytes.length = 4 ∨ bytes.length = 5 ∨ bytes.length = 6 := by omega
  rcases hl with hl | hl | hl | hl | hl | hl | hl <;>
  simp (disch := omega) only [sequence_header_body, P_bind_apply, P_pure_apply, P_getSelf_apply,
    P_throw_apply, READBITS, READFLAG, READBITS_M_ok, READFLAG_M_ok, READBITS_M_overrun,
    READFLAG_M_overrun, Nat.reduceAdd, Nat.zero_add]

theorem header_body_overrun_late (bytes : QByteArray) (t : Option TreeItem)
    (s : sequence_header) (hm : bitsValue bytes 50 1 = 1) (h51 : 51 ≤ 8 * bytes.length)
    (h : 8 * bytes.length < headerBits bytes) :
    (sequence_header_body ⟨⟨bytes, 0⟩, t, s⟩).2 = .error ParseError.BufferOverrun := by
  have hb : (bitsValue bytes 50 1 != 0) = true := by simp [hm]
  by_cases h7 : bytes.length = 7
  · simp (disch := omega) only [sequence_header_body, P_bind_apply, P_pure_apply,
      P_getSelf_apply, P_throw_apply, READBITS, READFLAG, READBITS_M_ok, READFLAG_M_ok,
      READBITS_M_overrun, READFLAG_M_overrun,
      Nat.reduceAdd, Nat.zero_add, hb, Bool.not_true, Bool.not_false,
      Bool.false_eq_true, if_true, if_false]
  have h64 : 64 ≤ 8 * bytes.length := by omega
  cases ha : (bitsValue bytes 62 1 != 0)
  · have hp : nonIntraFlagPos bytes = 63 := by simp [nonIntraFlagPos, intraCount, ha]
    cases hn : (bitsValue bytes 63 1 != 0)
    · have hc : nonIntraCount bytes = 0 := by simp [nonIntraCount, hp, hn]
      have hL : 8 * bytes.length < 64 := by simpa [headerBits, hp, hc] using h
      omega
    · have hc : nonIntraCount bytes = 64 := by simp [nonIntraCount, hp, hn]
      have hL : 8 * bytes.length < 576 := by simpa [headerBits, hp, hc] using h
      simp (disch := omega) only [sequence_header_body, P_bind_apply, P_pure_apply,
        P_getSelf_apply, P_throw_apply, READBITS, READFLAG, READBITS_M_ok, READFLAG_M_ok,
        forLoop, Nat.sub_zero, loopFrom_short,
        Nat.reduceAdd, Nat.reduceMul, Nat.zero_add, hb, ha, hn, Bool.not_true, Bool.not_false,
        Bool.false_eq_true, if_true, if_false]
  · have hp : nonIntraFlagPos bytes = 575 := by simp [nonIntraFlagPos, intraCount, ha]
    by_cases h575 : 8 * bytes.length < 575
    · simp (disch := omega) only [sequence_header_body, P_bind_apply, P_pure_apply,
        P_getSelf_apply, P_throw_apply, READBITS, READFLAG, READBITS_M_ok, READFLAG_M_ok,
        forLoop, Nat.sub_zero, loopFrom_short,
        Nat.reduceAdd, Nat.reduceMul, Nat.zero_add, hb, ha, Bool.not_true, Bool.not_false,
        Bool.false_eq_true, if_true, if_false]
    have h576 : 576 ≤ 8 * bytes.length := by omega
    cases hn : (bitsValue bytes 575 1 != 0)
    · have hc : nonIntraCount bytes = 0 := by simp [nonIntraCount, hp, hn]
      have hL : 8 * bytes.length < 576 := by simpa [headerBits, hp, hc] using h
      omega
    · have hc : nonIntraCount bytes = 64 := by simp [nonIntraCount, hp, hn]
      have hL : 8 * bytes.length < 1088 := by simpa [headerBits, hp, hc] using h
      simp (disch := omega) only [sequence_header_body, P_bind_apply, P_pure_apply,
        P_getSelf_apply, P_throw_apply, READBITS, READFLAG, READBITS_M_ok, READFLAG_M_ok,
        forLoop, Nat.sub_zero, loopFrom_ok, loopFrom_short,
        Nat.reduceAdd, Nat.reduceMul, Nat.zero_add, hb, ha, hn, Bool.not_true, Bool.not_false,
        Bool.false_eq_true, if_true, if_false]

/-! ## Lemmas on single bits and on the matrix loops -/

theorem bitAt_lt_two (bytes : QByteArray) (i : Nat) : bitAt bytes i < 2 := by
  unfold bitAt
  exact Nat.mod_lt _ (by decide)

theorem bitsValue_one (bytes : QByteArray) (pos : Nat) : bitsValue bytes pos 1 = bitAt bytes pos := by
  simp [bitsValue]

theorem bitsValue_one_cases (bytes : QByteArray) (pos : Nat) :
    bitsValue bytes pos 1 = 0 ∨ bitsValue bytes pos 1 = 1 := by
  have h := bitAt_lt_two bytes pos
  rw [bitsValue_one]
  omega

theorem flag_toNat (bytes : QByteArray) (pos : Nat) :
    (bitsValue bytes pos 1 != 0).toNat = bitAt bytes pos := by
  rw [bitsValue_one]
  have h := bitAt_lt_two bytes pos
  have h2 : bitAt bytes pos = 0 ∨ bitAt bytes pos = 1 := by omega
  rcases h2 with h2 | h2 <;> simp [h2]

theorem assignMany_intra (bytes : QByteArray) (count : Nat) :
    ∀ (i pos : Nat) (s : sequence_header),
    assignMany (fun i s v =>
        { s with intra_quantiser_matrix := s.intra_quantiser_matrix.set i v }) bytes count i pos s =
      { s with intra_quantiser_matrix := setMany bytes count i pos s.intra_quantiser_matrix } := by
  induction count with
  | zero => intro i pos s; rfl
  | succ count ih => intro i pos s; simp only [assignMany, setMany, ih]

theorem assignMany_non_intra (bytes : QByteArray) (count : Nat) :
    ∀ (i pos : Nat) (s : sequence_header),
    assignMany (fun i s v =>
        { s with non_intra_quantiser_matrix := s.non_intra_quantiser_matrix.set i v })
        bytes count i pos s =
      { s with
        non_intra_quantiser_matrix := setMany bytes count i pos s.non_intra_quantiser_matrix } := by
  induction count with
  | zero => intro i pos s; rfl
  | succ count ih => intro i pos s; simp only [assignMany, setMany, ih]

theorem setMany_getElem? (bytes : QByteArray) (count : Nat) :
    ∀ (i pos : Nat) (m : List Nat) (j : Nat),
    (setMany bytes count i pos m)[j]? =
      if i ≤ j ∧ j < i + count ∧ j < m.length then some (bitsValue bytes (pos + 8 * (j - i)) 8)
      else m[j]? := by
  induction count with
  | zero =>
    intro i pos m j
    have h : ¬ (i ≤ j ∧ j < i + 0 ∧ j < m.length) := by omega
    simp only [setMany, if_neg h]
  | succ count ih =>
    intro i pos m j
    simp only [setMany, ih, List.length_set, List.getElem?_set]
    by_cases hij : i = j
    · subst hij
      have h1 : ¬ (i + 1 ≤ i ∧ i < i + 1 + count ∧ i < m.length) := by omega
      rw [if_neg h1, if_pos rfl]
      by_cases hl : i < m.length
      · have h2 : i ≤ i ∧ i < i + (count + 1) ∧ i < m.length := ⟨le_refl _, by omega, hl⟩
        simp [if_pos h2, hl]
      · have h2 : ¬ (i ≤ i ∧ i < i + (count + 1) ∧ i < m.length) := by omega
        rw [if_neg h2, if_neg hl]
        exact (List.getElem?_eq_none (by omega)).symm
    · rw [if_neg hij]
      by_cases hc : i + 1 ≤ j ∧ j < i + 1 + count ∧ j < m.length
      · have h2 : i ≤ j ∧ j < i + (count + 1) ∧ j < m.length := by omega
        have e : pos + 8 + 8 * (j - (i + 1)) = pos + 8 * (j - i) := by omega
        rw [if_pos hc, if_pos h2, e]
      · have h2 : ¬ (i ≤ j ∧ j < i + (count + 1) ∧ j < m.length) := by omega
        rw [if_neg hc, if_neg h2]

theorem matrixValues_getElem? (bytes : QByteArray) (count : Nat) :
    ∀ (pos j : Nat), (matrixValues bytes pos count)[j]? =
      if j < count then some (bitsValue bytes (pos + 8 * j) 8) else none := by
  induction count with
  | zero => intro pos j; simp [matrixValues]
  | succ count ih =>
    intro pos j
    cases j with
    | zero => simp [matrixValues]
    | succ j =>
      have e : pos + 8 + 8 * j = pos + 8 * (j + 1) := by omega
      simp [matrixValues, ih, e]

theorem setMany_full (bytes : QByteArray) (count pos : Nat) (m : List Nat)
    (h : m.length = count) : setMany bytes count 0 pos m = matrixValues bytes pos count := by
  apply List.ext_getElem?
  intro j
  rw [setMany_getElem?, matrixValues_getElem?]
  by_cases hj : j < count
  · have h2 : 0 ≤ j ∧ j < 0 + count ∧ j < m.length := by omega
    rw [if_pos h2, if_pos hj, Nat.sub_zero]
  · have h2 : ¬ (0 ≤ j ∧ j < 0 + count ∧ j < m.length) := by omega
    rw [if_neg h2, if_neg hj]
    exact List.getElem?_eq_none (by omega)

theorem matrixNodes_length (into : QString) (bytes : QByteArray) (count : Nat) :
    ∀ (pos : Nat), (matrixNodes into bytes pos count).length = count := by
  induction count with
  | zero => intro pos; rfl
  | succ count ih => intro pos; simp [matrixNodes, ih]

theorem matrixNodes_value (into : QString) (bytes : QByteArray) (count : Nat) :
    ∀ (pos : Nat), (matrixNodes into bytes pos count).map TreeItem.value =
      (matrixValues bytes pos count).map some := by
  induction count with
  | zero => intro pos; rfl
  | succ count ih =>
    intro pos
    simp [matrixNodes, matrixValues, ih, bitNode, TreeItem.field, TreeItem.value]

theorem matrixNodes_name (into : QString) (bytes : QByteArray) (count : Nat) :
    ∀ (pos : Nat), (matrixNodes into bytes pos count).map TreeItem.name =
      List.replicate count (some into) := by
  induction count with
  | zero => intro pos; rfl
  | succ count ih =>
    intro pos
    simp [matrixNodes, ih, bitNode, TreeItem.field, TreeItem.name, TreeItem.itemData,
      List.replicate_succ]

/-! ## Statements oblivious of the tree -/

theorem oblivious_pure {σ α : Type} (a : α) : Oblivious (pure a : P σ α) := by
  intro r t1 t2 s
  exact ⟨rfl, rfl, rfl⟩

theorem oblivious_throw {σ α : Type} (e : ParseError) : Oblivious (P.throw e : P σ α) := by
  intro r t1 t2 s
  exact ⟨rfl, rfl, rfl⟩

theorem oblivious_getSelf {σ : Type} : Oblivious (P.getSelf : P σ σ) := by
  intro r t1 t2 s
  exact ⟨rfl, rfl, rfl⟩

theorem oblivious_bind {σ α β : Type} (m : P σ α) (f : α → P σ β) (hm : Oblivious m)
    (hf : ∀ a, Oblivious (f a)) : Oblivious (m >>= f) := by
  intro r t1 t2 s
  obtain ⟨h1, h2, h3⟩ := hm r t1 t2 s
  simp only [P_bind_apply]
  rcases e1 : m ⟨r, t1, s⟩ with ⟨⟨r1, u1, s1⟩, res1⟩
  rcases e2 : m ⟨r, t2, s⟩ with ⟨⟨r2, u2, s2⟩, res2⟩
  rw [e1, e2] at h1 h2 h3
  simp only at h1 h2 h3
  subst h1 h2 h3
  cases res1 with
  | error e => exact ⟨rfl, rfl, rfl⟩
  | ok a => exact hf a r1 u1 u2 s1

theorem oblivious_ite {σ α : Type} (c : Prop) [Decidable c] (m1 m2 : P σ α)
    (h1 : Oblivious m1) (h2 : Oblivious m2) : Oblivious (if c then m1 else m2) := by
  by_cases h : c
  · rw [if_pos h]; exact h1
  · rw [if_neg h]; exact h2

theorem oblivious_READBITS_M {σ : Type} (into : QString) (assign : σ → Nat → σ) (n : Nat)
    (m : Meaning) : Oblivious (READBITS_M into assign n m) := by
  intro r t1 t2 s
  unfold READBITS_M
  rcases e : r.readBits n with ⟨rd, res⟩
  cases res with
  | error err => exact ⟨rfl, rfl, rfl⟩
  | ok v => exact ⟨rfl, rfl, rfl⟩

theorem oblivious_READFLAG_M {σ : Type} (into : QString) (assign : σ → Bool → σ)
    (m : Meaning) : Oblivious (READFLAG_M into assign m) := by
  intro r t1 t2 s
  unfold READFLAG_M
  rcases e : r.readBits 1 with ⟨rd, res⟩
  cases res with
  | error err => exact ⟨rfl, rfl, rfl⟩
  | ok v => exact ⟨rfl, rfl, rfl⟩

theorem oblivious_loopFrom {σ : Type} (body : Nat → P σ Unit) (hb : ∀ i, Oblivious (body i))
    (count : Nat) : ∀ i, Oblivious (loopFrom body count i) := by
  induction count with
  | zero => intro i; exact oblivious_pure ()
  | succ count ih => intro i; exact oblivious_bind _ _ (hb i) (fun _ => ih (i + 1))

theorem oblivious_sequence_extension_body : Oblivious sequence_extension_body := by
  unfold sequence_extension_body
  repeat first
    | exact oblivious_READBITS_M _ _ _ _
    | exact oblivious_READFLAG_M _ _ _
    | exact oblivious_pure _
    | exact oblivious_throw _
    | exact oblivious_getSelf
    | apply oblivious_ite
    | apply oblivious_bind
    | intro _

theorem oblivious_sequence_header_body : Oblivious sequence_header_body := by
  unfold sequence_header_body
  repeat first
    | exact oblivious_READBITS_M _ _ _ _
    | exact oblivious_READFLAG_M _ _ _
    | exact oblivious_pure _
    | exact oblivious_throw _
    | exact oblivious_getSelf
    | exact oblivious_loopFrom _ (fun _ => oblivious_READBITS_M _ _ _ _) _ _
    | apply oblivious_ite
    | apply oblivious_bind
    | intro _

/-! ## The decoders as a whole -/

theorem extension_body_overrun_early (bytes : QByteArray) (t : Option TreeItem)
    (s : sequence_extension) (h : 8 * bytes.length < 32) :
    (sequence_extension_body ⟨⟨bytes, 0⟩, t, s⟩).2 = .error ParseError.BufferOverrun := by
  have hl : bytes.length = 0 ∨ bytes.length = 1 ∨ bytes.length = 2 ∨ bytes.length = 3 := by
    omega
  rcases hl with hl | hl | hl | hl <;>
  simp (disch := omega) only [sequence_extension_body, P_bind_apply, P_pure_apply, P_getSelf_apply,
    P_throw_apply, READBITS, READFLAG, READBITS_M_ok, READFLAG_M_ok, READBITS_M_overrun,
    READFLAG_M_overrun, Nat.reduceAdd, Nat.zero_add]

theorem parse_sequence_extension_ok (self : sequence_extension) (payload : QByteArray)
    (root : Option TreeItem) (h : 48 ≤ 8 * payload.length) (hm : bitsValue payload 31 1 = 1) :
    parse_sequence_extension self payload root =
      { root := attach root (root.map (fun _ => addChildren (TreeItem.named "sequence_extension()")
          (extensionNodesBeforeMarker payload ++ extensionNodesAfterMarker payload)))
        self := extensionAfterMarker { self with nalPayload := payload } payload
        reader := ⟨payload, 48⟩
        result := .ok () } := by
  simp only [parse_sequence_extension, runDecoder, extension_body_ok _ _ _ h hm, Option.map_map]
  rfl

theorem parse_sequence_extension_marker (self : sequence_extension) (payload : QByteArray)
    (root : Option TreeItem) (h : 32 ≤ 8 * payload.length) (hm : bitsValue payload 31 1 = 0) :
    parse_sequence_extension self payload root =
      { root := attach root (root.map (fun _ => addChildren (TreeItem.named "sequence_extension()")
          (extensionNodesBeforeMarker payload)))
        self := extensionBeforeMarker { self with nalPayload := payload } payload
        reader := ⟨payload, 32⟩
        result := .error (ParseError.logic_error markerMessage) } := by
  simp only [parse_sequence_extension, runDecoder, extension_body_marker _ _ _ h hm,
    Option.map_map]
  rfl

theorem parse_sequence_extension_result (self : sequence_extension) (payload : QByteArray)
    (root : Option TreeItem) :
    (parse_sequence_extension self payload root).result =
      if 8 * payload.length < 32 then .error ParseError.BufferOverrun
      else if bitsValue payload 31 1 = 0 then .error (ParseError.logic_error markerMessage)
      else if 48 ≤ 8 * payload.length then .ok ()
      else .error ParseError.BufferOverrun := by
  by_cases h32 : 8 * payload.length < 32
  · rw [if_pos h32]
    exact extension_body_overrun_early _ _ _ h32
  rw [if_neg h32]
  rcases bitsValue_one_cases payload 31 with hm | hm
  · rw [if_pos hm, parse_sequence_extension_marker _ _ _ (by omega) hm]
  · have hm0 : ¬ bitsValue payload 31 1 = 0 := by omega
    rw [if_neg hm0]
    by_cases h48 : 48 ≤ 8 * payload.length
    · rw [if_pos h48, parse_sequence_extension_ok _ _ _ h48 hm]
    · rw [if_neg h48]
      exact extension_body_short _ _ _ (by omega) hm

theorem parse_sequence_header_ok (self : sequence_header) (payload : QByteArray)
    (root : Option TreeItem) (hm : bitsValue payload 50 1 = 1)
    (h : headerBits payload ≤ 8 * payload.length) :
    parse_sequence_header self payload root =
      { root := attach root (root.map (fun _ => addChildren (TreeItem.named "sequence_header()")
          (headerNodes payload)))
        self := headerDecoded { self with nalPayload := payload } payload
        reader := ⟨payload, headerBits payload⟩
        result := .ok () } := by
  simp only [parse_sequence_header, runDecoder, header_body_ok _ _ _ hm h, Option.map_map]
  rfl

theorem parse_sequence_header_marker (self : sequence_header) (payload : QByteArray)
    (root : Option TreeItem) (h : 51 ≤ 8 * payload.length) (hm : bitsValue payload 50 1 = 0) :
    parse_sequence_header self payload root =
      { root := attach root (root.map (fun _ => addChildren (TreeItem.named "sequence_header()")
          (headerNodesBeforeMarker payload)))
        self := headerBeforeMarker { self with nalPayload := payload } payload
        reader := ⟨payload, 51⟩
        result := .error (ParseError.logic_error markerMessage) } := by
  simp only [parse_sequence_header, runDecoder, header_body_marker _ _ _ h hm, Option.map_map]
  rfl

theorem parse_sequence_header_result (self : sequence_header) (payload : QByteArray)
    (root : Option TreeItem) :
    (parse_sequence_header self payload root).result =
      if 8 * payload.length < 51 then .error ParseError.BufferOverrun
      else if bitsValue payload 50 1 = 0 then .error (ParseError.logic_error markerMessage)
      else if headerBits payload ≤ 8 * payload.length then .ok ()
      else .error ParseError.BufferOverrun := by
  by_cases h51 : 8 * payload.length < 51
  · rw [if_pos h51]
    exact header_body_overrun_early _ _ _ h51
  rw [if_neg h51]
  rcases bitsValue_one_cases payload 50 with hm | hm
  · rw [if_pos hm, parse_sequence_header_marker _ _ _ (by omega) hm]
  · have hm0 : ¬ bitsValue payload 50 1 = 0 := by omega
    rw [if_neg hm0]
    by_cases hb : headerBits payload ≤ 8 * payload.length
    · rw [if_pos hb, parse_sequence_header_ok _ _ _ hm hb]
    · rw [if_neg hb]
      exact header_body_overrun_late _ _ _ hm (by omega) (by omega)

theorem parse_sequence_header_success (self : sequence_header) (payload : QByteArray)
    (root : Option TreeItem) (hok : (parse_sequence_header self payload root).result = .ok ()) :
    bitsValue payload 50 1 = 1 ∧ headerBits payload ≤ 8 * payload.length := by
  rw [parse_sequence_header_result] at hok
  split_ifs at hok with h1 h2 h3
  rcases bitsValue_one_cases payload 50 with hm | hm
  · exact absurd hm h2
  · exact ⟨hm, h3⟩

theorem parse_sequence_extension_success (self : sequence_extension) (payload : QByteArray)
    (root : Option TreeItem) (hok : (parse_sequence_extension self payload root).result = .ok ()) :
    bitsValue payload 31 1 = 1 ∧ 48 ≤ 8 * payload.length := by
  rw [parse_sequence_extension_result] at hok
  split_ifs at hok with h1 h2 h3
  rcases bitsValue_one_cases payload 31 with hm | hm
  · exact absurd hm h2
  · exact ⟨hm, h3⟩

theorem headerBits_ge (payload : QByteArray) : 64 ≤ headerBits payload := by
  unfold headerBits nonIntraFlagPos
  omega

theorem oblivious_run {σ : Type} (name : QString) (data : QByteArray) (root1 root2 : Option TreeItem)
    (self : σ) (body : P σ Unit) (hb : Oblivious body) :
    (runDecoder name data root1 self body).result = (runDecoder name data root2 self body).result ∧
    (runDecoder name data root1 self body).self = (runDecoder name data root2 self body).self ∧
    (runDecoder name data root1 self body).reader =
      (runDecoder name data root2 self body).reader := by
  obtain ⟨h1, h2, h3⟩ := hb ⟨data, 0⟩ (root1.map (fun _ => TreeItem.named name))
    (root2.map (fun _ => TreeItem.named name)) self
  exact ⟨h1, h3, h2⟩

theorem bitsValue_single (b : Byte) : bitsValue [b] 0 8 = b.val := by
  have h := bitsValue_in_byte [b] 0 0 8 (by decide)
  have hb := b.isLt
  simp at h
  rw [h]
  omega

theorem parse_nal_unit_header_one (self : nal_unit_mpeg2) (b : Byte) (root : Option TreeItem) :
    (parse_nal_unit_header self [b] root).result = .ok () ∧
    (parse_nal_unit_header self [b] root).self =
      (interprete_start_code { self with start_code_value := (b.val : Int) } (b.val : Int)).1 ∧
    (parse_nal_unit_header self [b] root).root =
      attach root (root.map (fun _ => (TreeItem.named "nal_unit_header()").addChild
        (TreeItem.field "start_code_value" b.val "u(v) -> u(8)" (String.mk (bitsChars [b] 0 8))
          (Meaning.text
            (interprete_start_code { self with start_code_value := (b.val : Int) } (b.val : Int)).2)))) := by
  simp [parse_nal_unit_header, sub_byte_reader.readBits, bitsValue_single, Option.map_map]
  rfl

theorem parse_nal_unit_header_length (self : nal_unit_mpeg2) (header_byte : QByteArray)
    (root : Option TreeItem) (h : header_byte.length ≠ 1) :
    parse_nal_unit_header self header_byte root =
      { root := root, self := self, reader := ⟨header_byte, 0⟩
        result := .error (ParseError.logic_error headerLengthMessage) } := by
  simp [parse_nal_unit_header, h]

theorem finishUnit_result (this : NALUnitModel) (parent nalRoot : Option TreeItem)
    (nalTypeName : Option QString) (result : Except ParseError ParsedUnit) :
    (finishUnit this parent nalRoot nalTypeName result).result = result ∧
    (finishUnit this parent nalRoot nalTypeName result).nalTypeName = nalTypeName ∧
    (finishUnit this parent nalRoot nalTypeName result).nalRoot = nalRoot := by
  unfold finishUnit
  split <;> exact ⟨rfl, rfl, rfl⟩

/-! ## The unit-header classifier: properties -/

theorem interprete_slice (self : nal_unit_mpeg2) (v : Int) (h1 : 1 ≤ v) (h2 : v ≤ 0xaf) :
    interprete_start_code self v =
      ({ self with nal_unit_type := SLICE, slice_id := v - 1 }, "slice_start_code") := by
  have hz : ¬ v = 0 := by omega
  simp [interprete_start_code, hz, h1, h2]

theorem interprete_system (self : nal_unit_mpeg2) (v : Int) (h1 : 0xb9 ≤ v) :
    interprete_start_code self v =
      ({ self with nal_unit_type := SYSTEM_START_CODE, system_start_codes := v - 0xb9 },
        "system start codes") := by
  have hz : ¬ v = 0 := by omega
  have hs : ¬ (v ≥ 0x01 ∧ v ≤ 0xaf) := by omega
  have hr : ¬ (v = 0xb0 ∨ v = 0xb1 ∨ v = 0xb6) := by omega
  have h2 : ¬ v = 0xb2 := by omega
  have h3 : ¬ v = 0xb3 := by omega
  have h4 : ¬ v = 0xb4 := by omega
  have h5 : ¬ v = 0xb5 := by omega
  have h7 : ¬ v = 0xb7 := by omega
  have h8 : ¬ v = 0xb8 := by omega
  have hy : v ≥ 0xb9 := h1
  unfold interprete_start_code
  simp only [if_neg hz, if_neg hs, if_neg hr, if_neg h2, if_neg h3, if_neg h4, if_neg h5,
    if_neg h7, if_neg h8, if_pos hy]

theorem interprete_start_code_type (self : nal_unit_mpeg2) (v : Int) (h0 : 0 ≤ v)
    (h255 : v ≤ 255) :
    (interprete_start_code self v).1.nal_unit_type =
      if v = 0 then PICTURE
      else if v ≤ 0xAF then SLICE
      else if v = 0xB0 ∨ v = 0xB1 ∨ v = 0xB6 then RESERVED
      else if v = 0xB2 then USER_DATA
      else if v = 0xB3 then SEQUENCE_HEADER
      else if v = 0xB4 then SEQUENCE_ERROR
      else if v = 0xB5 then EXTENSION_START
      else if v = 0xB7 then SEQUENCE_END
      else if v = 0xB8 then GROUP_START
      else SYSTEM_START_CODE := by
  by_cases hz : v = 0
  · subst hz; simp [interprete_start_code]
  by_cases hs : v ≤ 0xAF
  · rw [interprete_slice self v (by omega) hs]
    simp [hz, hs]
  by_cases hy : 0xB9 ≤ v
  · rw [interprete_system self v hy]
    have h1 : ¬ (v = 0xB0 ∨ v = 0xB1 ∨ v = 0xB6) := by omega
    have h2 : ¬ v = 0xB2 := by omega
    have h3 : ¬ v = 0xB3 := by omega
    have h4 : ¬ v = 0xB4 := by omega
    have h5 : ¬ v = 0xB5 := by omega
    have h7 : ¬ v = 0xB7 := by omega
    have h8 : ¬ v = 0xB8 := by omega
    simp only [if_neg hz, if_neg hs, if_neg h1, if_neg h2, if_neg h3, if_neg h4, if_neg h5,
      if_neg h7, if_neg h8]
  · have hlo : 0xB0 ≤ v := by omega
    have hhi : v ≤ 0xB8 := by omega
    interval_cases v <;> simp [interprete_start_code]

/-- C1: for every start code value `v` in 0..255 the classifier sets the unit type the
table gives (0 Picture; 1..0xAF Slice; 0xB0, 0xB1, 0xB6 Reserved; 0xB2 UserData; 0xB3
SequenceHeader; 0xB4 SequenceError; 0xB5 ExtensionStart; 0xB7 SequenceEnd; 0xB8 GroupStart;
0xB9..0xFF SystemStartCode), whatever the type was before. The fallback branch, which
leaves the type as it was and returns the empty meaning, is never taken: the type set is
never `UNSPECIFIED` and the meaning is never empty. -/
theorem interprete_start_code_table (self : nal_unit_mpeg2) (v : Int) (h0 : 0 ≤ v)
    (h255 : v ≤ 255) :
    ((interprete_start_code self v).1.nal_unit_type =
      if v = 0 then PICTURE
      else if v ≤ 0xAF then SLICE
      else if v = 0xB0 ∨ v = 0xB1 ∨ v = 0xB6 then RESERVED
      else if v = 0xB2 then USER_DATA
      else if v = 0xB3 then SEQUENCE_HEADER
      else if v = 0xB4 then SEQUENCE_ERROR
      else if v = 0xB5 then EXTENSION_START
      else if v = 0xB7 then SEQUENCE_END
      else if v = 0xB8 then GROUP_START
      else SYSTEM_START_CODE) ∧
    (interprete_start_code self v).1.nal_unit_type ≠ UNSPECIFIED ∧
    (interprete_start_code self v).2 ≠ "" := by
  by_cases hz : v = 0
  · subst hz; simp [interprete_start_code]
  by_cases hs : v ≤ 0xAF
  · rw [interprete_slice self v (by omega) hs]
    simp [hz, hs]
  by_cases hy : 0xB9 ≤ v
  · rw [interprete_system self v hy]
    have h1 : ¬ (v = 0xB0 ∨ v = 0xB1 ∨ v = 0xB6) := by omega
    have h2 : ¬ v = 0xB2 := by omega
    have h3 : ¬ v = 0xB3 := by omega
    have h4 : ¬ v = 0xB4 := by omega
    have h5 : ¬ v = 0xB5 := by omega
    have h7 : ¬ v = 0xB7 := by omega
    have h8 : ¬ v = 0xB8 := by omega
    simp only [if_neg hz, if_neg hs, if_neg h1, if_neg h2, if_neg h3, if_neg h4, if_neg h5,
      if_neg h7, if_neg h8]
    simp
  · have hlo : 0xB0 ≤ v := by omega
    have hhi : v ≤ 0xB8 := by omega
    interval_cases v <;> simp [interprete_start_code]

/-- Witness for C1 at the start code value 0xB3 (a sequence header). -/
theorem interprete_start_code_table_witness :
    ((interprete_start_code sampleNal 0xB3).1.nal_unit_type =
      if (0xB3 : Int) = 0 then PICTURE
      else if (0xB3 : Int) ≤ 0xAF then SLICE
      else if (0xB3 : Int) = 0xB0 ∨ (0xB3 : Int) = 0xB1 ∨ (0xB3 : Int) = 0xB6 then RESERVED
      else if (0xB3 : Int) = 0xB2 then USER_DATA
      else if (0xB3 : Int) = 0xB3 then SEQUENCE_HEADER
      else if (0xB3 : Int) = 0xB4 then SEQUENCE_ERROR
      else if (0xB3 : Int) = 0xB5 then EXTENSION_START
      else if (0xB3 : Int) = 0xB7 then SEQUENCE_END
      else if (0xB3 : Int) = 0xB8 then GROUP_START
      else SYSTEM_START_CODE) ∧
    (interprete_start_code sampleNal 0xB3).1.nal_unit_type ≠ UNSPECIFIED ∧
    (interprete_start_code sampleNal 0xB3).2 ≠ "" :=
  interprete_start_code_table sampleNal 0xB3 (by decide) (by decide)

/-- C2: for `v` in 1..0xAF the classifier sets `slice_id` to `v - 1` (in 0..0xAE) and
leaves `system_start_codes` as it was; for `v` in 0xB9..0xFF it sets `system_start_codes`
to `v - 0xB9` (in 0..0x46) and leaves `slice_id` as it was; for every other `v` in 0..255
(0 and 0xB0..0xB8) it leaves both as they were. -/
theorem interprete_start_code_ids (self : nal_unit_mpeg2) (v : Int) (h0 : 0 ≤ v)
    (h255 : v ≤ 255) :
    (1 ≤ v ∧ v ≤ 0xAF →
      (interprete_start_code self v).1.slice_id = v - 1 ∧
      0 ≤ (interprete_start_code self v).1.slice_id ∧
      (interprete_start_code self v).1.slice_id ≤ 0xAE ∧
      (interprete_start_code self v).1.system_start_codes = self.system_start_codes) ∧
    (0xB9 ≤ v →
      (interprete_start_code self v).1.system_start_codes = v - 0xB9 ∧
      0 ≤ (interprete_start_code self v).1.system_start_codes ∧
      (interprete_start_code self v).1.system_start_codes ≤ 0x46 ∧
      (interprete_start_code self v).1.slice_id = self.slice_id) ∧
    (¬ (1 ≤ v ∧ v ≤ 0xAF) ∧ ¬ (0xB9 ≤ v) →
      (interprete_start_code self v).1.slice_id = self.slice_id ∧
      (interprete_start_code self v).1.system_start_codes = self.system_start_codes) := by
  refine ⟨fun h => ?_, fun h => ?_, fun h => ?_⟩
  · rw [interprete_slice self v h.1 h.2]
    simp; omega
  · rw [interprete_system self v h]
    simp; omega
  · have hc : v = 0 ∨ (0xB0 ≤ v ∧ v ≤ 0xB8) := by omega
    rcases hc with hc | ⟨hlo, hhi⟩
    · subst hc; simp [interprete_start_code]
    · interval_cases v <;> simp [interprete_start_code]

/-- Witness for C2 at the start code value 0xFF: the offset is 0x46 and `slice_id` keeps
its value. -/
theorem interprete_start_code_ids_witness :
    (interprete_start_code sampleNal 0xFF).1.system_start_codes = 0xFF - 0xB9 ∧
    0 ≤ (interprete_start_code sampleNal 0xFF).1.system_start_codes ∧
    (interprete_start_code sampleNal 0xFF).1.system_start_codes ≤ 0x46 ∧
    (interprete_start_code sampleNal 0xFF).1.slice_id = sampleNal.slice_id :=
  (interprete_start_code_ids sampleNal 0xFF (by decide) (by decide)).2.1 (by decide)

/-! ## The sequence header: properties -/

theorem exists_eight (l : QByteArray) (h : 8 ≤ l.length) :
    ∃ (b0 b1 b2 b3 b4 b5 b6 b7 : Byte) (rest : QByteArray),
      l = b0 :: b1 :: b2 :: b3 :: b4 :: b5 :: b6 :: b7 :: rest := by
  match l, h with
  | b0 :: b1 :: b2 :: b3 :: b4 :: b5 :: b6 :: b7 :: rest, _ => exact ⟨_, _, _, _, _, _, _, _, _, rfl⟩

theorem headerDecoded_fields (s : sequence_header) (bytes : QByteArray) :
    (headerDecoded s bytes).horizontal_size_value = bitsValue bytes 0 12 ∧
    (headerDecoded s bytes).vertical_size_value = bitsValue bytes 12 12 ∧
    (headerDecoded s bytes).aspect_ratio_information = bitsValue bytes 24 4 ∧
    (headerDecoded s bytes).frame_rate_code = bitsValue bytes 28 4 ∧
    (headerDecoded s bytes).bit_rate_value = bitsValue bytes 32 18 ∧
    (headerDecoded s bytes).marker_bit = (bitsValue bytes 50 1 != 0) ∧
    (headerDecoded s bytes).vbv_buffer_size_value = bitsValue bytes 51 10 ∧
    (headerDecoded s bytes).constrained_parameters_flag = (bitsValue bytes 61 1 != 0) ∧
    (headerDecoded s bytes).load_intra_quantiser_matrix = (bitsValue bytes 62 1 != 0) ∧
    (headerDecoded s bytes).load_non_intra_quantiser_matrix =
      (bitsValue bytes (nonIntraFlagPos bytes) 1 != 0) := by
  simp [headerDecoded, headerIntra, headerFlags, headerBeforeMarker, assignMany_intra,
    assignMany_non_intra]

theorem header_bytes_fields (b0 b1 b2 b3 b4 b5 b6 b7 : Byte) (rest : QByteArray) :
    bitsValue (b0 :: b1 :: b2 :: b3 :: b4 :: b5 :: b6 :: b7 :: rest) 0 12
      = b0.val * 16 + b1.val / 16 ∧
    bitsValue (b0 :: b1 :: b2 :: b3 :: b4 :: b5 :: b6 :: b7 :: rest) 12 12
      = (b1.val % 16) * 256 + b2.val ∧
    bitsValue (b0 :: b1 :: b2 :: b3 :: b4 :: b5 :: b6 :: b7 :: rest) 24 4 = b3.val / 16 ∧
    bitsValue (b0 :: b1 :: b2 :: b3 :: b4 :: b5 :: b6 :: b7 :: rest) 28 4 = b3.val % 16 ∧
    bitsValue (b0 :: b1 :: b2 :: b3 :: b4 :: b5 :: b6 :: b7 :: rest) 32 18
      = b4.val * 1024 + b5.val * 4 + b6.val / 64 ∧
    bitsValue (b0 :: b1 :: b2 :: b3 :: b4 :: b5 :: b6 :: b7 :: rest) 51 10
      = (b6.val % 32) * 32 + b7.val / 8 := by
  have h0 := b0.isLt
  have h1 := b1.isLt
  have h2 := b2.isLt
  have h3 := b3.isLt
  have h4 := b4.isLt
  have h5 := b5.isLt
  have h6 := b6.isLt
  have h7 := b7.isLt
  refine ⟨?_, ?_, ?_, ?_, ?_, ?_⟩
  · rw [bitsValue_add _ 0 8 4, bitsValue_in_byte _ 0 0 8 (by decide),
      bitsValue_in_byte _ 1 0 4 (by decide)]
    simp
    omega
  · rw [bitsValue_add _ 12 4 8, bitsValue_in_byte _ 1 4 4 (by decide),
      bitsValue_in_byte _ 2 0 8 (by decide)]
    simp
  · rw [bitsValue_in_byte _ 3 0 4 (by decide)]
    simp
    omega
  · rw [bitsValue_in_byte _ 3 4 4 (by decide)]
    simp
  · rw [bitsValue_add _ 32 8 10, bitsValue_add _ (32 + 8) 8 2,
      bitsValue_in_byte _ 4 0 8 (by decide), bitsValue_in_byte _ 5 0 8 (by decide),
      bitsValue_in_byte _ 6 0 2 (by decide)]
    simp
    omega
  · rw [bitsValue_add _ 51 5 5, bitsValue_in_byte _ 6 3 5 (by decide),
      bitsValue_in_byte _ 7 0 5 (by decide)]
    simp
    omega

/-- C3: whenever the decode of a sequence header succeeds, the payload has at least the
eight bytes `b0 .. b7` and the decoded members are the bit fields of the payload, most
significant bit first, in table order: `horizontal_size_value = b0*16 + b1 div 16`,
`vertical_size_value = (b1 mod 16)*256 + b2`, `aspect_ratio_information = b3 div 16`,
`frame_rate_code = b3 mod 16`, `bit_rate_value = b4*1024 + b5*4 + b6 div 64`,
`vbv_buffer_size_value = (b6 mod 32)*32 + b7 div 8`, `constrained_parameters_flag` is bit
61 and `load_intra_quantiser_matrix` is bit 62. A payload that begins 0x0B 0x00 0x90
decodes to 176 and 144. -/
theorem parse_sequence_header_fields (self : sequence_header) (payload : QByteArray)
    (root : Option TreeItem)
    (hok : (parse_sequence_header self payload root).result = .ok ()) :
    ∃ (b0 b1 b2 b3 b4 b5 b6 b7 : Byte) (rest : QByteArray),
      payload = b0 :: b1 :: b2 :: b3 :: b4 :: b5 :: b6 :: b7 :: rest ∧
      (parse_sequence_header self payload root).self.horizontal_size_value
        = b0.val * 16 + b1.val / 16 ∧
      (parse_sequence_header self payload root).self.vertical_size_value
        = (b1.val % 16) * 256 + b2.val ∧
      (parse_sequence_header self payload root).self.aspect_ratio_information = b3.val / 16 ∧
      (parse_sequence_header self payload root).self.frame_rate_code = b3.val % 16 ∧
      (parse_sequence_header self payload root).self.bit_rate_value
        = b4.val * 1024 + b5.val * 4 + b6.val / 64 ∧
      (parse_sequence_header self payload root).self.vbv_buffer_size_value
        = (b6.val % 32) * 32 + b7.val / 8 ∧
      (parse_sequence_header self payload root).self.constrained_parameters_flag.toNat
        = bitAt payload 61 ∧
      bitAt payload 61 = b7.val / 4 % 2 ∧
      (parse_sequence_header self payload root).self.load_intra_quantiser_matrix.toNat
        = bitAt payload 62 ∧
      bitAt payload 62 = b7.val / 2 % 2 ∧
      (b0.val = 0x0B ∧ b1.val = 0x00 ∧ b2.val = 0x90 →
        (parse_sequence_header self payload root).self.horizontal_size_value = 176 ∧
        (parse_sequence_header self payload root).self.vertical_size_value = 144) := by
  obtain ⟨hm, hb⟩ := parse_sequence_header_success self payload root hok
  have h64 := headerBits_ge payload
  obtain ⟨b0, b1, b2, b3, b4, b5, b6, b7, rest, hp⟩ := exists_eight payload (by omega)
  refine ⟨b0, b1, b2, b3, b4, b5, b6, b7, rest, hp, ?_⟩
  rw [parse_sequence_header_ok self payload root hm hb]
  obtain ⟨f1, f2, f3, f4, f5, _, f7, f8, f9, _⟩ :=
    headerDecoded_fields { self with nalPayload := payload } payload
  simp only [f1, f2, f3, f4, f5, f7, f8, f9, flag_toNat]
  subst hp
  obtain ⟨e1, e2, e3, e4, e5, e6⟩ := header_bytes_fields b0 b1 b2 b3 b4 b5 b6 b7 rest
  refine ⟨e1, e2, e3, e4, e5, e6, trivial, ?_, trivial, ?_, ?_⟩
  · simp [bitAt]
  · simp [bitAt]
  · rintro ⟨g0, g1, g2⟩
    rw [e1, e2, g0, g1, g2]
    exact ⟨rfl, rfl⟩

/-- Witness for C3: the sample payload decodes, so the theorem applies to it. -/
theorem parse_sequence_header_fields_witness :
    ∃ (b0 b1 b2 b3 b4 b5 b6 b7 : Byte) (rest : QByteArray),
      sampleHeaderPayload = b0 :: b1 :: b2 :: b3 :: b4 :: b5 :: b6 :: b7 :: rest ∧
      (parse_sequence_header sampleHeader sampleHeaderPayload none).self.horizontal_size_value
        = b0.val * 16 + b1.val / 16 ∧
      (parse_sequence_header sampleHeader sampleHeaderPayload none).self.vertical_size_value
        = (b1.val % 16) * 256 + b2.val ∧
      (parse_sequence_header sampleHeader sampleHeaderPayload none).self.aspect_ratio_information
        = b3.val / 16 ∧
      (parse_sequence_header sampleHeader sampleHeaderPayload none).self.frame_rate_code
        = b3.val % 16 ∧
      (parse_sequence_header sampleHeader sampleHeaderPayload none).self.bit_rate_value
        = b4.val * 1024 + b5.val * 4 + b6.val / 64 ∧
      (parse_sequence_header sampleHeader sampleHeaderPayload none).self.vbv_buffer_size_value
        = (b6.val % 32) * 32 + b7.val / 8 ∧
      (parse_sequence_header sampleHeader sampleHeaderPayload
        none).self.constrained_parameters_flag.toNat = bitAt sampleHeaderPayload 61 ∧
      bitAt sampleHeaderPayload 61 = b7.val / 4 % 2 ∧
      (parse_sequence_header sampleHeader sampleHeaderPayload
        none).self.load_intra_quantiser_matrix.toNat = bitAt sampleHeaderPayload 62 ∧
      bitAt sampleHeaderPayload 62 = b7.val / 2 % 2 ∧
      (b0.val = 0x0B ∧ b1.val = 0x00 ∧ b2.val = 0x90 →
        (parse_sequence_header sampleHeader sampleHeaderPayload none).self.horizontal_size_value
          = 176 ∧
        (parse_sequence_header sampleHeader sampleHeaderPayload none).self.vertical_size_value
          = 144) :=
  parse_sequence_header_fields sampleHeader sampleHeaderPayload none (by rfl)

theorem bitAt_50 (payload : QByteArray) : bitAt payload 50 = (payload.getD 6 0).val / 0x20 % 2 := by
  simp [bitAt]

theorem bitAt_31 (payload : QByteArray) : bitAt payload 31 = (payload.getD 3 0).val % 2 := by
  simp [bitAt]

/-- C4: for a sequence header payload of at least 7 bytes the decode throws the marker
exception if and only if bit 50 of the payload (byte 6, mask 0x20) is 0, and for a sequence
extension payload of at least 4 bytes the decode throws it if and only if bit 31 (byte 3,
mask 0x01) is 0. With the marker bit set no marker exception is thrown, whatever the other
bits are. -/
theorem marker_bit_enforcement (hself : sequence_header) (eself : sequence_extension)
    (hpayload epayload : QByteArray) (hroot eroot : Option TreeItem)
    (hlen : 7 ≤ hpayload.length) (elen : 4 ≤ epayload.length) :
    ((parse_sequence_header hself hpayload hroot).result
        = .error (ParseError.logic_error markerMessage)
      ↔ (hpayload.getD 6 0).val / 0x20 % 2 = 0) ∧
    ((parse_sequence_extension eself epayload eroot).result
        = .error (ParseError.logic_error markerMessage)
      ↔ (epayload.getD 3 0).val % 2 = 0) := by
  constructor
  · rw [parse_sequence_header_result, if_neg (by omega), bitsValue_one, bitAt_50]
    generalize (hpayload.getD 6 0).val / 0x20 % 2 = x
    split_ifs with h1 h2 <;> simp [h1]
  · rw [parse_sequence_extension_result, if_neg (by omega), bitsValue_one, bitAt_31]
    generalize (epayload.getD 3 0).val % 2 = x
    split_ifs with h1 h2 <;> simp [h1]

/-- Witness for C4: a header payload with the marker bit cleared and an extension payload
with the marker bit set. -/
theorem marker_bit_enforcement_witness :
    ((parse_sequence_header sampleHeader sampleHeaderPayloadNoMarker none).result
        = .error (ParseError.logic_error markerMessage)
      ↔ (sampleHeaderPayloadNoMarker.getD 6 0).val / 0x20 % 2 = 0) ∧
    ((parse_sequence_extension sampleExtension sampleExtensionPayload none).result
        = .error (ParseError.logic_error markerMessage)
      ↔ (sampleExtensionPayload.getD 3 0).val % 2 = 0) :=
  marker_bit_enforcement sampleHeader sampleExtension sampleHeaderPayloadNoMarker
    sampleExtensionPayload none none (by decide) (by decide)

theorem exists_seven (l : QByteArray) (h : 7 ≤ l.length) :
    ∃ (b0 b1 b2 b3 b4 b5 b6 : Byte) (rest : QByteArray),
      l = b0 :: b1 :: b2 :: b3 :: b4 :: b5 :: b6 :: rest := by
  match l, h with
  | b0 :: b1 :: b2 :: b3 :: b4 :: b5 :: b6 :: rest, _ => exact ⟨_, _, _, _, _, _, _, _, rfl⟩

theorem header_bytes_fields_seven (b0 b1 b2 b3 b4 b5 b6 : Byte) (rest : QByteArray) :
    bitsValue (b0 :: b1 :: b2 :: b3 :: b4 :: b5 :: b6 :: rest) 0 12
      = b0.val * 16 + b1.val / 16 ∧
    bitsValue (b0 :: b1 :: b2 :: b3 :: b4 :: b5 :: b6 :: rest) 12 12
      = (b1.val % 16) * 256 + b2.val ∧
    bitsValue (b0 :: b1 :: b2 :: b3 :: b4 :: b5 :: b6 :: rest) 24 4 = b3.val / 16 ∧
    bitsValue (b0 :: b1 :: b2 :: b3 :: b4 :: b5 :: b6 :: rest) 28 4 = b3.val % 16 ∧
    bitsValue (b0 :: b1 :: b2 :: b3 :: b4 :: b5 :: b6 :: rest) 32 18
      = b4.val * 1024 + b5.val * 4 + b6.val / 64 := by
  have h0 := b0.isLt
  have h1 := b1.isLt
  have h2 := b2.isLt
  have h3 := b3.isLt
  have h4 := b4.isLt
  have h5 := b5.isLt
  have h6 := b6.isLt
  refine ⟨?_, ?_, ?_, ?_, ?_⟩
  · rw [bitsValue_add _ 0 8 4, bitsValue_in_byte _ 0 0 8 (by decide),
      bitsValue_in_byte _ 1 0 4 (by decide)]
    simp
    omega
  · rw [bitsValue_add _ 12 4 8, bitsValue_in_byte _ 1 4 4 (by decide),
      bitsValue_in_byte _ 2 0 8 (by decide)]
    simp
  · rw [bitsValue_in_byte _ 3 0 4 (by decide)]
    simp
    omega
  · rw [bitsValue_in_byte _ 3 4 4 (by decide)]
    simp
  · rw [bitsValue_add _ 32 8 10, bitsValue_add _ (32 + 8) 8 2,
      bitsValue_in_byte _ 4 0 8 (by decide), bitsValue_in_byte _ 5 0 8 (by decide),
      bitsValue_in_byte _ 6 0 2 (by decide)]
    simp
    omega

/-- C5: for a sequence header payload of at least 7 bytes whose marker bit (bit 50) is 0,
decoded below a tree node `r`: the decode throws the marker exception, and the node
"sequence_header()" it has attached to `r` holds exactly six nodes, in read order and with
the values of the payload: horizontal_size_value, vertical_size_value,
aspect_ratio_information, frame_rate_code, bit_rate_value and marker_bit (value 0). No node
of vbv_buffer_size_value or of a later field is there. -/
theorem marker_violation_nodes (self : sequence_header) (payload : QByteArray) (r : TreeItem)
    (hlen : 7 ≤ payload.length) (hbit : bitAt payload 50 = 0) :
    (parse_sequence_header self payload (some r)).result
      = .error (ParseError.logic_error markerMessage) ∧
    ∃ (b0 b1 b2 b3 b4 b5 b6 : Byte) (rest : QByteArray) (node : TreeItem),
      payload = b0 :: b1 :: b2 :: b3 :: b4 :: b5 :: b6 :: rest ∧
      (parse_sequence_header self payload (some r)).root = some (r.addChild node) ∧
      node.name = some "sequence_header()" ∧
      node.childItems.map (fun c => (c.name, c.value)) =
        [(some "horizontal_size_value", some (b0.val * 16 + b1.val / 16)),
         (some "vertical_size_value", some ((b1.val % 16) * 256 + b2.val)),
         (some "aspect_ratio_information", some (b3.val / 16)),
         (some "frame_rate_code", some (b3.val % 16)),
         (some "bit_rate_value", some (b4.val * 1024 + b5.val * 4 + b6.val / 64)),
         (some "marker_bit", some 0)] := by
  have hm : bitsValue payload 50 1 = 0 := by rw [bitsValue_one]; exact hbit
  rw [parse_sequence_header_marker self payload (some r) (by omega) hm]
  refine ⟨rfl, ?_⟩
  obtain ⟨b0, b1, b2, b3, b4, b5, b6, rest, hp⟩ := exists_seven payload hlen
  refine ⟨b0, b1, b2, b3, b4, b5, b6, rest, _, hp, rfl, rfl, ?_⟩
  subst hp
  obtain ⟨e1, e2, e3, e4, e5⟩ := header_bytes_fields_seven b0 b1 b2 b3 b4 b5 b6 rest
  simp [addChildren, headerNodesBeforeMarker, TreeItem.addChild, TreeItem.named,
    TreeItem.childItems, TreeItem.name, TreeItem.itemData, TreeItem.value, bitNode, flagNode,
    TreeItem.field, e1, e2, e3, e4, e5, hm]

/-- Witness for C5: the sample payload with the marker bit cleared, decoded below a blank node. -/
theorem marker_violation_nodes_witness :
    (parse_sequence_header sampleHeader sampleHeaderPayloadNoMarker (some TreeItem.blank)).result
      = .error (ParseError.logic_error markerMessage) ∧
    ∃ (b0 b1 b2 b3 b4 b5 b6 : Byte) (rest : QByteArray) (node : TreeItem),
      sampleHeaderPayloadNoMarker = b0 :: b1 :: b2 :: b3 :: b4 :: b5 :: b6 :: rest ∧
      (parse_sequence_header sampleHeader sampleHeaderPayloadNoMarker (some TreeItem.blank)).root
        = some (TreeItem.blank.addChild node) ∧
      node.name = some "sequence_header()" ∧
      node.childItems.map (fun c => (c.name, c.value)) =
        [(some "horizontal_size_value", some (b0.val * 16 + b1.val / 16)),
         (some "vertical_size_value", some ((b1.val % 16) * 256 + b2.val)),
         (some "aspect_ratio_information", some (b3.val / 16)),
         (some "frame_rate_code", some (b3.val % 16)),
         (some "bit_rate_value", some (b4.val * 1024 + b5.val * 4 + b6.val / 64)),
         (some "marker_bit", some 0)] :=
  marker_violation_nodes sampleHeader sampleHeaderPayloadNoMarker TreeItem.blank (by decide)
    (by decide)

/-! ## Diagnostics do not steer the parse -/

theorem parse_nal_unit_header_oblivious (self : nal_unit_mpeg2) (header_byte : QByteArray)
    (root1 root2 : Option TreeItem) :
    (parse_nal_unit_header self header_byte root1).result =
      (parse_nal_unit_header self header_byte root2).result ∧
    (parse_nal_unit_header self header_byte root1).self =
      (parse_nal_unit_header self header_byte root2).self := by
  unfold parse_nal_unit_header
  by_cases h : header_byte.length ≠ 1
  · simp only [if_pos h, and_self]
  · simp only [if_neg h]
    rcases e : sub_byte_reader.readBits ⟨header_byte, 0⟩ 8 with ⟨rd, res⟩
    cases res with
    | error err => exact ⟨rfl, rfl⟩
    | ok v => exact ⟨rfl, rfl⟩

theorem parse_sequence_header_oblivious (self : sequence_header) (payload : QByteArray)
    (root1 root2 : Option TreeItem) :
    (parse_sequence_header self payload root1).result =
      (parse_sequence_header self payload root2).result ∧
    (parse_sequence_header self payload root1).self =
      (parse_sequence_header self payload root2).self ∧
    (parse_sequence_header self payload root1).reader =
      (parse_sequence_header self payload root2).reader :=
  oblivious_run _ _ _ _ _ _ oblivious_sequence_header_body

theorem parse_sequence_extension_oblivious (self : sequence_extension) (payload : QByteArray)
    (root1 root2 : Option TreeItem) :
    (parse_sequence_extension self payload root1).result =
      (parse_sequence_extension self payload root2).result ∧
    (parse_sequence_extension self payload root1).self =
      (parse_sequence_extension self payload root2).self ∧
    (parse_sequence_extension self payload root1).reader =
      (parse_sequence_extension self payload root2).reader :=
  oblivious_run _ _ _ _ _ _ oblivious_sequence_extension_body

theorem parseAndAddNALUnit_treeless (this : NALUnitModel) (dflt : MemberDefaults) (nalID : Int)
    (data : QByteArray) (parent : Option TreeItem) (nalStartEndPosFile : Nat × Nat)
    (nalTypeName : Option QString) :
    (parseAndAddNALUnit this dflt nalID data parent nalStartEndPosFile nalTypeName).result =
      (parseAndAddNALUnit ⟨none⟩ dflt nalID data none nalStartEndPosFile nalTypeName).result ∧
    (parseAndAddNALUnit this dflt nalID data parent nalStartEndPosFile nalTypeName).nalTypeName =
      (parseAndAddNALUnit ⟨none⟩ dflt nalID data none nalStartEndPosFile
        nalTypeName).nalTypeName := by
  unfold parseAndAddNALUnit
  cases hs : startCodeSkip data with
  | error e => exact ⟨rfl, rfl⟩
  | ok skip =>
    simp only []
    generalize (if parent.isSome = true then some TreeItem.blank
      else if this.rootItem.isSome = true then some TreeItem.blank else none) = root1
    generalize (if (none : Option TreeItem).isSome = true then some TreeItem.blank
      else if (NALUnitModel.mk none).rootItem.isSome = true then some TreeItem.blank
      else none) = root2
    obtain ⟨h1, h2⟩ := parse_nal_unit_header_oblivious
      (nal_unit_mpeg2.ctor dflt.nal nalStartEndPosFile nalID) (QByteArray_mid data skip 1)
      root1 root2
    rw [h2]
    generalize (parse_nal_unit_header (nal_unit_mpeg2.ctor dflt.nal nalStartEndPosFile nalID)
      (QByteArray_mid data skip 1) root1).root = hroot1
    generalize (parse_nal_unit_header (nal_unit_mpeg2.ctor dflt.nal nalStartEndPosFile nalID)
      (QByteArray_mid data skip 1) root2).root = hroot2
    rw [h1]
    cases (parse_nal_unit_header (nal_unit_mpeg2.ctor dflt.nal nalStartEndPosFile nalID)
      (QByteArray_mid data skip 1) root2).result with
    | error e => simp only [finishUnit_result, and_self]
    | ok u =>
      simp only []
      split_ifs with c1 c2
      · obtain ⟨g1, g2, _⟩ := parse_sequence_header_oblivious
          (sequence_header.ctor (parse_nal_unit_header
            (nal_unit_mpeg2.ctor dflt.nal nalStartEndPosFile nalID)
            (QByteArray_mid data skip 1) root2).self dflt.header)
          (QByteArray_midFrom data (skip + 1)) hroot1 hroot2
        rw [g1, g2]
        cases (parse_sequence_header (sequence_header.ctor (parse_nal_unit_header
            (nal_unit_mpeg2.ctor dflt.nal nalStartEndPosFile nalID)
            (QByteArray_mid data skip 1) root2).self dflt.header)
          (QByteArray_midFrom data (skip + 1)) hroot2).result with
        | error e => simp only [finishUnit_result, and_self]
        | ok u => simp only [finishUnit_result, and_self]
      · obtain ⟨g1, g2, _⟩ := parse_sequence_extension_oblivious
          (sequence_extension.ctor (parse_nal_unit_header
            (nal_unit_mpeg2.ctor dflt.nal nalStartEndPosFile nalID)
            (QByteArray_mid data skip 1) root2).self dflt.extension)
          (QByteArray_midFrom data (skip + 1)) hroot1 hroot2
        rw [g1, g2]
        cases (parse_sequence_extension (sequence_extension.ctor (parse_nal_unit_header
            (nal_unit_mpeg2.ctor dflt.nal nalStartEndPosFile nalID)
            (QByteArray_mid data skip 1) root2).self dflt.extension)
          (QByteArray_midFrom data (skip + 1)) hroot2).result with
        | error e => simp only [finishUnit_result, and_self]
        | ok u => simp only [finishUnit_result, and_self]
      · simp only [finishUnit_result, and_self]


/-- C6: diagnostics are purely observational. Whatever trees the caller and the parser
hold (in particular a diagnostic parent in one call and no tree at all in the other),
`parseAndAddNALUnit` ends the same way on the same unit: the same exception, or the same
decoded unit (type, `slice_id`, `system_start_codes` and every payload member), and the
same label written to the caller. The same holds for each payload decoder on its own: the
exception, every member and the number of bits consumed do not depend on the root. -/
theorem diagnostics_observational (this1 this2 : NALUnitModel) (dflt : MemberDefaults)
    (nalID : Int) (data : QByteArray) (parent1 parent2 : Option TreeItem)
    (nalStartEndPosFile : Nat × Nat) (nalTypeName : Option QString)
    (hself : sequence_header) (eself : sequence_extension) (payload : QByteArray)
    (root1 root2 : Option TreeItem) :
    (parseAndAddNALUnit this1 dflt nalID data parent1 nalStartEndPosFile nalTypeName).result =
      (parseAndAddNALUnit this2 dflt nalID data parent2 nalStartEndPosFile nalTypeName).result ∧
    (parseAndAddNALUnit this1 dflt nalID data parent1 nalStartEndPosFile nalTypeName).nalTypeName =
      (parseAndAddNALUnit this2 dflt nalID data parent2 nalStartEndPosFile
        nalTypeName).nalTypeName ∧
    (parse_sequence_header hself payload root1).result =
      (parse_sequence_header hself payload root2).result ∧
    (parse_sequence_header hself payload root1).self =
      (parse_sequence_header hself payload root2).self ∧
    (parse_sequence_header hself payload root1).reader =
      (parse_sequence_header hself payload root2).reader ∧
    (parse_sequence_extension eself payload root1).result =
      (parse_sequence_extension eself payload root2).result ∧
    (parse_sequence_extension eself payload root1).self =
      (parse_sequence_extension eself payload root2).self ∧
    (parse_sequence_extension eself payload root1).reader =
      (parse_sequence_extension eself payload root2).reader := by
  obtain ⟨a1, a2⟩ := parseAndAddNALUnit_treeless this1 dflt nalID data parent1
    nalStartEndPosFile nalTypeName
  obtain ⟨b1, b2⟩ := parseAndAddNALUnit_treeless this2 dflt nalID data parent2
    nalStartEndPosFile nalTypeName
  obtain ⟨c1, c2, c3⟩ := parse_sequence_header_oblivious hself payload root1 root2
  obtain ⟨d1, d2, d3⟩ := parse_sequence_extension_oblivious eself payload root1 root2
  exact ⟨a1.trans b1.symm, a2.trans b2.symm, c1, c2, c3, d1, d2, d3⟩

/-! ## One node per decoded field -/

theorem addChildren_childItems (t : TreeItem) (l : List TreeItem) :
    (addChildren t l).childItems = t.childItems ++ l := by
  induction l generalizing t with
  | nil => simp [addChildren]
  | cons n l ih =>
    have e : addChildren t (n :: l) = addChildren (t.addChild n) l := rfl
    rw [e, ih]
    simp [TreeItem.addChild, TreeItem.childItems]

theorem addChildren_name (t : TreeItem) (l : List TreeItem) :
    (addChildren t l).name = t.name := by
  induction l generalizing t with
  | nil => rfl
  | cons n l ih =>
    have e : addChildren t (n :: l) = addChildren (t.addChild n) l := rfl
    rw [e, ih]
    rfl

theorem headerDecoded_matrices (s : sequence_header) (bytes : QByteArray) :
    (headerDecoded s bytes).intra_quantiser_matrix =
      setMany bytes (intraCount bytes) 0 63 s.intra_quantiser_matrix ∧
    (headerDecoded s bytes).non_intra_quantiser_matrix =
      setMany bytes (nonIntraCount bytes) 0 (nonIntraFlagPos bytes + 1)
        s.non_intra_quantiser_matrix := by
  simp [headerDecoded, headerIntra, headerFlags, headerBeforeMarker, assignMany_intra,
    assignMany_non_intra]

theorem setMany_zero (bytes : QByteArray) (i pos : Nat) (m : List Nat) :
    setMany bytes 0 i pos m = m := rfl

theorem extensionAfterMarker_fields (s : sequence_extension) (bytes : QByteArray) :
    (extensionAfterMarker s bytes).extension_start_code_identifier = bitsValue bytes 0 4 ∧
    (extensionAfterMarker s bytes).profile_and_level_indication = bitsValue bytes 4 8 ∧
    (extensionAfterMarker s bytes).progressive_sequence = (bitsValue bytes 12 1 != 0) ∧
    (extensionAfterMarker s bytes).chroma_format = bitsValue bytes 13 2 ∧
    (extensionAfterMarker s bytes).horizontal_size_extension = bitsValue bytes 15 2 ∧
    (extensionAfterMarker s bytes).vertical_size_extension = bitsValue bytes 17 2 ∧
    (extensionAfterMarker s bytes).bit_rate_extension = bitsValue bytes 19 12 ∧
    (extensionAfterMarker s bytes).marker_bit = (bitsValue bytes 31 1 != 0) ∧
    (extensionAfterMarker s bytes).vbv_buffer_size_extension = bitsValue bytes 32 8 ∧
    (extensionAfterMarker s bytes).low_delay = (bitsValue bytes 40 1 != 0) ∧
    (extensionAfterMarker s bytes).frame_rate_extension_n = bitsValue bytes 41 2 ∧
    (extensionAfterMarker s bytes).frame_rate_extension_d = bitsValue bytes 43 5 := by
  simp [extensionAfterMarker, extensionBeforeMarker]

/-- C7: with a tree, every decoded field appends exactly one child node, in read order.
A sequence extension that decodes leaves a node "sequence_extension()" with exactly 12
children, named as the fields in read order, each holding the value of its member. A
sequence header that decodes (its two matrices being arrays of 64 entries) leaves a node
"sequence_header()" with exactly `10 + 64*load_intra_quantiser_matrix +
64*load_non_intra_quantiser_matrix` children, which hold, in read order, the values of the
members and of the entries of each matrix that was read. -/
theorem one_node_per_field (eself : sequence_extension) (epayload : QByteArray)
    (hself : sequence_header) (hpayload : QByteArray) (r : TreeItem)
    (hi : hself.intra_quantiser_matrix.length = 64)
    (hn : hself.non_intra_quantiser_matrix.length = 64) :
    ((parse_sequence_extension eself epayload (some r)).result = .ok () →
      ∃ node : TreeItem,
        (parse_sequence_extension eself epayload (some r)).root = some (r.addChild node) ∧
        node.name = some "sequence_extension()" ∧
        node.childItems.length = 12 ∧
        node.childItems.map TreeItem.name =
          [some "extension_start_code_identifier", some "profile_and_level_indication",
           some "progressive_sequence", some "chroma_format", some "horizontal_size_extension",
           some "vertical_size_extension", some "bit_rate_extension", some "marker_bit",
           some "vbv_buffer_size_extension", some "low_delay", some "frame_rate_extension_n",
           some "frame_rate_extension_d"] ∧
        node.childItems.map TreeItem.value =
          [some (parse_sequence_extension eself epayload (some r)).self.extension_start_code_identifier,
           some (parse_sequence_extension eself epayload (some r)).self.profile_and_level_indication,
           some (parse_sequence_extension eself epayload (some r)).self.progressive_sequence.toNat,
           some (parse_sequence_extension eself epayload (some r)).self.chroma_format,
           some (parse_sequence_extension eself epayload (some r)).self.horizontal_size_extension,
           some (parse_sequence_extension eself epayload (some r)).self.vertical_size_extension,
           some (parse_sequence_extension eself epayload (some r)).self.bit_rate_extension,
           some (parse_sequence_extension eself epayload (some r)).self.marker_bit.toNat,
           some (parse_sequence_extension eself epayload (some r)).self.vbv_buffer_size_extension,
           some (parse_sequence_extension eself epayload (some r)).self.low_delay.toNat,
           some (parse_sequence_extension eself epayload (some r)).self.frame_rate_extension_n,
           some (parse_sequence_extension eself epayload (some r)).self.frame_rate_extension_d]) ∧
    ((parse_sequence_header hself hpayload (some r)).result = .ok () →
      ∃ node : TreeItem,
        (parse_sequence_header hself hpayload (some r)).root = some (r.addChild node) ∧
        node.name = some "sequence_header()" ∧
        node.childItems.length =
          10 + 64 * (parse_sequence_header hself hpayload (some r)).self.load_intra_quantiser_matrix.toNat
            + 64 * (parse_sequence_header hself hpayload
                (some r)).self.load_non_intra_quantiser_matrix.toNat ∧
        node.childItems.map TreeItem.value =
          [some (parse_sequence_header hself hpayload (some r)).self.horizontal_size_value,
           some (parse_sequence_header hself hpayload (some r)).self.vertical_size_value,
           some (parse_sequence_header hself hpayload (some r)).self.aspect_ratio_information,
           some (parse_sequence_header hself hpayload (some r)).self.frame_rate_code,
           some (parse_sequence_header hself hpayload (some r)).self.bit_rate_value,
           some (parse_sequence_header hself hpayload (some r)).self.marker_bit.toNat,
           some (parse_sequence_header hself hpayload (some r)).self.vbv_buffer_size_value,
           some (parse_sequence_header hself hpayload (some r)).self.constrained_parameters_flag.toNat,
           some (parse_sequence_header hself hpayload (some r)).self.load_intra_quantiser_matrix.toNat]
          ++ (if (parse_sequence_header hself hpayload (some r)).self.load_intra_quantiser_matrix
              then (parse_sequence_header hself hpayload
                (some r)).self.intra_quantiser_matrix.map some
              else [])
          ++ [some (parse_sequence_header hself hpayload
                (some r)).self.load_non_intra_quantiser_matrix.toNat]
          ++ (if (parse_sequence_header hself hpayload (some r)).self.load_non_intra_quantiser_matrix
              then (parse_sequence_header hself hpayload
                (some r)).self.non_intra_quantiser_matrix.map some
              else [])) := by
  constructor
  · intro hok
    obtain ⟨hm, hb⟩ := parse_sequence_extension_success eself epayload (some r) hok
    rw [parse_sequence_extension_ok eself epayload (some r) hb hm]
    refine ⟨_, rfl, ?_, ?_, ?_, ?_⟩
    · rw [addChildren_name]; rfl
    · rw [addChildren_childItems]; rfl
    · rw [addChildren_childItems]; rfl
    · rw [addChildren_childItems]
      obtain ⟨f1, f2, f3, f4, f5, f6, f7, f8, f9, f10, f11, f12⟩ :=
        extensionAfterMarker_fields { eself with nalPayload := epayload } epayload
      simp only [f1, f2, f3, f4, f5, f6, f7, f8, f9, f10, f11, f12]
      rfl
  · intro hok
    obtain ⟨hm, hb⟩ := parse_sequence_header_success hself hpayload (some r) hok
    rw [parse_sequence_header_ok hself hpayload (some r) hm hb]
    obtain ⟨f1, f2, f3, f4, f5, f6, f7, f8, f9, f10⟩ :=
      headerDecoded_fields { hself with nalPayload := hpayload } hpayload
    obtain ⟨m1, m2⟩ := headerDecoded_matrices { hself with nalPayload := hpayload } hpayload
    refine ⟨_, rfl, ?_, ?_, ?_⟩
    · rw [addChildren_name]; rfl
    · rw [addChildren_childItems]
      simp only [f9, f10]
      cases ha : (bitsValue hpayload 62 1 != 0) <;>
        cases hc : (bitsValue hpayload (nonIntraFlagPos hpayload) 1 != 0) <;>
        simp [headerNodes, headerNodesBeforeMarker, headerNodesFlags, matrixNodes_length,
          intraCount, nonIntraCount, ha, hc, TreeItem.named, TreeItem.childItems]
    · rw [addChildren_childItems]
      simp only [f1, f2, f3, f4, f5, f6, f7, f8, f9, f10, m1, m2]
      cases ha : (bitsValue hpayload 62 1 != 0) <;>
        cases hc : (bitsValue hpayload (nonIntraFlagPos hpayload) 1 != 0) <;>
        simp [headerNodes, headerNodesBeforeMarker, headerNodesFlags, matrixNodes_value,
          intraCount, nonIntraCount, ha, hc, TreeItem.named, TreeItem.childItems,
          setMany_full _ 64 _ _ hi, setMany_full _ 64 _ _ hn, matrixNodes_zero, bitNode,
          flagNode, TreeItem.field, TreeItem.value]


/-- Witness for C7: the sample extension and the sample header, decoded below a blank node. -/
theorem one_node_per_field_witness :
    (∃ node : TreeItem,
        (parse_sequence_extension sampleExtension sampleExtensionPayload (some TreeItem.blank)).root = some (TreeItem.blank.addChild node) ∧
        node.name = some "sequence_extension()" ∧
        node.childItems.length = 12 ∧
        node.childItems.map TreeItem.name =
          [some "extension_start_code_identifier", some "profile_and_level_indication",
           some "progressive_sequence", some "chroma_format", some "horizontal_size_extension",
           some "vertical_size_extension", some "bit_rate_extension", some "marker_bit",
           some "vbv_buffer_size_extension", some "low_delay", some "frame_rate_extension_n",
           some "frame_rate_extension_d"] ∧
        node.childItems.map TreeItem.value =
          [some (parse_sequence_extension sampleExtension sampleExtensionPayload (some TreeItem.blank)).self.extension_start_code_identifier,
           some (parse_sequence_extension sampleExtension sampleExtensionPayload (some TreeItem.blank)).self.profile_and_level_indication,
           some (parse_sequence_extension sampleExtension sampleExtensionPayload (some TreeItem.blank)).self.progressive_sequence.toNat,
           some (parse_sequence_extension sampleExtension sampleExtensionPayload (some TreeItem.blank)).self.chroma_format,
           some (parse_sequence_extension sampleExtension sampleExtensionPayload (some TreeItem.blank)).self.horizontal_size_extension,
           some (parse_sequence_extension sampleExtension sampleExtensionPayload (some TreeItem.blank)).self.vertical_size_extension,
           some (parse_sequence_extension sampleExtension sampleExtensionPayload (some TreeItem.blank)).self.bit_rate_extension,
           some (parse_sequence_extension sampleExtension sampleExtensionPayload (some TreeItem.blank)).self.marker_bit.toNat,
           some (parse_sequence_extension sampleExtension sampleExtensionPayload (some TreeItem.blank)).self.vbv_buffer_size_extension,
           some (parse_sequence_extension sampleExtension sampleExtensionPayload (some TreeItem.blank)).self.low_delay.toNat,
           some (parse_sequence_extension sampleExtension sampleExtensionPayload (some TreeItem.blank)).self.frame_rate_extension_n,
           some (parse_sequence_extension sampleExtension sampleExtensionPayload (some TreeItem.blank)).self.frame_rate_extension_d]) ∧
    (∃ node : TreeItem,
        (parse_sequence_header sampleHeader sampleHeaderPayload (some TreeItem.blank)).root = some (TreeItem.blank.addChild node) ∧
        node.name = some "sequence_header()" ∧
        node.childItems.length =
          10 + 64 * (parse_sequence_header sampleHeader sampleHeaderPayload (some TreeItem.blank)).self.load_intra_quantiser_matrix.toNat
            + 64 * (parse_sequence_header sampleHeader sampleHeaderPayload
                (some TreeItem.blank)).self.load_non_intra_quantiser_matrix.toNat ∧
        node.childItems.map TreeItem.value =
          [some (parse_sequence_header sampleHeader sampleHeaderPayload (some TreeItem.blank)).self.horizontal_size_value,
           some (parse_sequence_header sampleHeader sampleHeaderPayload (some TreeItem.blank)).self.vertical_size_value,
           some (parse_sequence_header sampleHeader sampleHeaderPayload (some TreeItem.blank)).self.aspect_ratio_information,
           some (parse_sequence_header sampleHeader sampleHeaderPayload (some TreeItem.blank)).self.frame_rate_code,
           some (parse_sequence_header sampleHeader sampleHeaderPayload (some TreeItem.blank)).self.bit_rate_value,
           some (parse_sequence_header sampleHeader sampleHeaderPayload (some TreeItem.blank)).self.marker_bit.toNat,
           some (parse_sequence_header sampleHeader sampleHeaderPayload (some TreeItem.blank)).self.vbv_buffer_size_value,
           some (parse_sequence_header sampleHeader sampleHeaderPayload (some TreeItem.blank)).self.constrained_parameters_flag.toNat,
           some (parse_sequence_header sampleHeader sampleHeaderPayload (some TreeItem.blank)).self.load_intra_quantiser_matrix.toNat]
          ++ (if (parse_sequence_header sampleHeader sampleHeaderPayload (some TreeItem.blank)).self.load_intra_quantiser_matrix
              then (parse_sequence_header sampleHeader sampleHeaderPayload
                (some TreeItem.blank)).self.intra_quantiser_matrix.map some
              else [])
          ++ [some (parse_sequence_header sampleHeader sampleHeaderPayload
                (some TreeItem.blank)).self.load_non_intra_quantiser_matrix.toNat]
          ++ (if (parse_sequence_header sampleHeader sampleHeaderPayload (some TreeItem.blank)).self.load_non_intra_quantiser_matrix
              then (parse_sequence_header sampleHeader sampleHeaderPayload
                (some TreeItem.blank)).self.non_intra_quantiser_matrix.map some
              else [])) :=
  ⟨(one_node_per_field sampleExtension sampleExtensionPayload sampleHeader sampleHeaderPayload
      TreeItem.blank (by decide) (by decide)).1 (by rfl),
   (one_node_per_field sampleExtension sampleExtensionPayload sampleHeader sampleHeaderPayload
      TreeItem.blank (by decide) (by decide)).2 (by rfl)⟩

/-! ## The quantiser matrices -/

theorem headerBits_eq (bytes : QByteArray) :
    headerBits bytes = 64 + 512 * (bitsValue bytes 62 1 != 0).toNat
      + 512 * (bitsValue bytes (nonIntraFlagPos bytes) 1 != 0).toNat ∧
    nonIntraFlagPos bytes = 63 + 512 * (bitsValue bytes 62 1 != 0).toNat := by
  cases ha : (bitsValue bytes 62 1 != 0)
  · have hp : nonIntraFlagPos bytes = 63 := by simp [nonIntraFlagPos, intraCount, ha]
    cases hc : (bitsValue bytes 63 1 != 0) <;>
      simp [headerBits, nonIntraCount, hp, hc]
  · have hp : nonIntraFlagPos bytes = 575 := by simp [nonIntraFlagPos, intraCount, ha]
    cases hc : (bitsValue bytes 575 1 != 0) <;>
      simp [headerBits, nonIntraCount, hp, hc]

/-- C8: the quantiser matrices of a sequence header are read only when their flag is set,
each as 64 fields of 8 bits in index order. For every payload that decodes (the matrices
being arrays of 64 entries): `load_intra_quantiser_matrix` is bit 62; if it is set, entry
`i` of `intra_quantiser_matrix` is the 8 bits at bit `63 + 8*i` for every `i < 64` and
`load_non_intra_quantiser_matrix` is bit 575, otherwise the matrix is left as it was and
`load_non_intra_quantiser_matrix` is bit 63; if `load_non_intra_quantiser_matrix` is set,
entry `i` of `non_intra_quantiser_matrix` is the 8 bits that start `8*i` bits after that
flag, otherwise that matrix is left as it was. The decode consumes exactly
`64 + 512*load_intra_quantiser_matrix + 512*load_non_intra_quantiser_matrix` bits. -/
theorem quantiser_matrices (self : sequence_header) (payload : QByteArray)
    (root : Option TreeItem)
    (hi : self.intra_quantiser_matrix.length = 64)
    (hn : self.non_intra_quantiser_matrix.length = 64)
    (hok : (parse_sequence_header self payload root).result = .ok ()) :
    (parse_sequence_header self payload root).self.load_intra_quantiser_matrix.toNat
      = bitAt payload 62 ∧
    ((parse_sequence_header self payload root).self.load_intra_quantiser_matrix = true →
      (∀ i, i < 64 → (parse_sequence_header self payload root).self.intra_quantiser_matrix[i]?
        = some (bitsValue payload (63 + 8 * i) 8)) ∧
      (parse_sequence_header self payload root).self.load_non_intra_quantiser_matrix.toNat
        = bitAt payload 575) ∧
    ((parse_sequence_header self payload root).self.load_intra_quantiser_matrix = false →
      (parse_sequence_header self payload root).self.intra_quantiser_matrix
        = self.intra_quantiser_matrix ∧
      (parse_sequence_header self payload root).self.load_non_intra_quantiser_matrix.toNat
        = bitAt payload 63) ∧
    ((parse_sequence_header self payload root).self.load_non_intra_quantiser_matrix = true →
      ∀ i, i < 64 → (parse_sequence_header self payload root).self.non_intra_quantiser_matrix[i]?
        = some (bitsValue payload
            (64 + 512 * (parse_sequence_header self payload
              root).self.load_intra_quantiser_matrix.toNat + 8 * i) 8)) ∧
    ((parse_sequence_header self payload root).self.load_non_intra_quantiser_matrix = false →
      (parse_sequence_header self payload root).self.non_intra_quantiser_matrix
        = self.non_intra_quantiser_matrix) ∧
    (parse_sequence_header self payload root).reader.pos
      = 64 + 512 * (parse_sequence_header self payload root).self.load_intra_quantiser_matrix.toNat
        + 512 * (parse_sequence_header self payload
            root).self.load_non_intra_quantiser_matrix.toNat := by
  obtain ⟨hm, hb⟩ := parse_sequence_header_success self payload root hok
  rw [parse_sequence_header_ok self payload root hm hb]
  obtain ⟨_, _, _, _, _, _, _, _, f9, f10⟩ :=
    headerDecoded_fields { self with nalPayload := payload } payload
  obtain ⟨m1, m2⟩ := headerDecoded_matrices { self with nalPayload := payload } payload
  obtain ⟨hbits, hpos⟩ := headerBits_eq payload
  simp only [f9, f10, m1, m2]
  refine ⟨flag_toNat payload 62, ?_, ?_, ?_, ?_, ?_⟩
  · intro ha
    have hc : intraCount payload = 64 := by simp [intraCount, ha]
    have hp : nonIntraFlagPos payload = 575 := by simp [nonIntraFlagPos, hc]
    refine ⟨?_, ?_⟩
    · intro i hlt
      have h2 : 0 ≤ i ∧ i < 0 + 64 ∧ i < self.intra_quantiser_matrix.length := by omega
      rw [hc, setMany_getElem?, if_pos h2, Nat.sub_zero]
    · rw [hp]; exact flag_toNat payload 575
  · intro ha
    have hc : intraCount payload = 0 := by simp [intraCount, ha]
    have hp : nonIntraFlagPos payload = 63 := by simp [nonIntraFlagPos, hc]
    refine ⟨?_, ?_⟩
    · rw [hc, setMany_zero]
    · rw [hp]; exact flag_toNat payload 63
  · intro hc i hlt
    have hcount : nonIntraCount payload = 64 := by simp [nonIntraCount, hc]
    have h2 : 0 ≤ i ∧ i < 0 + 64 ∧ i < self.non_intra_quantiser_matrix.length := by omega
    have e : nonIntraFlagPos payload + 1 + 8 * (i - 0)
        = 64 + 512 * (bitsValue payload 62 1 != 0).toNat + 8 * i := by
      rw [hpos]; omega
    rw [hcount, setMany_getElem?, if_pos h2, e]
  · intro hc
    have hcount : nonIntraCount payload = 0 := by simp [nonIntraCount, hc]
    rw [hcount, setMany_zero]
  · exact hbits

/-- Witness for C8 with a matrix: the 72-byte payload `sampleHeaderPayloadIntra` decodes;
`load_intra_quantiser_matrix` is set, the 64 entries of `intra_quantiser_matrix` are the
8-bit fields from bit 63 on, which are 1, 2, ..., 64, `load_non_intra_quantiser_matrix` is
bit 575 and is clear, the other matrix is left as it was, and 576 bits are consumed.
Without a matrix (`sampleHeaderPayload`) the intra matrix is left as it was and 64 bits are
consumed. -/
theorem quantiser_matrices_witness :
    (parse_sequence_header sampleHeader sampleHeaderPayloadIntra none).result = .ok () ∧
    (parse_sequence_header sampleHeader sampleHeaderPayloadIntra
      none).self.load_intra_quantiser_matrix = true ∧
    (∀ i, i < 64 →
      (parse_sequence_header sampleHeader sampleHeaderPayloadIntra
        none).self.intra_quantiser_matrix[i]?
        = some (bitsValue sampleHeaderPayloadIntra (63 + 8 * i) 8)) ∧
    (∀ i, i < 64 → bitsValue sampleHeaderPayloadIntra (63 + 8 * i) 8 = i + 1) ∧
    (parse_sequence_header sampleHeader sampleHeaderPayloadIntra
      none).self.load_non_intra_quantiser_matrix = false ∧
    (parse_sequence_header sampleHeader sampleHeaderPayloadIntra
      none).self.non_intra_quantiser_matrix = sampleHeader.non_intra_quantiser_matrix ∧
    (parse_sequence_header sampleHeader sampleHeaderPayloadIntra none).reader.pos = 576 ∧
    (parse_sequence_header sampleHeader sampleHeaderPayload none).self.intra_quantiser_matrix
      = sampleHeader.intra_quantiser_matrix ∧
    (parse_sequence_header sampleHeader sampleHeaderPayload none).reader.pos = 64 := by
  have hok : (parse_sequence_header sampleHeader sampleHeaderPayloadIntra none).result
      = .ok () := by
    rw [parse_sequence_header_ok sampleHeader sampleHeaderPayloadIntra none (by decide)
      (by decide)]
  have h := quantiser_matrices sampleHeader sampleHeaderPayloadIntra none (by decide)
    (by decide) hok
  have h0 := quantiser_matrices sampleHeader sampleHeaderPayload none (by decide) (by decide)
    (by rfl)
  have b62 : bitAt sampleHeaderPayloadIntra 62 = 1 := by decide
  have b575 : bitAt sampleHeaderPayloadIntra 575 = 0 := by decide
  have hload : (parse_sequence_header sampleHeader sampleHeaderPayloadIntra
      none).self.load_intra_quantiser_matrix = true := by
    have h1 := h.1
    rw [b62] at h1
    cases hb : (parse_sequence_header sampleHeader sampleHeaderPayloadIntra
      none).self.load_intra_quantiser_matrix
    · rw [hb] at h1; exact absurd h1 (by decide)
    · rfl
  have hnon : (parse_sequence_header sampleHeader sampleHeaderPayloadIntra
      none).self.load_non_intra_quantiser_matrix = false := by
    have h1 := (h.2.1 hload).2
    rw [b575] at h1
    cases hb : (parse_sequence_header sampleHeader sampleHeaderPayloadIntra
      none).self.load_non_intra_quantiser_matrix
    · rfl
    · rw [hb] at h1; exact absurd h1 (by decide)
  have hpos := h.2.2.2.2.2
  rw [hload, hnon] at hpos
  have hpos0 := h0.2.2.2.2.2
  rw [show (parse_sequence_header sampleHeader sampleHeaderPayload
      none).self.load_intra_quantiser_matrix = false from by rfl,
    show (parse_sequence_header sampleHeader sampleHeaderPayload
      none).self.load_non_intra_quantiser_matrix = false from by rfl] at hpos0
  exact ⟨hok, hload, (h.2.1 hload).1, by decide, hnon, h.2.2.2.2.1 hnon, hpos,
    (h0.2.2.1 (by rfl)).1, hpos0⟩

/-! ## The sequence extension: properties -/

theorem extension_bytes_fields (b0 b1 b2 b3 b4 b5 : Byte) (rest : QByteArray) :
    bitsValue (b0 :: b1 :: b2 :: b3 :: b4 :: b5 :: rest) 0 4 = b0.val / 16 ∧
    bitsValue (b0 :: b1 :: b2 :: b3 :: b4 :: b5 :: rest) 4 8 = (b0.val % 16) * 16 + b1.val / 16 ∧
    bitsValue (b0 :: b1 :: b2 :: b3 :: b4 :: b5 :: rest) 12 1 = b1.val / 8 % 2 ∧
    bitsValue (b0 :: b1 :: b2 :: b3 :: b4 :: b5 :: rest) 13 2 = b1.val / 2 % 4 ∧
    bitsValue (b0 :: b1 :: b2 :: b3 :: b4 :: b5 :: rest) 15 2 = (b1.val % 2) * 2 + b2.val / 128 ∧
    bitsValue (b0 :: b1 :: b2 :: b3 :: b4 :: b5 :: rest) 17 2 = b2.val / 32 % 4 ∧
    bitsValue (b0 :: b1 :: b2 :: b3 :: b4 :: b5 :: rest) 19 12 = (b2.val % 32) * 128 + b3.val / 2 ∧
    bitsValue (b0 :: b1 :: b2 :: b3 :: b4 :: b5 :: rest) 31 1 = b3.val % 2 ∧
    bitsValue (b0 :: b1 :: b2 :: b3 :: b4 :: b5 :: rest) 32 8 = b4.val ∧
    bitsValue (b0 :: b1 :: b2 :: b3 :: b4 :: b5 :: rest) 40 1 = b5.val / 128 ∧
    bitsValue (b0 :: b1 :: b2 :: b3 :: b4 :: b5 :: rest) 41 2 = b5.val / 32 % 4 ∧
    bitsValue (b0 :: b1 :: b2 :: b3 :: b4 :: b5 :: rest) 43 5 = b5.val % 32 := by
  have h0 := b0.isLt
  have h1 := b1.isLt
  have h2 := b2.isLt
  have h3 := b3.isLt
  have h4 := b4.isLt
  have h5 := b5.isLt
  refine ⟨?_, ?_, ?_, ?_, ?_, ?_, ?_, ?_, ?_, ?_, ?_, ?_⟩
  · rw [bitsValue_in_byte _ 0 0 4 (by decide)]
    simp
    omega
  · rw [bitsValue_add _ 4 4 4, bitsValue_in_byte _ 0 4 4 (by decide),
      bitsValue_in_byte _ 1 0 4 (by decide)]
    simp
    omega
  · rw [bitsValue_in_byte _ 1 4 1 (by decide)]
    simp
  · rw [bitsValue_in_byte _ 1 5 2 (by decide)]
    simp
  · rw [bitsValue_add _ 15 1 1, bitsValue_in_byte _ 1 7 1 (by decide),
      bitsValue_in_byte _ 2 0 1 (by decide)]
    simp
    omega
  · rw [bitsValue_in_byte _ 2 1 2 (by decide)]
    simp
  · rw [bitsValue_add _ 19 5 7, bitsValue_in_byte _ 2 3 5 (by decide),
      bitsValue_in_byte _ 3 0 7 (by decide)]
    simp
    omega
  · rw [bitsValue_in_byte _ 3 7 1 (by decide)]
    simp
  · rw [bitsValue_in_byte _ 4 0 8 (by decide)]
    simp
  · rw [bitsValue_in_byte _ 5 0 1 (by decide)]
    simp
    omega
  · rw [bitsValue_in_byte _ 5 1 2 (by decide)]
    simp
  · rw [bitsValue_in_byte _ 5 3 5 (by decide)]
    simp


/-- C9: for every sequence extension payload `b0 .. b5` followed by any bytes, with bit 31
(the lowest bit of `b3`) set: the decode completes, consumes exactly 48 bits and yields
`extension_start_code_identifier = b0 div 16`, `profile_and_level_indication =
(b0 mod 16)*16 + b1 div 16`, `progressive_sequence` bit 12, `chroma_format =
(b1 div 2) mod 4`, `horizontal_size_extension = (b1 mod 2)*2 + b2 div 128`,
`vertical_size_extension = (b2 div 32) mod 4`, `bit_rate_extension = (b2 mod 32)*128 +
b3 div 2`, `marker_bit = 1`, `vbv_buffer_size_extension = b4`, `low_delay = b5 div 128`,
`frame_rate_extension_n = (b5 div 32) mod 4`, `frame_rate_extension_d = b5 mod 32`. The
bytes after the sixth affect neither the outcome, nor the bits consumed, nor any member
but the stored copy of the payload. -/
theorem parse_sequence_extension_fields (self : sequence_extension)
    (b0 b1 b2 b3 b4 b5 : Byte) (rest : QByteArray) (root : Option TreeItem)
    (hm : b3.val % 2 = 1) :
    (parse_sequence_extension self (b0 :: b1 :: b2 :: b3 :: b4 :: b5 :: rest) root).result
      = .ok () ∧
    (parse_sequence_extension self (b0 :: b1 :: b2 :: b3 :: b4 :: b5 :: rest) root).reader.pos
      = 48 ∧
    (parse_sequence_extension self (b0 :: b1 :: b2 :: b3 :: b4 :: b5 :: rest)
      root).self.extension_start_code_identifier = b0.val / 16 ∧
    (parse_sequence_extension self (b0 :: b1 :: b2 :: b3 :: b4 :: b5 :: rest)
      root).self.profile_and_level_indication = (b0.val % 16) * 16 + b1.val / 16 ∧
    (parse_sequence_extension self (b0 :: b1 :: b2 :: b3 :: b4 :: b5 :: rest)
      root).self.progressive_sequence.toNat = b1.val / 8 % 2 ∧
    (parse_sequence_extension self (b0 :: b1 :: b2 :: b3 :: b4 :: b5 :: rest)
      root).self.chroma_format = b1.val / 2 % 4 ∧
    (parse_sequence_extension self (b0 :: b1 :: b2 :: b3 :: b4 :: b5 :: rest)
      root).self.horizontal_size_extension = (b1.val % 2) * 2 + b2.val / 128 ∧
    (parse_sequence_extension self (b0 :: b1 :: b2 :: b3 :: b4 :: b5 :: rest)
      root).self.vertical_size_extension = b2.val / 32 % 4 ∧
    (parse_sequence_extension self (b0 :: b1 :: b2 :: b3 :: b4 :: b5 :: rest)
      root).self.bit_rate_extension = (b2.val % 32) * 128 + b3.val / 2 ∧
    (parse_sequence_extension self (b0 :: b1 :: b2 :: b3 :: b4 :: b5 :: rest)
      root).self.marker_bit = true ∧
    (parse_sequence_extension self (b0 :: b1 :: b2 :: b3 :: b4 :: b5 :: rest)
      root).self.vbv_buffer_size_extension = b4.val ∧
    (parse_sequence_extension self (b0 :: b1 :: b2 :: b3 :: b4 :: b5 :: rest)
      root).self.low_delay.toNat = b5.val / 128 ∧
    (parse_sequence_extension self (b0 :: b1 :: b2 :: b3 :: b4 :: b5 :: rest)
      root).self.frame_rate_extension_n = b5.val / 32 % 4 ∧
    (parse_sequence_extension self (b0 :: b1 :: b2 :: b3 :: b4 :: b5 :: rest)
      root).self.frame_rate_extension_d = b5.val % 32 ∧
    (∀ rest2 : QByteArray,
      (parse_sequence_extension self (b0 :: b1 :: b2 :: b3 :: b4 :: b5 :: rest2) root).result
        = (parse_sequence_extension self (b0 :: b1 :: b2 :: b3 :: b4 :: b5 :: rest) root).result ∧
      (parse_sequence_extension self (b0 :: b1 :: b2 :: b3 :: b4 :: b5 :: rest2) root).reader.pos
        = (parse_sequence_extension self (b0 :: b1 :: b2 :: b3 :: b4 :: b5 :: rest)
            root).reader.pos ∧
      { (parse_sequence_extension self (b0 :: b1 :: b2 :: b3 :: b4 :: b5 :: rest2) root).self
          with nalPayload := [] }
        = { (parse_sequence_extension self (b0 :: b1 :: b2 :: b3 :: b4 :: b5 :: rest) root).self
          with nalPayload := [] }) := by
  have key : ∀ rest1 : QByteArray,
      parse_sequence_extension self (b0 :: b1 :: b2 :: b3 :: b4 :: b5 :: rest1) root =
        { root := attach root (root.map (fun _ =>
            addChildren (TreeItem.named "sequence_extension()")
              (extensionNodesBeforeMarker (b0 :: b1 :: b2 :: b3 :: b4 :: b5 :: rest1)
                ++ extensionNodesAfterMarker (b0 :: b1 :: b2 :: b3 :: b4 :: b5 :: rest1))))
          self := extensionAfterMarker
            { self with nalPayload := b0 :: b1 :: b2 :: b3 :: b4 :: b5 :: rest1 }
            (b0 :: b1 :: b2 :: b3 :: b4 :: b5 :: rest1)
          reader := ⟨b0 :: b1 :: b2 :: b3 :: b4 :: b5 :: rest1, 48⟩
          result := .ok () } := by
    intro rest1
    apply parse_sequence_extension_ok
    · simp only [List.length_cons]; omega
    · rw [(extension_bytes_fields b0 b1 b2 b3 b4 b5 rest1).2.2.2.2.2.2.2.1]; exact hm
  have flds : ∀ rest1 : QByteArray,
      extensionAfterMarker
        { self with nalPayload := b0 :: b1 :: b2 :: b3 :: b4 :: b5 :: rest1 }
        (b0 :: b1 :: b2 :: b3 :: b4 :: b5 :: rest1) =
      { self with
        nalPayload := b0 :: b1 :: b2 :: b3 :: b4 :: b5 :: rest1
        extension_start_code_identifier := b0.val / 16
        profile_and_level_indication := (b0.val % 16) * 16 + b1.val / 16
        progressive_sequence := (b1.val / 8 % 2 != 0)
        chroma_format := b1.val / 2 % 4
        horizontal_size_extension := (b1.val % 2) * 2 + b2.val / 128
        vertical_size_extension := b2.val / 32 % 4
        bit_rate_extension := (b2.val % 32) * 128 + b3.val / 2
        marker_bit := (b3.val % 2 != 0)
        vbv_buffer_size_extension := b4.val
        low_delay := (b5.val / 128 != 0)
        frame_rate_extension_n := b5.val / 32 % 4
        frame_rate_extension_d := b5.val % 32 } := by
    intro rest1
    obtain ⟨e1, e2, e3, e4, e5, e6, e7, e8, e9, e10, e11, e12⟩ :=
      extension_bytes_fields b0 b1 b2 b3 b4 b5 rest1
    simp only [extensionAfterMarker, extensionBeforeMarker, e1, e2, e3, e4, e5, e6, e7, e8, e9,
      e10, e11, e12]
  have h5 := b5.isLt
  have h1 := b1.isLt
  have t1 : (b1.val / 8 % 2 != 0).toNat = b1.val / 8 % 2 := by
    have hc : b1.val / 8 % 2 = 0 ∨ b1.val / 8 % 2 = 1 := by omega
    rcases hc with hc | hc <;> simp [hc]
  have t2 : (b5.val / 128 != 0).toNat = b5.val / 128 := by
    have hc : b5.val / 128 = 0 ∨ b5.val / 128 = 1 := by omega
    rcases hc with hc | hc <;> simp [hc]
  refine ⟨?_, ?_, ?_, ?_, ?_, ?_, ?_, ?_, ?_, ?_, ?_, ?_, ?_, ?_, ?_⟩
  · rw [key rest]
  · rw [key rest]
  · rw [key rest]; simp only [flds rest]
  · rw [key rest]; simp only [flds rest]
  · rw [key rest]; simp only [flds rest]; exact t1
  · rw [key rest]; simp only [flds rest]
  · rw [key rest]; simp only [flds rest]
  · rw [key rest]; simp only [flds rest]
  · rw [key rest]; simp only [flds rest]
  · rw [key rest]; simp only [flds rest]; simp [hm]
  · rw [key rest]; simp only [flds rest]
  · rw [key rest]; simp only [flds rest]; exact t2
  · rw [key rest]; simp only [flds rest]
  · rw [key rest]; simp only [flds rest]
  · intro rest2
    rw [key rest, key rest2]
    simp only [flds rest, flds rest2]
    exact ⟨trivial, trivial, trivial⟩

/-- Witness for C9: the sample extension payload. -/
theorem parse_sequence_extension_fields_witness :
    (parse_sequence_extension sampleExtension [0x14, 0x8A, 0x00, 0x01, 0x00, 0x00] none).result
      = .ok () ∧
    (parse_sequence_extension sampleExtension [0x14, 0x8A, 0x00, 0x01, 0x00, 0x00]
      none).reader.pos = 48 ∧
    (parse_sequence_extension sampleExtension [0x14, 0x8A, 0x00, 0x01, 0x00, 0x00]
      none).self.extension_start_code_identifier = (0x14 : Byte).val / 16 ∧
    (parse_sequence_extension sampleExtension [0x14, 0x8A, 0x00, 0x01, 0x00, 0x00]
      none).self.profile_and_level_indication
        = ((0x14 : Byte).val % 16) * 16 + (0x8A : Byte).val / 16 :=
  ⟨(parse_sequence_extension_fields sampleExtension 0x14 0x8A 0x00 0x01 0x00 0x00 [] none
      (by decide)).1,
   (parse_sequence_extension_fields sampleExtension 0x14 0x8A 0x00 0x01 0x00 0x00 [] none
      (by decide)).2.1,
   (parse_sequence_extension_fields sampleExtension 0x14 0x8A 0x00 0x01 0x00 0x00 [] none
      (by decide)).2.2.1,
   (parse_sequence_extension_fields sampleExtension 0x14 0x8A 0x00 0x01 0x00 0x00 [] none
      (by decide)).2.2.2.1⟩

/-! ## Units without a payload decoder -/

theorem interprete_not_decoded (self : nal_unit_mpeg2) (b : Byte) (hB3 : b.val ≠ 0xB3)
    (hB5 : b.val ≠ 0xB5) :
    (interprete_start_code self (b.val : Int)).1.nal_unit_type ≠ SEQUENCE_HEADER ∧
    (interprete_start_code self (b.val : Int)).1.nal_unit_type ≠ EXTENSION_START := by
  have hb := b.isLt
  have h3 : ¬ ((b.val : Int) = 0xB3) := by omega
  have h5 : ¬ ((b.val : Int) = 0xB5) := by omega
  rw [interprete_start_code_type self (b.val : Int) (by omega) (by omega)]
  split_ifs <;> simp

theorem interprete_start_code_value (self : nal_unit_mpeg2) (v : Int) :
    (interprete_start_code self v).1.start_code_value = self.start_code_value := by
  unfold interprete_start_code
  simp only [apply_ite Prod.fst, apply_ite nal_unit_mpeg2.start_code_value, ite_self]

theorem startCodeSkip_three (b : Byte) (payload : QByteArray) :
    startCodeSkip (0 :: 0 :: 1 :: b :: payload) = .ok 3 := rfl

theorem startCodeSkip_four (b : Byte) (payload : QByteArray) :
    startCodeSkip (0 :: 0 :: 0 :: 1 :: b :: payload) = .ok 4 := rfl

theorem parseAndAddNALUnit_header_only (this : NALUnitModel) (dflt : MemberDefaults)
    (nalID : Int) (data : QByteArray) (parent : Option TreeItem)
    (nalStartEndPosFile : Nat × Nat) (nalTypeName : Option QString) (skip : Nat) (b : Byte)
    (hs : startCodeSkip data = .ok skip) (hh : QByteArray_mid data skip 1 = [b])
    (hB3 : b.val ≠ 0xB3) (hB5 : b.val ≠ 0xB5) :
    (parseAndAddNALUnit this dflt nalID data parent nalStartEndPosFile nalTypeName).result =
      .ok (ParsedUnit.header_only (interprete_start_code
        { nal_unit_mpeg2.ctor dflt.nal nalStartEndPosFile nalID with
          start_code_value := (b.val : Int) } (b.val : Int)).1) ∧
    (parseAndAddNALUnit this dflt nalID data parent nalStartEndPosFile nalTypeName).nalTypeName =
      nalTypeName := by
  obtain ⟨a1, a2⟩ := parseAndAddNALUnit_treeless this dflt nalID data parent
    nalStartEndPosFile nalTypeName
  rw [a1, a2]
  unfold parseAndAddNALUnit
  rw [hs]
  simp only [hh]
  obtain ⟨h1, h2, _⟩ := parse_nal_unit_header_one
    (nal_unit_mpeg2.ctor dflt.nal nalStartEndPosFile nalID) b
    (if (none : Option TreeItem).isSome = true then some TreeItem.blank
      else if (NALUnitModel.mk none).rootItem.isSome = true then some TreeItem.blank else none)
  obtain ⟨n1, n2⟩ := interprete_not_decoded
    { nal_unit_mpeg2.ctor dflt.nal nalStartEndPosFile nalID with
      start_code_value := (b.val : Int) } b hB3 hB5
  rw [h1]
  simp only [h2, if_neg n1, if_neg n2, finishUnit_result, and_self]

/-- C10: a unit type without a payload decoder is not an error. For every unit that is a
start code (00 00 01 or 00 00 00 01), a header byte other than 0xB3 and 0xB5 and any
payload bytes (none included), `parseAndAddNALUnit` completes without an exception, its
result is the unit header alone (start code value and classification, no decoded payload
member), and the label of the caller is left as it was. -/
theorem header_only_units (this : NALUnitModel) (dflt : MemberDefaults) (nalID : Int)
    (b : Byte) (payload : QByteArray) (parent : Option TreeItem)
    (nalStartEndPosFile : Nat × Nat) (nalTypeName : Option QString)
    (hB3 : b.val ≠ 0xB3) (hB5 : b.val ≠ 0xB5) :
    (∃ nal : nal_unit_mpeg2,
      (parseAndAddNALUnit this dflt nalID (0 :: 0 :: 1 :: b :: payload) parent
        nalStartEndPosFile nalTypeName).result = .ok (ParsedUnit.header_only nal) ∧
      nal.start_code_value = (b.val : Int) ∧
      nal.nal_unit_type ≠ SEQUENCE_HEADER ∧ nal.nal_unit_type ≠ EXTENSION_START ∧
      (parseAndAddNALUnit this dflt nalID (0 :: 0 :: 1 :: b :: payload) parent
        nalStartEndPosFile nalTypeName).nalTypeName = nalTypeName) ∧
    (∃ nal : nal_unit_mpeg2,
      (parseAndAddNALUnit this dflt nalID (0 :: 0 :: 0 :: 1 :: b :: payload) parent
        nalStartEndPosFile nalTypeName).result = .ok (ParsedUnit.header_only nal) ∧
      nal.start_code_value = (b.val : Int) ∧
      nal.nal_unit_type ≠ SEQUENCE_HEADER ∧ nal.nal_unit_type ≠ EXTENSION_START ∧
      (parseAndAddNALUnit this dflt nalID (0 :: 0 :: 0 :: 1 :: b :: payload) parent
        nalStartEndPosFile nalTypeName).nalTypeName = nalTypeName) := by
  obtain ⟨n1, n2⟩ := interprete_not_decoded
    { nal_unit_mpeg2.ctor dflt.nal nalStartEndPosFile nalID with
      start_code_value := (b.val : Int) } b hB3 hB5
  constructor
  · obtain ⟨r1, r2⟩ := parseAndAddNALUnit_header_only this dflt nalID
      (0 :: 0 :: 1 :: b :: payload) parent nalStartEndPosFile nalTypeName 3 b
      (startCodeSkip_three b payload) rfl hB3 hB5
    exact ⟨_, r1, interprete_start_code_value _ _, n1, n2, r2⟩
  · obtain ⟨r1, r2⟩ := parseAndAddNALUnit_header_only this dflt nalID
      (0 :: 0 :: 0 :: 1 :: b :: payload) parent nalStartEndPosFile nalTypeName 4 b
      (startCodeSkip_four b payload) rfl hB3 hB5
    exact ⟨_, r1, interprete_start_code_value _ _, n1, n2, r2⟩

/-- Witness for C10: a group start unit (header byte 0xB8) with no payload at all, parsed
below a blank parent with a label to write to. -/
theorem header_only_units_witness :
    ∃ nal : nal_unit_mpeg2,
      (parseAndAddNALUnit ⟨none⟩ sampleDefaults 7 [0, 0, 1, 0xB8] (some TreeItem.blank)
        (0, 4) (some "")).result = .ok (ParsedUnit.header_only nal) ∧
      nal.start_code_value = ((0xB8 : Byte).val : Int) ∧
      nal.nal_unit_type ≠ SEQUENCE_HEADER ∧ nal.nal_unit_type ≠ EXTENSION_START ∧
      (parseAndAddNALUnit ⟨none⟩ sampleDefaults 7 [0, 0, 1, 0xB8] (some TreeItem.blank)
        (0, 4) (some "")).nalTypeName = some "" :=
  (header_only_units ⟨none⟩ sampleDefaults 7 0xB8 [] (some TreeItem.blank) (0, 4) (some "")
    (by decide) (by decide)).1


/-! ## The root node of a unit -/

theorem attach_some (t : TreeItem) (c : Option TreeItem) :
    ∃ t1, attach (some t) c = some t1 ∧ t1.itemData = t.itemData ∧
      t1.childItems = t.childItems ++ c.toList := by
  cases c with
  | none => exact ⟨t, rfl, rfl, by simp⟩
  | some n => exact ⟨t.addChild n, rfl, rfl, by simp [TreeItem.addChild, TreeItem.childItems]⟩

theorem parse_nal_unit_header_root (self : nal_unit_mpeg2) (header_byte : QByteArray)
    (t : TreeItem) :
    ∃ t1, (parse_nal_unit_header self header_byte (some t)).root = some t1 ∧
      t1.itemData = t.itemData := by
  unfold parse_nal_unit_header
  by_cases h : header_byte.length ≠ 1
  · simp only [if_pos h]
    exact ⟨t, rfl, rfl⟩
  · simp only [if_neg h]
    rcases e : sub_byte_reader.readBits ⟨header_byte, 0⟩ 8 with ⟨rd, res⟩
    cases res with
    | error err =>
      obtain ⟨t1, h1, h2, _⟩ := attach_some t
        (Option.map (fun _ => TreeItem.named "nal_unit_header()") (some t))
      exact ⟨t1, h1, h2⟩
    | ok v =>
      obtain ⟨t1, h1, h2, _⟩ := attach_some t
        (Option.map (fun u => u.addChild (TreeItem.field "start_code_value" v.1 "u(v) -> u(8)"
            v.2 (Meaning.text (interprete_start_code
              { self with start_code_value := (v.1 : Int) } (v.1 : Int)).2)))
          (Option.map (fun _ => TreeItem.named "nal_unit_header()") (some t)))
      exact ⟨t1, h1, h2⟩

theorem runDecoder_root {σ : Type} (name : QString) (data : QByteArray) (t : TreeItem)
    (self : σ) (body : P σ Unit) :
    ∃ t1, (runDecoder name data (some t) self body).root = some t1 ∧
      t1.itemData = t.itemData := by
  obtain ⟨t1, h1, h2, _⟩ := attach_some t
    (body ⟨⟨data, 0⟩, Option.map (fun _ => TreeItem.named name) (some t), self⟩).1.itemTree
  exact ⟨t1, h1, h2⟩

theorem interprete_start_code_idx (self : nal_unit_mpeg2) (v : Int) :
    (interprete_start_code self v).1.nal_idx = self.nal_idx := by
  unfold interprete_start_code
  simp only [apply_ite Prod.fst, apply_ite nal_unit_mpeg2.nal_idx, ite_self]

theorem parse_nal_unit_header_idx (self : nal_unit_mpeg2) (header_byte : QByteArray)
    (root : Option TreeItem) :
    (parse_nal_unit_header self header_byte root).self.nal_idx = self.nal_idx := by
  unfold parse_nal_unit_header
  by_cases h : header_byte.length ≠ 1
  · simp only [if_pos h]
  · simp only [if_neg h]
    rcases e : sub_byte_reader.readBits ⟨header_byte, 0⟩ 8 with ⟨rd, res⟩
    cases res with
    | error err => rfl
    | ok v => exact interprete_start_code_idx _ _

theorem type_name (t : nal_unit_type_enum) :
    nal_unit_type_toString.getD t.toIndex "" = t.identifier := by
  cases t <;> rfl

theorem appendData_blank (t : TreeItem) (s : QString) (h : t.itemData = []) :
    (t.appendData s).itemData = [s] := by
  cases t with
  | mk d v c1 c2 m cs =>
    simp only [TreeItem.itemData] at h
    simp [TreeItem.appendData, TreeItem.itemData, h]

theorem parse_sequence_header_root (self : sequence_header) (payload : QByteArray)
    (t : TreeItem) :
    ∃ t1, (parse_sequence_header self payload (some t)).root = some t1 ∧
      t1.itemData = t.itemData :=
  runDecoder_root _ _ _ _ _

theorem parse_sequence_extension_root (self : sequence_extension) (payload : QByteArray)
    (t : TreeItem) :
    ∃ t1, (parse_sequence_extension self payload (some t)).root = some t1 ∧
      t1.itemData = t.itemData :=
  runDecoder_root _ _ _ _ _

theorem root_name_on_success (this : NALUnitModel) (dflt : MemberDefaults) (nalID : Int)
    (data : QByteArray) (parent : Option TreeItem) (nalStartEndPosFile : Nat × Nat)
    (nalTypeName : Option QString)
    (htree : parent.isSome = true ∨ this.rootItem.isSome = true) (u : ParsedUnit)
    (hu : (parseAndAddNALUnit this dflt nalID data parent nalStartEndPosFile nalTypeName).result
      = .ok u) :
    ∃ t, (parseAndAddNALUnit this dflt nalID data parent nalStartEndPosFile
        nalTypeName).nalRoot = some t ∧
      t.itemData = [u.rootName nalID] := by
  have hr : (if parent.isSome = true then some TreeItem.blank
      else if this.rootItem.isSome = true then some TreeItem.blank else none)
      = some TreeItem.blank := by
    rcases htree with h | h <;> simp [h]
  have hb : TreeItem.blank.itemData = [] := rfl
  unfold parseAndAddNALUnit at hu ⊢
  cases hs : startCodeSkip data with
  | error e => rw [hs] at hu; simp at hu
  | ok skip =>
    rw [hs] at hu
    revert hu
    simp only [hr]
    obtain ⟨t1, ht1, hd1⟩ := parse_nal_unit_header_root
      (nal_unit_mpeg2.ctor dflt.nal nalStartEndPosFile nalID) (QByteArray_mid data skip 1)
      TreeItem.blank
    have hn : (parse_nal_unit_header (nal_unit_mpeg2.ctor dflt.nal nalStartEndPosFile nalID)
        (QByteArray_mid data skip 1) (some TreeItem.blank)).self.nal_idx = nalID :=
      parse_nal_unit_header_idx _ _ _
    generalize parse_nal_unit_header (nal_unit_mpeg2.ctor dflt.nal nalStartEndPosFile nalID)
      (QByteArray_mid data skip 1) (some TreeItem.blank) = hd at ht1 hn ⊢
    rw [ht1]
    cases hres : hd.result with
    | error e => intro hu; simp [finishUnit_result] at hu
    | ok u1 =>
      simp only []
      by_cases c1 : hd.self.nal_unit_type = SEQUENCE_HEADER
      · simp only [if_pos c1]
        obtain ⟨t2, ht2, hd2⟩ := parse_sequence_header_root
          (sequence_header.ctor hd.self dflt.header) (QByteArray_midFrom data (skip + 1)) t1
        rw [ht2]
        cases hp : (parse_sequence_header (sequence_header.ctor hd.self dflt.header)
            (QByteArray_midFrom data (skip + 1)) (some t1)).result with
        | error e => intro hu; simp [finishUnit_result] at hu
        | ok u2 =>
          intro hu
          simp only [finishUnit_result, Except.ok.injEq] at hu ⊢
          subst hu
          refine ⟨_, rfl, ?_⟩
          rw [appendData_blank _ _ (by rw [hd2, hd1, hb])]
          simp only [unitName, c1, hn, type_name, ParsedUnit.rootName]
      · simp only [if_neg c1]
        by_cases c2 : hd.self.nal_unit_type = EXTENSION_START
        · simp only [if_pos c2]
          obtain ⟨t3, ht3, hd3⟩ := parse_sequence_extension_root
            (sequence_extension.ctor hd.self dflt.extension) (QByteArray_midFrom data (skip + 1))
            t1
          rw [ht3]
          cases hp : (parse_sequence_extension (sequence_extension.ctor hd.self dflt.extension)
              (QByteArray_midFrom data (skip + 1)) (some t1)).result with
          | error e => intro hu; simp [finishUnit_result] at hu
          | ok u2 =>
            intro hu
            simp only [finishUnit_result, Except.ok.injEq] at hu ⊢
            subst hu
            refine ⟨_, rfl, ?_⟩
            rw [appendData_blank _ _ (by rw [hd3, hd1, hb])]
            simp only [unitName, c2, hn, type_name, ParsedUnit.rootName]
        · simp only [if_neg c2]
          intro hu
          simp only [finishUnit_result, Except.ok.injEq] at hu ⊢
          subst hu
          refine ⟨_, rfl, ?_⟩
          rw [appendData_blank _ _ (by rw [hd1, hb])]
          simp only [unitName, hn, type_name, ParsedUnit.rootName]


theorem rootName_forms (nalID : Int) :
    (∀ h, (ParsedUnit.with_sequence_header h).rootName nalID
      = "NAL " ++ toString nalID ++ ": SEQUENCE_HEADER Sequence Header") ∧
    (∀ e, (ParsedUnit.with_sequence_extension e).rootName nalID
      = "NAL " ++ toString nalID ++ ": EXTENSION_START Sequence Extension") ∧
    (∀ nal, (ParsedUnit.header_only nal).rootName nalID
      = "NAL " ++ toString nalID ++ ": " ++ nal.nal_unit_type.identifier) := by
  refine ⟨fun h => ?_, fun e => ?_, fun nal => ?_⟩
  · simp only [ParsedUnit.rootName, nal_unit_type_enum.identifier, String.append_assoc]
    rfl
  · simp only [ParsedUnit.rootName, nal_unit_type_enum.identifier, String.append_assoc]
    rfl
  · simp only [ParsedUnit.rootName, String.append_empty]

/-- C11 (as amended): for every unit that is parsed without an exception while a tree is
built (the caller passes a parent or the parser has a root item), the root node of the unit
gets exactly one display string, `"NAL <index>: <typeName><specificDescription>"`, where
`<index>` is the index passed in, `<typeName>` the entry of `nal_unit_type_toString` for the
classified type (the identifier of the enumerator) and `<specificDescription>` is
" Sequence Header", " Sequence Extension" or empty when no payload decoder ran. -/
theorem unit_root_name (this : NALUnitModel) (dflt : MemberDefaults) (nalID : Int)
    (data : QByteArray) (parent : Option TreeItem) (nalStartEndPosFile : Nat × Nat)
    (nalTypeName : Option QString)
    (htree : parent.isSome = true ∨ this.rootItem.isSome = true) :
    (∀ h, (parseAndAddNALUnit this dflt nalID data parent nalStartEndPosFile nalTypeName).result
        = .ok (ParsedUnit.with_sequence_header h) →
      ∃ t, (parseAndAddNALUnit this dflt nalID data parent nalStartEndPosFile
          nalTypeName).nalRoot = some t ∧
        t.itemData = ["NAL " ++ toString nalID ++ ": SEQUENCE_HEADER Sequence Header"]) ∧
    (∀ e, (parseAndAddNALUnit this dflt nalID data parent nalStartEndPosFile nalTypeName).result
        = .ok (ParsedUnit.with_sequence_extension e) →
      ∃ t, (parseAndAddNALUnit this dflt nalID data parent nalStartEndPosFile
          nalTypeName).nalRoot = some t ∧
        t.itemData = ["NAL " ++ toString nalID ++ ": EXTENSION_START Sequence Extension"]) ∧
    (∀ nal, (parseAndAddNALUnit this dflt nalID data parent nalStartEndPosFile
          nalTypeName).result = .ok (ParsedUnit.header_only nal) →
      ∃ t, (parseAndAddNALUnit this dflt nalID data parent nalStartEndPosFile
          nalTypeName).nalRoot = some t ∧
        t.itemData = ["NAL " ++ toString nalID ++ ": " ++ nal.nal_unit_type.identifier]) ∧
    (∀ t : nal_unit_type_enum, nal_unit_type_toString.getD t.toIndex "" = t.identifier) := by
  obtain ⟨f1, f2, f3⟩ := rootName_forms nalID
  refine ⟨fun h hu => ?_, fun e hu => ?_, fun nal hu => ?_, type_name⟩
  · obtain ⟨t, h1, h2⟩ := root_name_on_success this dflt nalID data parent nalStartEndPosFile
      nalTypeName htree _ hu
    exact ⟨t, h1, by rw [h2, f1]⟩
  · obtain ⟨t, h1, h2⟩ := root_name_on_success this dflt nalID data parent nalStartEndPosFile
      nalTypeName htree _ hu
    exact ⟨t, h1, by rw [h2, f2]⟩
  · obtain ⟨t, h1, h2⟩ := root_name_on_success this dflt nalID data parent nalStartEndPosFile
      nalTypeName htree _ hu
    exact ⟨t, h1, by rw [h2, f3]⟩

/-- Witness for C11: a group start unit with index 7, parsed below a blank parent. -/
theorem unit_root_name_witness :
    ∃ t, (parseAndAddNALUnit ⟨none⟩ sampleDefaults 7 sampleGroupStartUnit (some TreeItem.blank)
        (0, 4) none).nalRoot = some t ∧
      t.itemData = ["NAL " ++ toString (7 : Int) ++ ": " ++ GROUP_START.identifier] :=
  (unit_root_name ⟨none⟩ sampleDefaults 7 sampleGroupStartUnit (some TreeItem.blank) (0, 4) none
    (Or.inl rfl)).2.2.1
    { sampleNal with
      filePosStartEnd := (0, 4), nal_idx := 7, nal_unit_type := GROUP_START
      start_code_value := 0xB8 } (by rfl)

/-- Counterexample to C11 as stated: the group start unit with index 7 is parsed without an
exception and its root node is named "NAL 7: GROUP_START", not "Unit 7: GROUP_START". -/
theorem unit_root_name_counterexample :
    (parseAndAddNALUnit ⟨none⟩ sampleDefaults 7 sampleGroupStartUnit (some TreeItem.blank)
      (0, 4) none).result
      = .ok (ParsedUnit.header_only
          { sampleNal with
            filePosStartEnd := (0, 4), nal_idx := 7, nal_unit_type := GROUP_START
            start_code_value := 0xB8 }) ∧
    (parseAndAddNALUnit ⟨none⟩ sampleDefaults 7 sampleGroupStartUnit (some TreeItem.blank)
      (0, 4) none).nalRoot.map TreeItem.itemData = some ["NAL 7: GROUP_START"] ∧
    (parseAndAddNALUnit ⟨none⟩ sampleDefaults 7 sampleGroupStartUnit (some TreeItem.blank)
      (0, 4) none).nalRoot.map TreeItem.itemData ≠ some ["Unit 7: GROUP_START"] :=
  ⟨by rfl, by decide, by decide⟩

/-! ## Units that end right after the start code -/

theorem parseAndAddNALUnit_no_header (this : NALUnitModel) (dflt : MemberDefaults)
    (nalID : Int) (data : QByteArray) (parent : Option TreeItem)
    (nalStartEndPosFile : Nat × Nat) (nalTypeName : Option QString) (skip : Nat)
    (hs : startCodeSkip data = .ok skip) (hh : QByteArray_mid data skip 1 = []) :
    (parseAndAddNALUnit this dflt nalID data parent nalStartEndPosFile nalTypeName).result =
      .error (ParseError.logic_error headerLengthMessage) ∧
    (parseAndAddNALUnit this dflt nalID data parent nalStartEndPosFile nalTypeName).nalTypeName =
      nalTypeName ∧
    (parseAndAddNALUnit this dflt nalID data parent nalStartEndPosFile nalTypeName).nalRoot =
      (if parent.isSome = true then some TreeItem.blank
        else if this.rootItem.isSome = true then some TreeItem.blank else none) := by
  unfold parseAndAddNALUnit
  rw [hs]
  simp only [hh]
  rw [parse_nal_unit_header_length _ [] _ (by decide)]
  simp only [finishUnit_result, and_self]

theorem parse_sequence_header_empty (self : sequence_header) (root : Option TreeItem) :
    (parse_sequence_header self [] root).result = .error ParseError.BufferOverrun := by
  rw [parse_sequence_header_result]
  rfl

theorem parse_sequence_extension_empty (self : sequence_extension) (root : Option TreeItem) :
    (parse_sequence_extension self [] root).result = .error ParseError.BufferOverrun := by
  rw [parse_sequence_extension_result]
  rfl

theorem parseAndAddNALUnit_header_byte (this : NALUnitModel) (dflt : MemberDefaults)
    (nalID : Int) (data : QByteArray) (parent : Option TreeItem)
    (nalStartEndPosFile : Nat × Nat) (nalTypeName : Option QString) (skip : Nat) (b : Byte)
    (hs : startCodeSkip data = .ok skip) (hh : QByteArray_mid data skip 1 = [b]) :
    (parseAndAddNALUnit this dflt nalID data parent nalStartEndPosFile nalTypeName).result =
      (if b.val = 0xB3 then
        (match (parse_sequence_header (sequence_header.ctor (interprete_start_code
            { nal_unit_mpeg2.ctor dflt.nal nalStartEndPosFile nalID with
              start_code_value := (b.val : Int) } (b.val : Int)).1 dflt.header)
            (QByteArray_midFrom data (skip + 1)) none).result with
          | .error e => .error e
          | .ok _ => .ok (ParsedUnit.with_sequence_header
              (parse_sequence_header (sequence_header.ctor (interprete_start_code
                { nal_unit_mpeg2.ctor dflt.nal nalStartEndPosFile nalID with
                  start_code_value := (b.val : Int) } (b.val : Int)).1 dflt.header)
                (QByteArray_midFrom data (skip + 1)) none).self))
      else if b.val = 0xB5 then
        (match (parse_sequence_extension (sequence_extension.ctor (interprete_start_code
            { nal_unit_mpeg2.ctor dflt.nal nalStartEndPosFile nalID with
              start_code_value := (b.val : Int) } (b.val : Int)).1 dflt.extension)
            (QByteArray_midFrom data (skip + 1)) none).result with
          | .error e => .error e
          | .ok _ => .ok (ParsedUnit.with_sequence_extension
              (parse_sequence_extension (sequence_extension.ctor (interprete_start_code
                { nal_unit_mpeg2.ctor dflt.nal nalStartEndPosFile nalID with
                  start_code_value := (b.val : Int) } (b.val : Int)).1 dflt.extension)
                (QByteArray_midFrom data (skip + 1)) none).self))
      else .ok (ParsedUnit.header_only (interprete_start_code
        { nal_unit_mpeg2.ctor dflt.nal nalStartEndPosFile nalID with
          start_code_value := (b.val : Int) } (b.val : Int)).1)) := by
  obtain ⟨a1, _⟩ := parseAndAddNALUnit_treeless this dflt nalID data parent
    nalStartEndPosFile nalTypeName
  rw [a1]
  have hb := b.isLt
  have hty := interprete_start_code_type
    { nal_unit_mpeg2.ctor dflt.nal nalStartEndPosFile nalID with
      start_code_value := (b.val : Int) } (b.val : Int) (by omega) (by omega)
  by_cases h3 : b.val = 0xB3
  · have hT : (interprete_start_code
        { nal_unit_mpeg2.ctor dflt.nal nalStartEndPosFile nalID with
          start_code_value := (b.val : Int) } (b.val : Int)).1.nal_unit_type = SEQUENCE_HEADER := by
      rw [hty, h3]; rfl
    unfold parseAndAddNALUnit
    rw [hs]
    simp only [hh]
    obtain ⟨h1, h2, hroot⟩ := parse_nal_unit_header_one
      (nal_unit_mpeg2.ctor dflt.nal nalStartEndPosFile nalID) b
      (if (none : Option TreeItem).isSome = true then some TreeItem.blank
        else if (NALUnitModel.mk none).rootItem.isSome = true then some TreeItem.blank else none)
    rw [h1]
    simp only [h2, if_pos hT, if_pos h3, hroot]
    have hnone : attach (if (none : Option TreeItem).isSome = true then some TreeItem.blank
        else if (NALUnitModel.mk none).rootItem.isSome = true then some TreeItem.blank else none)
        (Option.map (fun _ => (TreeItem.named "nal_unit_header()").addChild
          (TreeItem.field "start_code_value" b.val "u(v) -> u(8)"
            (String.mk (bitsChars [b] 0 8)) (Meaning.text (interprete_start_code
              { nal_unit_mpeg2.ctor dflt.nal nalStartEndPosFile nalID with
                start_code_value := (b.val : Int) } (b.val : Int)).2)))
          (if (none : Option TreeItem).isSome = true then some TreeItem.blank
            else if (NALUnitModel.mk none).rootItem.isSome = true then some TreeItem.blank
            else none)) = none := rfl
    rw [hnone]
    cases (parse_sequence_header (sequence_header.ctor (interprete_start_code
        { nal_unit_mpeg2.ctor dflt.nal nalStartEndPosFile nalID with
          start_code_value := (b.val : Int) } (b.val : Int)).1 dflt.header)
        (QByteArray_midFrom data (skip + 1)) none).result with
    | error e => simp only [finishUnit_result]
    | ok u => simp only [finishUnit_result]
  by_cases h5 : b.val = 0xB5
  · have hT : (interprete_start_code
        { nal_unit_mpeg2.ctor dflt.nal nalStartEndPosFile nalID with
          start_code_value := (b.val : Int) } (b.val : Int)).1.nal_unit_type = EXTENSION_START := by
      rw [hty, h5]; rfl
    have hN : ¬ (interprete_start_code
        { nal_unit_mpeg2.ctor dflt.nal nalStartEndPosFile nalID with
          start_code_value := (b.val : Int) } (b.val : Int)).1.nal_unit_type = SEQUENCE_HEADER := by
      rw [hT]; decide
    unfold parseAndAddNALUnit
    rw [hs]
    simp only [hh]
    obtain ⟨h1, h2, hroot⟩ := parse_nal_unit_header_one
      (nal_unit_mpeg2.ctor dflt.nal nalStartEndPosFile nalID) b
      (if (none : Option TreeItem).isSome = true then some TreeItem.blank
        else if (NALUnitModel.mk none).rootItem.isSome = true then some TreeItem.blank else none)
    rw [h1]
    simp only [h2, if_neg hN, if_pos hT, if_neg h3, if_pos h5, hroot]
    have hnone : attach (if (none : Option TreeItem).isSome = true then some TreeItem.blank
        else if (NALUnitModel.mk none).rootItem.isSome = true then some TreeItem.blank else none)
        (Option.map (fun _ => (TreeItem.named "nal_unit_header()").addChild
          (TreeItem.field "start_code_value" b.val "u(v) -> u(8)"
            (String.mk (bitsChars [b] 0 8)) (Meaning.text (interprete_start_code
              { nal_unit_mpeg2.ctor dflt.nal nalStartEndPosFile nalID with
                start_code_value := (b.val : Int) } (b.val : Int)).2)))
          (if (none : Option TreeItem).isSome = true then some TreeItem.blank
            else if (NALUnitModel.mk none).rootItem.isSome = true then some TreeItem.blank
            else none)) = none := rfl
    rw [hnone]
    cases (parse_sequence_extension (sequence_extension.ctor (interprete_start_code
        { nal_unit_mpeg2.ctor dflt.nal nalStartEndPosFile nalID with
          start_code_value := (b.val : Int) } (b.val : Int)).1 dflt.extension)
        (QByteArray_midFrom data (skip + 1)) none).result with
    | error e => simp only [finishUnit_result]
    | ok u => simp only [finishUnit_result]
  · rw [if_neg h3, if_neg h5]
    exact (parseAndAddNALUnit_header_only ⟨none⟩ dflt nalID data none nalStartEndPosFile
      nalTypeName skip b hs hh h3 h5).1


theorem parseAndAddNALUnit_label_on_error (this : NALUnitModel) (dflt : MemberDefaults)
    (nalID : Int) (data : QByteArray) (parent : Option TreeItem)
    (nalStartEndPosFile : Nat × Nat) (nalTypeName : Option QString) (e : ParseError)
    (he : (parseAndAddNALUnit this dflt nalID data parent nalStartEndPosFile nalTypeName).result
      = .error e) :
    (parseAndAddNALUnit this dflt nalID data parent nalStartEndPosFile nalTypeName).nalTypeName
      = nalTypeName := by
  unfold parseAndAddNALUnit at he ⊢
  cases hs : startCodeSkip data with
  | error e1 => rfl
  | ok skip =>
    rw [hs] at he
    revert he
    simp only []
    generalize parse_nal_unit_header (nal_unit_mpeg2.ctor dflt.nal nalStartEndPosFile nalID)
      (QByteArray_mid data skip 1) _ = hd
    cases hd.result with
    | error e1 => intro _; simp only [finishUnit_result]
    | ok u =>
      simp only []
      split_ifs with c1 c2
      · cases (parse_sequence_header (sequence_header.ctor hd.self dflt.header)
            (QByteArray_midFrom data (skip + 1)) hd.root).result with
        | error e1 => intro _; simp only [finishUnit_result]
        | ok u2 => intro he; simp [finishUnit_result] at he
      · cases (parse_sequence_extension (sequence_extension.ctor hd.self dflt.extension)
            (QByteArray_midFrom data (skip + 1)) hd.root).result with
        | error e1 => intro _; simp only [finishUnit_result]
        | ok u2 => intro he; simp [finishUnit_result] at he
      · intro he; simp [finishUnit_result] at he

/-- C12 (as amended): a unit in which no byte remains after the start code (the data is
exactly 00 00 01 or 00 00 00 01) is reported as a failure, the `logic_error` of the header
length check, without an index outside the data being read and without a header being
decoded: the root node of the unit stays without children. A unit in which exactly one
byte remains is not a failure of its own: the byte is decoded as the unit header; the
parse completes with the header alone unless the byte is 0xB3 or 0xB5, in which case the
payload decoder runs on an empty payload and the reader reports `BufferOverrun`. -/
theorem truncated_unit (this : NALUnitModel) (dflt : MemberDefaults) (nalID : Int)
    (parent : Option TreeItem) (nalStartEndPosFile : Nat × Nat)
    (nalTypeName : Option QString) (b : Byte) :
    (parseAndAddNALUnit this dflt nalID [0, 0, 1] parent nalStartEndPosFile nalTypeName).result
      = .error (ParseError.logic_error headerLengthMessage) ∧
    (parseAndAddNALUnit this dflt nalID [0, 0, 0, 1] parent nalStartEndPosFile
      nalTypeName).result = .error (ParseError.logic_error headerLengthMessage) ∧
    (∀ t, (parseAndAddNALUnit this dflt nalID [0, 0, 1] parent nalStartEndPosFile
      nalTypeName).nalRoot = some t → t = TreeItem.blank) ∧
    (∀ t, (parseAndAddNALUnit this dflt nalID [0, 0, 0, 1] parent nalStartEndPosFile
      nalTypeName).nalRoot = some t → t = TreeItem.blank) ∧
    (b.val ≠ 0xB3 → b.val ≠ 0xB5 →
      (∃ nal, (parseAndAddNALUnit this dflt nalID [0, 0, 1, b] parent nalStartEndPosFile
          nalTypeName).result = .ok (ParsedUnit.header_only nal) ∧
        nal.start_code_value = (b.val : Int)) ∧
      (∃ nal, (parseAndAddNALUnit this dflt nalID [0, 0, 0, 1, b] parent nalStartEndPosFile
          nalTypeName).result = .ok (ParsedUnit.header_only nal) ∧
        nal.start_code_value = (b.val : Int))) ∧
    (b.val = 0xB3 ∨ b.val = 0xB5 →
      (parseAndAddNALUnit this dflt nalID [0, 0, 1, b] parent nalStartEndPosFile
        nalTypeName).result = .error ParseError.BufferOverrun ∧
      (parseAndAddNALUnit this dflt nalID [0, 0, 0, 1, b] parent nalStartEndPosFile
        nalTypeName).result = .error ParseError.BufferOverrun) := by
  have n3 := parseAndAddNALUnit_no_header this dflt nalID [0, 0, 1] parent nalStartEndPosFile
    nalTypeName 3 rfl rfl
  have n4 := parseAndAddNALUnit_no_header this dflt nalID [0, 0, 0, 1] parent
    nalStartEndPosFile nalTypeName 4 rfl rfl
  have b3 := parseAndAddNALUnit_header_byte this dflt nalID [0, 0, 1, b] parent
    nalStartEndPosFile nalTypeName 3 b (startCodeSkip_three b []) rfl
  have b4 := parseAndAddNALUnit_header_byte this dflt nalID [0, 0, 0, 1, b] parent
    nalStartEndPosFile nalTypeName 4 b (startCodeSkip_four b []) rfl
  refine ⟨n3.1, n4.1, ?_, ?_, ?_, ?_⟩
  · intro t ht
    rw [n3.2.2] at ht
    split_ifs at ht <;> simp_all
  · intro t ht
    rw [n4.2.2] at ht
    split_ifs at ht <;> simp_all
  · intro h3 h5
    rw [if_neg h3, if_neg h5] at b3 b4
    exact ⟨⟨_, b3, interprete_start_code_value _ _⟩, ⟨_, b4, interprete_start_code_value _ _⟩⟩
  · intro h
    rcases h with h | h
    · rw [if_pos h] at b3 b4
      simp only [QByteArray_midFrom, List.drop, parse_sequence_header_empty] at b3 b4
      exact ⟨b3, b4⟩
    · have h3 : ¬ b.val = 0xB3 := by omega
      rw [if_neg h3, if_pos h] at b3 b4
      simp only [QByteArray_midFrom, List.drop, parse_sequence_extension_empty] at b3 b4
      exact ⟨b3, b4⟩

/-- Witness for C12: the header byte 0x00 (a picture unit) with nothing after it. -/
theorem truncated_unit_witness :
    (∃ nal, (parseAndAddNALUnit ⟨none⟩ sampleDefaults 3 [0, 0, 1, 0x00] none (0, 4)
        none).result = .ok (ParsedUnit.header_only nal) ∧
      nal.start_code_value = ((0x00 : Byte).val : Int)) ∧
    (∃ nal, (parseAndAddNALUnit ⟨none⟩ sampleDefaults 3 [0, 0, 0, 1, 0x00] none (0, 4)
        none).result = .ok (ParsedUnit.header_only nal) ∧
      nal.start_code_value = ((0x00 : Byte).val : Int)) :=
  (truncated_unit ⟨none⟩ sampleDefaults 3 none (0, 4) none 0x00).2.2.2.2.1 (by decide)
    (by decide)

/-- Counterexample to C12 as stated: in the picture unit 00 00 00 01 00 one byte remains
after the start code, yet the parse completes and the header is decoded (a picture). -/
theorem truncated_unit_counterexample :
    (samplePictureUnit.drop 4).length = 1 ∧
    (parseAndAddNALUnit ⟨none⟩ sampleDefaults 3 samplePictureUnit (some TreeItem.blank) (0, 5)
      none).result
      = .ok (ParsedUnit.header_only
          { sampleNal with
            filePosStartEnd := (0, 5), nal_idx := 3, nal_unit_type := PICTURE
            start_code_value := 0x00 }) :=
  ⟨by decide, by rfl⟩

/-! ## Raw bit strings -/

theorem bitsChars_append (bytes : QByteArray) (pos m n : Nat) :
    bitsChars bytes pos m ++ bitsChars bytes (pos + m) n = bitsChars bytes pos (m + n) := by
  unfold bitsChars
  rw [List.range_add, List.map_append, List.map_map]
  congr 1
  apply List.map_congr_left
  intro j _
  simp [Nat.add_assoc]

theorem flagCode_data (bytes : QByteArray) (pos : Nat) :
    (flagCode (bitsValue bytes pos 1 != 0)).data = bitsChars bytes pos 1 := by
  have h := bitAt_lt_two bytes pos
  have h2 : bitAt bytes pos = 0 ∨ bitAt bytes pos = 1 := by omega
  rw [bitsValue_one]
  rcases h2 with h2 | h2 <;> simp [h2, flagCode, bitsChars, List.range_succ]

theorem rawBits_nil : rawBits [] = [] := rfl

theorem rawBits_cons (n : TreeItem) (l : List TreeItem) :
    rawBits (n :: l) = n.code.data ++ rawBits l := by
  simp [rawBits]

theorem rawBits_append (l1 l2 : List TreeItem) : rawBits (l1 ++ l2) = rawBits l1 ++ rawBits l2 := by
  simp [rawBits]

theorem bitNode_data (into : QString) (bytes : QByteArray) (pos n : Nat) (m : Meaning) :
    (bitNode into bytes pos n m).code.data = bitsChars bytes pos n := rfl

theorem flagNode_data (into : QString) (bytes : QByteArray) (pos : Nat) (m : Meaning) :
    (flagNode into bytes pos m).code.data = bitsChars bytes pos 1 :=
  flagCode_data bytes pos

theorem rawBits_matrixNodes (into : QString) (bytes : QByteArray) (count : Nat) :
    ∀ pos, rawBits (matrixNodes into bytes pos count) = bitsChars bytes pos (8 * count) := by
  induction count with
  | zero => intro pos; rfl
  | succ count ih =>
    intro pos
    have e : 8 * (count + 1) = 8 + 8 * count := by omega
    rw [matrixNodes, rawBits_cons, ih, bitNode_data, bitsChars_append, e]

theorem rawBits_extension (bytes : QByteArray) :
    rawBits (extensionNodesBeforeMarker bytes ++ extensionNodesAfterMarker bytes)
      = bitsChars bytes 0 48 := by
  simp only [extensionNodesBeforeMarker, extensionNodesAfterMarker, List.cons_append,
    List.nil_append, rawBits_cons, rawBits_nil, bitNode_data, flagNode_data, List.append_nil]
  have a := bitsChars_append bytes
  rw [a 41 2 5, a 40 1 7, a 32 8 8, a 31 1 16, a 19 12 17, a 17 2 29, a 15 2 31,
    a 13 2 33, a 12 1 35, a 4 8 36, a 0 4 44]


theorem rawBits_headerNodesBeforeMarker (bytes : QByteArray) :
    rawBits (headerNodesBeforeMarker bytes) = bitsChars bytes 0 51 := by
  simp only [headerNodesBeforeMarker, rawBits_cons, rawBits_nil, bitNode_data, flagNode_data,
    List.append_nil]
  have a := bitsChars_append bytes
  rw [a 32 18 1, a 28 4 19, a 24 4 23, a 12 12 27, a 0 12 39]

theorem rawBits_headerNodesFlags (bytes : QByteArray) :
    rawBits (headerNodesFlags bytes) = bitsChars bytes 51 12 := by
  simp only [headerNodesFlags, rawBits_cons, rawBits_nil, bitNode_data, flagNode_data,
    List.append_nil]
  have a := bitsChars_append bytes
  rw [a 61 1 1, a 51 10 2]

theorem rawBits_headerNodes (bytes : QByteArray) :
    rawBits (headerNodes bytes) = bitsChars bytes 0 (headerBits bytes) := by
  have a := bitsChars_append bytes
  unfold headerNodes headerBits
  rw [rawBits_append, rawBits_append, rawBits_append, rawBits_append, rawBits_matrixNodes,
    rawBits_matrixNodes, rawBits_headerNodesBeforeMarker, rawBits_headerNodesFlags,
    rawBits_cons, rawBits_nil, flagNode_data, List.append_nil, a 0 51 12]
  have e : nonIntraFlagPos bytes = 63 + 8 * intraCount bytes := rfl
  have a0 : ∀ m n : Nat, bitsChars bytes 0 m ++ bitsChars bytes m n = bitsChars bytes 0 (m + n) := by
    intro m n
    have h := a 0 m n
    rwa [Nat.zero_add] at h
  rw [show (51 + 12 : Nat) = 63 from rfl, a0 63 (8 * intraCount bytes), ← e,
    a0 (nonIntraFlagPos bytes) 1, a0 (nonIntraFlagPos bytes + 1)]

theorem foldl_append_data (l : List String) :
    ∀ acc : String, (l.foldl (fun r s => r ++ s) acc).data
      = acc.data ++ (l.map String.data).flatten := by
  induction l with
  | nil => intro acc; simp
  | cons s l ih => intro acc; simp [ih, String.data_append, List.append_assoc]

theorem join_codes (nodes : List TreeItem) :
    String.join (nodes.map TreeItem.code) = String.mk (rawBits nodes) := by
  apply String.ext
  simp only [String.join, foldl_append_data, rawBits, List.map_map]
  rfl

/-- C13: raw-bit round trip through the decoders. For every sequence extension that decodes
below a tree node, the raw bit strings of the children of "sequence_extension()",
concatenated in order, are exactly the first 48 bits of the payload, most significant bit
first (the strings of the flag nodes, rebuilt as "1" or "0" from the flag, included). For
every sequence header that decodes, the concatenation over the children of
"sequence_header()" is exactly the bits of the payload up to the position the reader has
reached, that is, the bits the decode consumed. -/
theorem raw_bits_round_trip (eself : sequence_extension) (epayload : QByteArray)
    (hself : sequence_header) (hpayload : QByteArray) (r : TreeItem) :
    ((parse_sequence_extension eself epayload (some r)).result = .ok () →
      ∃ node : TreeItem,
        (parse_sequence_extension eself epayload (some r)).root = some (r.addChild node) ∧
        node.name = some "sequence_extension()" ∧
        String.join (node.childItems.map TreeItem.code) = String.mk (bitsChars epayload 0 48) ∧
        (parse_sequence_extension eself epayload (some r)).reader.pos = 48) ∧
    ((parse_sequence_header hself hpayload (some r)).result = .ok () →
      ∃ node : TreeItem,
        (parse_sequence_header hself hpayload (some r)).root = some (r.addChild node) ∧
        node.name = some "sequence_header()" ∧
        String.join (node.childItems.map TreeItem.code)
          = String.mk (bitsChars hpayload 0
              (parse_sequence_header hself hpayload (some r)).reader.pos)) ∧
    (∀ (bytes : QByteArray) (n i : Nat), i < n →
      (bitsChars bytes 0 n)[i]? = some (if bitAt bytes i = 1 then '1' else '0')) := by
  refine ⟨fun hok => ?_, fun hok => ?_, fun bytes n i hi => ?_⟩
  · obtain ⟨hm, hb⟩ := parse_sequence_extension_success eself epayload (some r) hok
    rw [parse_sequence_extension_ok eself epayload (some r) hb hm]
    refine ⟨_, rfl, ?_, ?_, rfl⟩
    · rw [addChildren_name]; rfl
    · rw [join_codes, addChildren_childItems]
      have e : (TreeItem.named "sequence_extension()").childItems = [] := rfl
      rw [e, List.nil_append, rawBits_extension]
  · obtain ⟨hm, hb⟩ := parse_sequence_header_success hself hpayload (some r) hok
    rw [parse_sequence_header_ok hself hpayload (some r) hm hb]
    refine ⟨_, rfl, ?_, ?_⟩
    · rw [addChildren_name]; rfl
    · rw [join_codes, addChildren_childItems]
      have e : (TreeItem.named "sequence_header()").childItems = [] := rfl
      rw [e, List.nil_append, rawBits_headerNodes]
  · simp [bitsChars, hi]

/-- Witness for C13: the sample extension and the sample header, decoded below a blank node. -/
theorem raw_bits_round_trip_witness :
    (∃ node : TreeItem,
        (parse_sequence_extension sampleExtension sampleExtensionPayload
          (some TreeItem.blank)).root = some (TreeItem.blank.addChild node) ∧
        node.name = some "sequence_extension()" ∧
        String.join (node.childItems.map TreeItem.code)
          = String.mk (bitsChars sampleExtensionPayload 0 48) ∧
        (parse_sequence_extension sampleExtension sampleExtensionPayload
          (some TreeItem.blank)).reader.pos = 48) ∧
    (∃ node : TreeItem,
        (parse_sequence_header sampleHeader sampleHeaderPayload (some TreeItem.blank)).root
          = some (TreeItem.blank.addChild node) ∧
        node.name = some "sequence_header()" ∧
        String.join (node.childItems.map TreeItem.code)
          = String.mk (bitsChars sampleHeaderPayload 0
              (parse_sequence_header sampleHeader sampleHeaderPayload
                (some TreeItem.blank)).reader.pos)) :=
  ⟨(raw_bits_round_trip sampleExtension sampleExtensionPayload sampleHeader sampleHeaderPayload
      TreeItem.blank).1 (by rfl),
   (raw_bits_round_trip sampleExtension sampleExtensionPayload sampleHeader sampleHeaderPayload
      TreeItem.blank).2.1 (by rfl)⟩

/-! ## What a marker failure reports -/

/-- C14 (as amended): whenever a decoder fails because a marker bit is 0, the failure it
reports is the `logic_error` with the fixed message "The marker_bit shall be set to 1 to
prevent emulation of start codes.": it names the violated field, `marker_bit`, and carries
no bit offset. The sequence header (marker read at bit 50) and the sequence extension
(marker read at bit 31) report the very same failure; the offset shows only in the reader,
which stands right after the marker bit (bit 51 and bit 32). -/
theorem marker_failure_report (hself : sequence_header) (eself : sequence_extension)
    (hpayload epayload : QByteArray) (hroot eroot : Option TreeItem)
    (hlen : 7 ≤ hpayload.length) (hbit : bitAt hpayload 50 = 0)
    (elen : 4 ≤ epayload.length) (ebit : bitAt epayload 31 = 0) :
    (parse_sequence_header hself hpayload hroot).result
      = .error (ParseError.logic_error
          "The marker_bit shall be set to 1 to prevent emulation of start codes.") ∧
    (parse_sequence_extension eself epayload eroot).result
      = .error (ParseError.logic_error
          "The marker_bit shall be set to 1 to prevent emulation of start codes.") ∧
    (parse_sequence_header hself hpayload hroot).result
      = (parse_sequence_extension eself epayload eroot).result ∧
    (parse_sequence_header hself hpayload hroot).reader.pos = 51 ∧
    (parse_sequence_extension eself epayload eroot).reader.pos = 32 := by
  have hm : bitsValue hpayload 50 1 = 0 := by rw [bitsValue_one]; exact hbit
  have em : bitsValue epayload 31 1 = 0 := by rw [bitsValue_one]; exact ebit
  rw [parse_sequence_header_marker hself hpayload hroot (by omega) hm,
    parse_sequence_extension_marker eself epayload eroot (by omega) em]
  exact ⟨rfl, rfl, rfl, rfl, rfl⟩

/-- Witness for C14: the sample header and the sample extension with the marker bit cleared. -/
theorem marker_failure_report_witness :
    (parse_sequence_header sampleHeader sampleHeaderPayloadNoMarker none).result
      = .error (ParseError.logic_error
          "The marker_bit shall be set to 1 to prevent emulation of start codes.") ∧
    (parse_sequence_extension sampleExtension sampleExtensionPayloadNoMarker none).result
      = .error (ParseError.logic_error
          "The marker_bit shall be set to 1 to prevent emulation of start codes.") ∧
    (parse_sequence_header sampleHeader sampleHeaderPayloadNoMarker none).result
      = (parse_sequence_extension sampleExtension sampleExtensionPayloadNoMarker none).result ∧
    (parse_sequence_header sampleHeader sampleHeaderPayloadNoMarker none).reader.pos = 51 ∧
    (parse_sequence_extension sampleExtension sampleExtensionPayloadNoMarker none).reader.pos
      = 32 :=
  marker_failure_report sampleHeader sampleExtension sampleHeaderPayloadNoMarker
    sampleExtensionPayloadNoMarker none none (by decide) (by decide) (by decide) (by decide)

/-- Counterexample to C14 as stated: no reading of the reported failure yields the bit
offset. The sample header (marker bit 0 at bit 50) and the sample extension (marker bit 0
at bit 31) report the same failure, so no function of the failure gives 50 for the one and
31 for the other. -/
theorem marker_failure_report_counterexample :
    ¬ ∃ offsetOf : ParseError → Nat,
      (∀ e, (parse_sequence_header sampleHeader sampleHeaderPayloadNoMarker none).result
          = .error e → offsetOf e = 50) ∧
      (∀ e, (parse_sequence_extension sampleExtension sampleExtensionPayloadNoMarker
          none).result = .error e → offsetOf e = 31) := by
  rintro ⟨offsetOf, h1, h2⟩
  have a := h1 (ParseError.logic_error markerMessage) (by rfl)
  have b := h2 (ParseError.logic_error markerMessage) (by rfl)
  omega

/-! ## The contract of the unit header -/

/-- C15: `parse_nal_unit_header` reads exactly one byte. It throws if and only if the
header byte string does not have length 1 (empty or longer), and then leaves the object
and the tree as they were. For every one-byte header `[b]` it completes with the reader at
bit 8, sets `start_code_value` to `b` as an unsigned value (0..255) and classifies it with
`interprete_start_code`; below a tree node it adds the node "nal_unit_header()" with
exactly one child, "start_code_value", of value `b`, coding "u(v) -> u(8)" and the 8 raw
bits of `b`. -/
theorem parse_nal_unit_header_contract (self : nal_unit_mpeg2) (header_byte : QByteArray)
    (root : Option TreeItem) :
    ((∃ e, (parse_nal_unit_header self header_byte root).result = .error e)
      ↔ header_byte.length ≠ 1) ∧
    (header_byte.length ≠ 1 →
      (parse_nal_unit_header self header_byte root).result
        = .error (ParseError.logic_error headerLengthMessage) ∧
      (parse_nal_unit_header self header_byte root).self = self ∧
      (parse_nal_unit_header self header_byte root).root = root) ∧
    (∀ b : Byte, header_byte = [b] →
      (parse_nal_unit_header self header_byte root).result = .ok () ∧
      (parse_nal_unit_header self header_byte root).reader.pos = 8 ∧
      (parse_nal_unit_header self header_byte root).self.start_code_value = (b.val : Int) ∧
      0 ≤ (parse_nal_unit_header self header_byte root).self.start_code_value ∧
      (parse_nal_unit_header self header_byte root).self.start_code_value ≤ 255 ∧
      (parse_nal_unit_header self header_byte root).self
        = (interprete_start_code { self with start_code_value := (b.val : Int) }
            (b.val : Int)).1 ∧
      (∀ r, root = some r →
        ∃ node field : TreeItem,
          (parse_nal_unit_header self header_byte root).root = some (r.addChild node) ∧
          node.name = some "nal_unit_header()" ∧
          node.childItems = [field] ∧
          field.name = some "start_code_value" ∧
          field.value = some b.val ∧
          field.coding = "u(v) -> u(8)" ∧
          field.code = String.mk (bitsChars [b] 0 8) ∧
          field.code.length = 8 ∧
          field.childItems = [])) := by
  refine ⟨?_, ?_, ?_⟩
  · constructor
    · rintro ⟨e, he⟩
      intro hlen
      match header_byte, hlen with
      | [b], _ =>
        rw [(parse_nal_unit_header_one self b root).1] at he
        cases he
    · intro hlen
      rw [parse_nal_unit_header_length self header_byte root hlen]
      exact ⟨_, rfl⟩
  · intro hlen
    rw [parse_nal_unit_header_length self header_byte root hlen]
    exact ⟨rfl, rfl, rfl⟩
  · intro b hb
    subst hb
    obtain ⟨h1, h2, h3⟩ := parse_nal_unit_header_one self b root
    have hlt := b.isLt
    have hv := interprete_start_code_value { self with start_code_value := (b.val : Int) }
      (b.val : Int)
    refine ⟨h1, ?_, ?_, ?_, ?_, h2, ?_⟩
    · simp [parse_nal_unit_header, sub_byte_reader.readBits]
    · rw [h2, hv]
    · rw [h2, hv]; simp
    · rw [h2, hv]; simp; omega
    · intro r hr
      subst hr
      rw [h3]
      refine ⟨_, _, rfl, rfl, rfl, rfl, rfl, rfl, rfl, ?_, rfl⟩
      simp [TreeItem.field, TreeItem.code, String.length, bitsChars]


/-- Witness for C15: the header byte 0xB3 without a tree. -/
theorem parse_nal_unit_header_contract_witness :
    (parse_nal_unit_header sampleNal [0xB3] none).result = .ok () ∧
    (parse_nal_unit_header sampleNal [0xB3] none).reader.pos = 8 ∧
    (parse_nal_unit_header sampleNal [0xB3] none).self.start_code_value
      = ((0xB3 : Byte).val : Int) :=
  ⟨((parse_nal_unit_header_contract sampleNal [0xB3] none).2.2 0xB3 rfl).1,
   ((parse_nal_unit_header_contract sampleNal [0xB3] none).2.2 0xB3 rfl).2.1,
   ((parse_nal_unit_header_contract sampleNal [0xB3] none).2.2 0xB3 rfl).2.2.1⟩

/-! ## Start code detection -/

theorem startCodeSkip_four_bytes (a b c d : Byte) (rest : QByteArray) :
    startCodeSkip (a :: b :: c :: d :: rest) =
      .ok (if a = 0 ∧ b = 0 ∧ c = 1 then 3 else if a = 0 ∧ b = 0 ∧ c = 0 ∧ d = 1 then 4 else 0) := by
  have key : startCodeSkip (a :: b :: c :: d :: rest) =
      .ok (if (a == 0 && (b == 0 && c == 1)) = true then 3
        else if (a == 0 && (b == 0 && (c == 0 && d == 1))) = true then 4 else 0) := by
    simp only [startCodeSkip, byteIs, shortAnd, QByteArray_at, List.get?]
    cases (a == 0) <;> cases (b == 0) <;> cases (c == 1) <;> cases (c == 0) <;>
      cases (d == 1) <;> rfl
  rw [key]
  simp only [Bool.and_eq_true, beq_iff_eq]


theorem exists_four (l : QByteArray) (h : 4 ≤ l.length) :
    ∃ (a b c d : Byte) (rest : QByteArray), l = a :: b :: c :: d :: rest := by
  match l, h with
  | a :: b :: c :: d :: rest, _ => exact ⟨_, _, _, _, _, rfl⟩

theorem parse_sequence_header_in_range (self : sequence_header) (payload : QByteArray)
    (root : Option TreeItem) :
    (parse_sequence_header self payload root).result ≠ .error ParseError.indexOutOfRange := by
  rw [parse_sequence_header_result]
  split_ifs <;> simp

theorem parse_sequence_extension_in_range (self : sequence_extension) (payload : QByteArray)
    (root : Option TreeItem) :
    (parse_sequence_extension self payload root).result ≠ .error ParseError.indexOutOfRange := by
  rw [parse_sequence_extension_result]
  split_ifs <;> simp

theorem mid_one (data : QByteArray) (skip : Nat) :
    QByteArray_mid data skip 1 = (data[skip]?).toList := by
  unfold QByteArray_mid
  induction data generalizing skip with
  | nil => simp
  | cons x xs ih =>
    cases skip with
    | zero => simp
    | succ k => simpa using ih k

theorem parseAndAddNALUnit_in_range (this : NALUnitModel) (dflt : MemberDefaults)
    (nalID : Int) (data : QByteArray) (parent : Option TreeItem)
    (nalStartEndPosFile : Nat × Nat) (nalTypeName : Option QString) (skip : Nat)
    (hs : startCodeSkip data = .ok skip) :
    (parseAndAddNALUnit this dflt nalID data parent nalStartEndPosFile nalTypeName).result
      ≠ .error ParseError.indexOutOfRange := by
  have hm := mid_one data skip
  cases hb : data[skip]? with
  | none =>
    rw [hb] at hm
    rw [(parseAndAddNALUnit_no_header this dflt nalID data parent nalStartEndPosFile
      nalTypeName skip hs hm).1]
    simp
  | some b =>
    rw [hb] at hm
    rw [parseAndAddNALUnit_header_byte this dflt nalID data parent nalStartEndPosFile
      nalTypeName skip b hs hm]
    split_ifs with h3 h5
    · have hr := parse_sequence_header_in_range (sequence_header.ctor (interprete_start_code
          { nal_unit_mpeg2.ctor dflt.nal nalStartEndPosFile nalID with
            start_code_value := (b.val : Int) } (b.val : Int)).1 dflt.header)
          (QByteArray_midFrom data (skip + 1)) none
      revert hr
      cases (parse_sequence_header (sequence_header.ctor (interprete_start_code
          { nal_unit_mpeg2.ctor dflt.nal nalStartEndPosFile nalID with
            start_code_value := (b.val : Int) } (b.val : Int)).1 dflt.header)
          (QByteArray_midFrom data (skip + 1)) none).result with
      | error e => intro hr; simpa using hr
      | ok u => intro _; simp
    · have hr := parse_sequence_extension_in_range (sequence_extension.ctor
          (interprete_start_code
            { nal_unit_mpeg2.ctor dflt.nal nalStartEndPosFile nalID with
              start_code_value := (b.val : Int) } (b.val : Int)).1 dflt.extension)
          (QByteArray_midFrom data (skip + 1)) none
      revert hr
      cases (parse_sequence_extension (sequence_extension.ctor (interprete_start_code
          { nal_unit_mpeg2.ctor dflt.nal nalStartEndPosFile nalID with
            start_code_value := (b.val : Int) } (b.val : Int)).1 dflt.extension)
          (QByteArray_midFrom data (skip + 1)) none).result with
      | error e => intro hr; simpa using hr
      | ok u => intro _; simp
    · simp

/-- C16 (as amended): start code detection in `parseAndAddNALUnit`. For every data of at
least 4 bytes the number of skipped bytes is 3 exactly when the data begins 00 00 01, 4
exactly when it begins 00 00 00 01 and 0 otherwise (the two patterns never both match), and
no index outside the data is read, neither here nor later in the call. The header bytes are
the byte at the skip offset, at most one: exactly one byte whenever the data is longer than
the start code, and none when the data is exactly 00 00 00 01. The payload is every byte
after the skip offset plus one. -/
theorem prefix_detection (this : NALUnitModel) (dflt : MemberDefaults) (nalID : Int)
    (data : QByteArray) (parent : Option TreeItem) (nalStartEndPosFile : Nat × Nat)
    (nalTypeName : Option QString) (hlen : 4 ≤ data.length) :
    ∃ skip, startCodeSkip data = .ok skip ∧
      (skip = 3 ↔ data.take 3 = [0, 0, 1]) ∧
      (skip = 4 ↔ data.take 4 = [0, 0, 0, 1]) ∧
      (skip = 0 ↔ (data.take 3 ≠ [0, 0, 1] ∧ data.take 4 ≠ [0, 0, 0, 1])) ∧
      ¬ (data.take 3 = [0, 0, 1] ∧ data.take 4 = [0, 0, 0, 1]) ∧
      QByteArray_mid data skip 1 = (data[skip]?).toList ∧
      (data ≠ [0, 0, 0, 1] → ∃ b, data[skip]? = some b ∧ QByteArray_mid data skip 1 = [b]) ∧
      (data = [0, 0, 0, 1] → skip = 4 ∧ QByteArray_mid data skip 1 = []) ∧
      QByteArray_midFrom data (skip + 1) = data.drop (skip + 1) ∧
      (parseAndAddNALUnit this dflt nalID data parent nalStartEndPosFile nalTypeName).result
        ≠ .error ParseError.indexOutOfRange := by
  obtain ⟨a, b, c, d, rest, hd⟩ := exists_four data hlen
  subst hd
  have hs := startCodeSkip_four_bytes a b c d rest
  refine ⟨_, hs, ?_, ?_, ?_, ?_, mid_one _ _, ?_, ?_, rfl,
    parseAndAddNALUnit_in_range this dflt nalID _ parent nalStartEndPosFile nalTypeName _ hs⟩
  · by_cases h3 : a = 0 ∧ b = 0 ∧ c = 1
    · obtain ⟨ha, hb, hc⟩ := h3
      subst ha hb hc
      simp
    · have h3b : ¬ (a = 0 ∧ b = 0 ∧ c = 1) := h3
      rw [if_neg h3]
      simp only [List.take, List.cons.injEq, and_true]
      constructor
      · intro h
        split_ifs at h
        omega
      · intro h
        exact absurd h h3b
  · by_cases h3 : a = 0 ∧ b = 0 ∧ c = 1
    · obtain ⟨ha, hb, hc⟩ := h3
      subst ha hb hc
      simp
    · rw [if_neg h3]
      simp only [List.take, List.cons.injEq, and_true]
      by_cases h4 : a = 0 ∧ b = 0 ∧ c = 0 ∧ d = 1
      · simp [h4]
      · simp [h4]
  · by_cases h3 : a = 0 ∧ b = 0 ∧ c = 1
    · obtain ⟨ha, hb, hc⟩ := h3
      subst ha hb hc
      simp
    · rw [if_neg h3]
      simp only [List.take, List.cons.injEq, and_true, ne_eq]
      by_cases h4 : a = 0 ∧ b = 0 ∧ c = 0 ∧ d = 1
      · simp [h4]
      · simp [h4, h3]
  · simp only [List.take, List.cons.injEq, and_true]
    rintro ⟨⟨ha, hb, hc⟩, ⟨_, _, hc0, _⟩⟩
    rw [hc] at hc0
    exact absurd hc0 (by decide)
  · intro hne
    by_cases h3 : a = 0 ∧ b = 0 ∧ c = 1
    · rw [if_pos h3]
      exact ⟨d, by simp, rfl⟩
    · rw [if_neg h3]
      by_cases h4 : a = 0 ∧ b = 0 ∧ c = 0 ∧ d = 1
      · rw [if_pos h4]
        obtain ⟨ha, hb, hc, hd⟩ := h4
        subst ha hb hc hd
        cases rest with
        | nil => exact absurd rfl hne
        | cons x xs => exact ⟨x, by simp, rfl⟩
      · rw [if_neg h4]
        exact ⟨a, by simp, rfl⟩
  · intro h
    simp only [List.cons.injEq] at h
    obtain ⟨ha, hb, hc, hd, hr⟩ := h
    subst ha hb hc hd hr
    exact ⟨rfl, rfl⟩

/-- Witness for C16: a group start unit of exactly four bytes. -/
theorem prefix_detection_witness :
    ∃ skip, startCodeSkip sampleGroupStartUnit = .ok skip ∧
      (skip = 3 ↔ sampleGroupStartUnit.take 3 = [0, 0, 1]) ∧
      (skip = 4 ↔ sampleGroupStartUnit.take 4 = [0, 0, 0, 1]) ∧
      (skip = 0 ↔ (sampleGroupStartUnit.take 3 ≠ [0, 0, 1] ∧
        sampleGroupStartUnit.take 4 ≠ [0, 0, 0, 1])) ∧
      ¬ (sampleGroupStartUnit.take 3 = [0, 0, 1] ∧ sampleGroupStartUnit.take 4 = [0, 0, 0, 1]) ∧
      QByteArray_mid sampleGroupStartUnit skip 1 = (sampleGroupStartUnit[skip]?).toList ∧
      (sampleGroupStartUnit ≠ [0, 0, 0, 1] →
        ∃ b, sampleGroupStartUnit[skip]? = some b ∧
          QByteArray_mid sampleGroupStartUnit skip 1 = [b]) ∧
      (sampleGroupStartUnit = [0, 0, 0, 1] →
        skip = 4 ∧ QByteArray_mid sampleGroupStartUnit skip 1 = []) ∧
      QByteArray_midFrom sampleGroupStartUnit (skip + 1) = sampleGroupStartUnit.drop (skip + 1) ∧
      (parseAndAddNALUnit ⟨none⟩ sampleDefaults 0 sampleGroupStartUnit none (0, 4) none).result
        ≠ .error ParseError.indexOutOfRange :=
  prefix_detection ⟨none⟩ sampleDefaults 0 sampleGroupStartUnit none (0, 4) none (by decide)

/-- Counterexample to C16 as stated: the data 00 00 00 01 has 4 bytes and begins with the
4-byte start code, so 4 bytes are skipped; there is no byte at the skip offset, the header
bytes are empty and the parse ends in the exception of the header length check. -/
theorem prefix_detection_counterexample :
    4 ≤ ([0, 0, 0, 1] : QByteArray).length ∧
    startCodeSkip [0, 0, 0, 1] = .ok 4 ∧
    ([0, 0, 0, 1] : QByteArray)[4]? = none ∧
    QByteArray_mid [0, 0, 0, 1] 4 1 = [] ∧
    (parseAndAddNALUnit ⟨none⟩ sampleDefaults 0 [0, 0, 0, 1] none (0, 4) none).result
      = .error (ParseError.logic_error headerLengthMessage) :=
  ⟨by decide, by rfl, by rfl, by rfl, by rfl⟩

/-! ## A failing payload decoder -/

theorem parseAndAddNALUnit_header_marker (this : NALUnitModel) (dflt : MemberDefaults)
    (nalID : Int) (data : QByteArray) (parent : Option TreeItem)
    (nalStartEndPosFile : Nat × Nat) (nalTypeName : Option QString) (skip : Nat)
    (hs : startCodeSkip data = .ok skip) (hh : QByteArray_mid data skip 1 = [0xB3])
    (hlen : 7 ≤ (QByteArray_midFrom data (skip + 1)).length)
    (hbit : bitAt (QByteArray_midFrom data (skip + 1)) 50 = 0) :
    (parseAndAddNALUnit this dflt nalID data parent nalStartEndPosFile nalTypeName).result
      = .error (ParseError.logic_error markerMessage) ∧
    (parseAndAddNALUnit this dflt nalID data parent nalStartEndPosFile nalTypeName).nalTypeName
      = nalTypeName ∧
    (parseAndAddNALUnit this dflt nalID data parent nalStartEndPosFile nalTypeName).nalRoot
      = (if parent.isSome = true then some TreeItem.blank
          else if this.rootItem.isSome = true then some TreeItem.blank else none).map
        (fun t => (t.addChild ((TreeItem.named "nal_unit_header()").addChild
            (TreeItem.field "start_code_value" 0xB3 "u(v) -> u(8)"
              (String.mk (bitsChars [0xB3] 0 8)) (Meaning.text "sequence_header_code")))).addChild
          (addChildren (TreeItem.named "sequence_header()")
            (headerNodesBeforeMarker (QByteArray_midFrom data (skip + 1))))) := by
  have hm : bitsValue (QByteArray_midFrom data (skip + 1)) 50 1 = 0 := by
    rw [bitsValue_one]; exact hbit
  unfold parseAndAddNALUnit
  rw [hs]
  simp only [hh]
  generalize (if parent.isSome = true then some TreeItem.blank
    else if this.rootItem.isSome = true then some TreeItem.blank else none) = root0
  obtain ⟨h1, h2, h3⟩ := parse_nal_unit_header_one
    (nal_unit_mpeg2.ctor dflt.nal nalStartEndPosFile nalID) 0xB3 root0
  have hT : (interprete_start_code
      { nal_unit_mpeg2.ctor dflt.nal nalStartEndPosFile nalID with
        start_code_value := ((0xB3 : Byte).val : Int) } ((0xB3 : Byte).val : Int)).1.nal_unit_type
      = SEQUENCE_HEADER := by
    rw [show ((0xB3 : Byte).val : Int) = 0xB3 from rfl]
    simp [interprete_start_code]
  have hS : (interprete_start_code
      { nal_unit_mpeg2.ctor dflt.nal nalStartEndPosFile nalID with
        start_code_value := ((0xB3 : Byte).val : Int) } ((0xB3 : Byte).val : Int)).2
      = "sequence_header_code" := by
    rw [show ((0xB3 : Byte).val : Int) = 0xB3 from rfl]
    simp [interprete_start_code]
  rw [h1]
  simp only [h2, h3, if_pos hT, hS]
  rw [parse_sequence_header_marker _ _ _ (by omega) hm]
  simp only [finishUnit_result, true_and]
  cases root0 <;> rfl

theorem parseAndAddNALUnit_extension_marker (this : NALUnitModel) (dflt : MemberDefaults)
    (nalID : Int) (data : QByteArray) (parent : Option TreeItem)
    (nalStartEndPosFile : Nat × Nat) (nalTypeName : Option QString) (skip : Nat)
    (hs : startCodeSkip data = .ok skip) (hh : QByteArray_mid data skip 1 = [0xB5])
    (hlen : 4 ≤ (QByteArray_midFrom data (skip + 1)).length)
    (hbit : bitAt (QByteArray_midFrom data (skip + 1)) 31 = 0) :
    (parseAndAddNALUnit this dflt nalID data parent nalStartEndPosFile nalTypeName).result
      = .error (ParseError.logic_error markerMessage) ∧
    (parseAndAddNALUnit this dflt nalID data parent nalStartEndPosFile nalTypeName).nalTypeName
      = nalTypeName ∧
    (parseAndAddNALUnit this dflt nalID data parent nalStartEndPosFile nalTypeName).nalRoot
      = (if parent.isSome = true then some TreeItem.blank
          else if this.rootItem.isSome = true then some TreeItem.blank else none).map
        (fun t => (t.addChild ((TreeItem.named "nal_unit_header()").addChild
            (TreeItem.field "start_code_value" 0xB5 "u(v) -> u(8)"
              (String.mk (bitsChars [0xB5] 0 8)) (Meaning.text "extension_start_code")))).addChild
          (addChildren (TreeItem.named "sequence_extension()")
            (extensionNodesBeforeMarker (QByteArray_midFrom data (skip + 1))))) := by
  have hm : bitsValue (QByteArray_midFrom data (skip + 1)) 31 1 = 0 := by
    rw [bitsValue_one]; exact hbit
  unfold parseAndAddNALUnit
  rw [hs]
  simp only [hh]
  generalize (if parent.isSome = true then some TreeItem.blank
    else if this.rootItem.isSome = true then some TreeItem.blank else none) = root0
  obtain ⟨h1, h2, h3⟩ := parse_nal_unit_header_one
    (nal_unit_mpeg2.ctor dflt.nal nalStartEndPosFile nalID) 0xB5 root0
  have hT : (interprete_start_code
      { nal_unit_mpeg2.ctor dflt.nal nalStartEndPosFile nalID with
        start_code_value := ((0xB5 : Byte).val : Int) } ((0xB5 : Byte).val : Int)).1.nal_unit_type
      = EXTENSION_START := by
    rw [show ((0xB5 : Byte).val : Int) = 0xB5 from rfl]
    simp [interprete_start_code]
  have hN : ¬ (interprete_start_code
      { nal_unit_mpeg2.ctor dflt.nal nalStartEndPosFile nalID with
        start_code_value := ((0xB5 : Byte).val : Int) } ((0xB5 : Byte).val : Int)).1.nal_unit_type
      = SEQUENCE_HEADER := by
    rw [hT]; decide
  have hS : (interprete_start_code
      { nal_unit_mpeg2.ctor dflt.nal nalStartEndPosFile nalID with
        start_code_value := ((0xB5 : Byte).val : Int) } ((0xB5 : Byte).val : Int)).2
      = "extension_start_code" := by
    rw [show ((0xB5 : Byte).val : Int) = 0xB5 from rfl]
    simp [interprete_start_code]
  rw [h1]
  simp only [h2, h3, if_neg hN, if_pos hT, hS]
  rw [parse_sequence_extension_marker _ _ _ (by omega) hm]
  simp only [finishUnit_result, true_and]
  cases root0 <;> rfl


/-- C17: when the payload decoder of a sequence header unit (header byte 0xB3) or of an
extension unit (0xB5) throws because the marker bit is 0, `parseAndAddNALUnit` lets the
exception pass to its caller: the call ends in that exception, the label of the caller is
not written, and the root node of the unit (there is one whenever a tree is built) holds
the node "nal_unit_header()" with its "start_code_value" child and the decoder node with the
fields read up to and including the marker bit, but has no display string. -/
theorem payload_failure_propagates (this : NALUnitModel) (dflt : MemberDefaults) (nalID : Int)
    (pre payload : QByteArray) (parent : Option TreeItem) (nalStartEndPosFile : Nat × Nat)
    (nalTypeName : Option QString) (hpre : pre = [0, 0, 1] ∨ pre = [0, 0, 0, 1]) :
    (7 ≤ payload.length → bitAt payload 50 = 0 →
      (parseAndAddNALUnit this dflt nalID (pre ++ 0xB3 :: payload) parent nalStartEndPosFile nalTypeName).result
        = .error (ParseError.logic_error markerMessage) ∧
      (parseAndAddNALUnit this dflt nalID (pre ++ 0xB3 :: payload) parent nalStartEndPosFile nalTypeName).nalTypeName
        = nalTypeName ∧
      (parent.isSome = true ∨ this.rootItem.isSome = true →
        (parseAndAddNALUnit this dflt nalID (pre ++ 0xB3 :: payload) parent nalStartEndPosFile nalTypeName).nalRoot.isSome = true) ∧
      (∀ t, (parseAndAddNALUnit this dflt nalID (pre ++ 0xB3 :: payload) parent nalStartEndPosFile nalTypeName).nalRoot
          = some t →
        t.itemData = [] ∧
        ∃ hn sn : TreeItem, t.childItems = [hn, sn] ∧
          hn.name = some "nal_unit_header()" ∧
          hn.childItems.map TreeItem.name = [some "start_code_value"] ∧
          sn.name = some "sequence_header()" ∧
          sn.childItems.map TreeItem.name =
            [some "horizontal_size_value",
             some "vertical_size_value",
             some "aspect_ratio_information",
             some "frame_rate_code",
             some "bit_rate_value",
             some "marker_bit"])) ∧
    (4 ≤ payload.length → bitAt payload 31 = 0 →
      (parseAndAddNALUnit this dflt nalID (pre ++ 0xB5 :: payload) parent nalStartEndPosFile nalTypeName).result
        = .error (ParseError.logic_error markerMessage) ∧
      (parseAndAddNALUnit this dflt nalID (pre ++ 0xB5 :: payload) parent nalStartEndPosFile nalTypeName).nalTypeName
        = nalTypeName ∧
      (parent.isSome = true ∨ this.rootItem.isSome = true →
        (parseAndAddNALUnit this dflt nalID (pre ++ 0xB5 :: payload) parent nalStartEndPosFile nalTypeName).nalRoot.isSome = true) ∧
      (∀ t, (parseAndAddNALUnit this dflt nalID (pre ++ 0xB5 :: payload) parent nalStartEndPosFile nalTypeName).nalRoot
          = some t →
        t.itemData = [] ∧
        ∃ hn sn : TreeItem, t.childItems = [hn, sn] ∧
          hn.name = some "nal_unit_header()" ∧
          hn.childItems.map TreeItem.name = [some "start_code_value"] ∧
          sn.name = some "sequence_extension()" ∧
          sn.childItems.map TreeItem.name =
            [some "extension_start_code_identifier",
             some "profile_and_level_indication",
             some "progressive_sequence",
             some "chroma_format",
             some "horizontal_size_extension",
             some "vertical_size_extension",
             some "bit_rate_extension",
             some "marker_bit"])) := by
  have hroot : (parent.isSome = true ∨ this.rootItem.isSome = true) →
      (if parent.isSome = true then some TreeItem.blank
        else if this.rootItem.isSome = true then some TreeItem.blank else none)
        = some TreeItem.blank := by
    intro h
    rcases h with h | h <;> simp [h]
  have hskip : ∀ (b : Byte), ∃ skip, startCodeSkip (pre ++ b :: payload) = .ok skip ∧
      QByteArray_mid (pre ++ b :: payload) skip 1 = [b] ∧
      QByteArray_midFrom (pre ++ b :: payload) (skip + 1) = payload := by
    intro b
    rcases hpre with h | h
    · subst h; exact ⟨3, rfl, rfl, rfl⟩
    · subst h; exact ⟨4, rfl, rfl, rfl⟩
  constructor
  · intro hlen hbit
    obtain ⟨skip, hs, hh, hp⟩ := hskip 0xB3
    obtain ⟨r1, r2, r3⟩ := parseAndAddNALUnit_header_marker this dflt nalID
      (pre ++ 0xB3 :: payload) parent nalStartEndPosFile nalTypeName skip hs hh
      (by rw [hp]; exact hlen) (by rw [hp]; exact hbit)
    refine ⟨r1, r2, ?_, ?_⟩
    · intro h
      rw [r3, hroot h]
      rfl
    · intro t ht
      rw [r3, hp] at ht
      by_cases htree : parent.isSome = true ∨ this.rootItem.isSome = true
      · rw [hroot htree] at ht
        simp only [Option.map_some', Option.some.injEq] at ht
        subst ht
        refine ⟨rfl, _, _, rfl, rfl, rfl, ?_, ?_⟩
        · rw [addChildren_name]; rfl
        · rw [addChildren_childItems]; rfl
      · have hnone : (if parent.isSome = true then some TreeItem.blank
            else if this.rootItem.isSome = true then some TreeItem.blank else none)
            = none := by
          have h1 : ¬ parent.isSome = true := fun h => htree (Or.inl h)
          have h2 : ¬ this.rootItem.isSome = true := fun h => htree (Or.inr h)
          rw [if_neg h1, if_neg h2]
        rw [hnone] at ht
        cases ht
  · intro hlen hbit
    obtain ⟨skip, hs, hh, hp⟩ := hskip 0xB5
    obtain ⟨r1, r2, r3⟩ := parseAndAddNALUnit_extension_marker this dflt nalID
      (pre ++ 0xB5 :: payload) parent nalStartEndPosFile nalTypeName skip hs hh
      (by rw [hp]; exact hlen) (by rw [hp]; exact hbit)
    refine ⟨r1, r2, ?_, ?_⟩
    · intro h
      rw [r3, hroot h]
      rfl
    · intro t ht
      rw [r3, hp] at ht
      by_cases htree : parent.isSome = true ∨ this.rootItem.isSome = true
      · rw [hroot htree] at ht
        simp only [Option.map_some', Option.some.injEq] at ht
        subst ht
        refine ⟨rfl, _, _, rfl, rfl, rfl, ?_, ?_⟩
        · rw [addChildren_name]; rfl
        · rw [addChildren_childItems]; rfl
      · have hnone : (if parent.isSome = true then some TreeItem.blank
            else if this.rootItem.isSome = true then some TreeItem.blank else none)
            = none := by
          have h1 : ¬ parent.isSome = true := fun h => htree (Or.inl h)
          have h2 : ¬ this.rootItem.isSome = true := fun h => htree (Or.inr h)
          rw [if_neg h1, if_neg h2]
        rw [hnone] at ht
        cases ht

/-- Witness for C17: the sample sequence header unit whose marker bit is 0, parsed below a
blank parent with a label to write to. -/
theorem payload_failure_propagates_witness :
    (parseAndAddNALUnit ⟨none⟩ sampleDefaults 0 ([0, 0, 1] ++ 0xB3 :: sampleHeaderPayloadNoMarker)
      (some TreeItem.blank) (0, 12) (some "")).result
      = .error (ParseError.logic_error markerMessage) ∧
    (parseAndAddNALUnit ⟨none⟩ sampleDefaults 0 ([0, 0, 1] ++ 0xB3 :: sampleHeaderPayloadNoMarker)
      (some TreeItem.blank) (0, 12) (some "")).nalTypeName = some "" ∧
    (parseAndAddNALUnit ⟨none⟩ sampleDefaults 0 ([0, 0, 1] ++ 0xB3 :: sampleHeaderPayloadNoMarker)
      (some TreeItem.blank) (0, 12) (some "")).nalRoot.isSome = true :=
  ⟨((payload_failure_propagates ⟨none⟩ sampleDefaults 0 [0, 0, 1] sampleHeaderPayloadNoMarker
      (some TreeItem.blank) (0, 12) (some "") (Or.inl rfl)).1 (by decide) (by decide)).1,
   ((payload_failure_propagates ⟨none⟩ sampleDefaults 0 [0, 0, 1] sampleHeaderPayloadNoMarker
      (some TreeItem.blank) (0, 12) (some "") (Or.inl rfl)).1 (by decide) (by decide)).2.1,
   ((payload_failure_propagates ⟨none⟩ sampleDefaults 0 [0, 0, 1] sampleHeaderPayloadNoMarker
      (some TreeItem.blank) (0, 12) (some "") (Or.inl rfl)).1 (by decide) (by decide)).2.2.1
      (Or.inl rfl)⟩

end parserAnnexBMpeg2

namespace MoveAndZoomableView

/-! ## Properties of the zoomable view -/

theorem roundHalfEven_intCast (k : Int) : roundHalfEven (k : ℚ) = k := by
  unfold roundHalfEven
  simp

/-- Doubling a positive value below `2 ^ 1023` is exact. -/
theorem mulStep_exact (m : ℚ) (h : m * 2 < 2 ^ 1024) :
    Double.mulStep (Double.finite false m) = Double.finite false (m * 2) := by
  have hS : ((ZOOM_STEP_FACTOR : ℤ) : ℚ) = 2 := by norm_num [ZOOM_STEP_FACTOR]
  simp only [Double.mulStep, hS]
  rw [if_neg (not_le.mpr h)]

/-- Doubling a value of at least `2 ^ 1023` overflows to infinity. -/
theorem mulStep_overflow (m : ℚ) (h : 2 ^ 1024 ≤ m * 2) :
    Double.mulStep (Double.finite false m) = Double.inf false := by
  have hS : ((ZOOM_STEP_FACTOR : ℤ) : ℚ) = 2 := by norm_num [ZOOM_STEP_FACTOR]
  simp only [Double.mulStep, hS]
  rw [if_pos h]

/-- Halving a power of two down to the smallest subnormal is exact. -/
theorem divStep_pow (n : Nat) (h : n ≤ 1073) :
    Double.divStep (Double.finite false (1 / 2 ^ n)) = Double.finite false (1 / 2 ^ (n + 1)) := by
  have hS : ((ZOOM_STEP_FACTOR : ℤ) : ℚ) = 2 := by norm_num [ZOOM_STEP_FACTOR]
  have e : (1 : ℚ) / 2 ^ n / 2 = 1 / 2 ^ (n + 1) := by rw [div_div, ← pow_succ]
  simp only [Double.divStep, hS, e]
  split_ifs with hc
  · rfl
  · have hp : (2 : ℚ) ^ 1074 = 2 ^ (1073 - n) * 2 ^ (n + 1) := by
      rw [← pow_add]; congr 1; omega
    have hne : (2 : ℚ) ^ (n + 1) ≠ 0 := pow_ne_zero _ (by norm_num)
    have e2 : (1 : ℚ) / 2 ^ (n + 1) * 2 ^ 1074 = (((2 : Int) ^ (1073 - n) : Int) : ℚ) := by
      rw [hp]; push_cast; field_simp
    rw [e2, roundHalfEven_intCast, hp]
    push_cast
    field_simp

/-- Halving the smallest subnormal gives zero. -/
theorem divStep_underflow :
    Double.divStep (Double.finite false (1 / 2 ^ 1074)) = Double.finite false 0 := by
  have hS : ((ZOOM_STEP_FACTOR : ℤ) : ℚ) = 2 := by norm_num [ZOOM_STEP_FACTOR]
  have e : (1 : ℚ) / 2 ^ 1074 / 2 * 2 ^ 1074 = 1 / 2 := by field_simp
  have hc : ¬ ((1 : ℚ) / 2 ^ 1074 / 2 ≥ 1 / 2 ^ 1022) := by
    rw [div_div, ← pow_succ, not_le]
    exact one_div_pow_lt_one_div_pow_of_lt (by norm_num) (by norm_num)
  simp only [Double.divStep, hS, if_neg hc, e]
  norm_num [roundHalfEven]


theorem whileLoop_stop (cond : Double → Bool) (step : Double → Double) (fuel : Nat)
    (x : Double) (h : cond x = false) : whileLoop cond step (fuel + 1) x = some x := by
  simp [whileLoop, h]

theorem whileLoop_step (cond : Double → Bool) (step : Double → Double) (fuel : Nat)
    (x : Double) (h : cond x = true) :
    whileLoop cond step (fuel + 1) x = whileLoop cond step fuel (step x) := by
  simp [whileLoop, h]

theorem lt_finite (a b : ℚ) :
    Double.lt (Double.finite false a) (Double.finite false b) = decide (a < b) := by
  simp [Double.lt, Double.signed]

theorem le_finite (a b : ℚ) :
    Double.le (Double.finite false a) (Double.finite false b) = decide (a ≤ b) := by
  simp [Double.le, Double.signed]

/-- The doubling loop of zoom-in for a zoom factor `q` below `2 ^ 1023`, started at `x`: once
`x * 2 ^ N` exceeds `q` it has stopped, at a value above `q` that is `x` itself or at most
`q * 2`; no doubling overflows. -/
theorem whileLoop_up (q : ℚ) (hq : q < 2 ^ 1023) : ∀ (N : Nat) (x : ℚ), q < x * 2 ^ N →
    ∀ fuel, N + 1 ≤ fuel → ∃ (r : ℚ) (n : Nat),
      whileLoop
        (fun newZoom => Double.le newZoom (Double.finite false q)
          && Double.lt newZoom (Double.inf false))
        Double.mulStep fuel (Double.finite false x) = some (Double.finite false r) ∧
      r = x * 2 ^ n ∧ q < r ∧ (r = x ∨ r ≤ q * 2) := by
  intro N
  induction N with
  | zero =>
    intro x hx fuel hf
    obtain ⟨f, rfl⟩ : ∃ f, fuel = f + 1 := ⟨fuel - 1, by omega⟩
    have hx1 : q < x := by simpa using hx
    have hc : ¬ x ≤ q := not_le.mpr hx1
    exact ⟨x, 0, by simp [whileLoop, Double.le, Double.lt, Double.signed, hc], by simp, hx1,
      Or.inl rfl⟩
  | succ N ih =>
    intro x hx fuel hf
    obtain ⟨f, rfl⟩ : ∃ f, fuel = f + 1 := ⟨fuel - 1, by omega⟩
    by_cases hc : x ≤ q
    · have hx2 : q < x * 2 * 2 ^ N := by rw [mul_assoc, ← pow_succ']; exact hx
      have hsmall : x * 2 < 2 ^ 1024 := by
        have : (2 : ℚ) ^ 1024 = 2 ^ 1023 * 2 := by rw [← pow_succ]
        rw [this]; linarith
      obtain ⟨r, n, hr, hn, hlt, hprev⟩ := ih (x * 2) hx2 f (by omega)
      refine ⟨r, n + 1, ?_, ?_, hlt, Or.inr ?_⟩
      · rw [← hr, ← mulStep_exact x hsmall]
        simp [whileLoop, Double.le, Double.lt, Double.signed, hc]
      · rw [hn, mul_assoc, ← pow_succ']
      · rcases hprev with h0 | hp
        · rw [h0]; linarith
        · exact hp
    · have hx1 : q < x := not_le.mp hc
      exact ⟨x, 0, by simp [whileLoop, Double.le, Double.lt, Double.signed, hc], by simp, hx1,
        Or.inl rfl⟩

/-- A double that is at least `2 ^ 1023` is at least every smaller power of two and above
1.0. -/
theorem le_of_huge (z : Double)
    (hz : Double.le (Double.finite false (2 ^ 1023)) z = true) :
    (∀ n : Nat, n ≤ 1023 → Double.le (Double.finite false (2 ^ n)) z = true) ∧
    Double.lt (Double.finite false 1) z = true := by
  have h1 : ∀ n : Nat, n ≤ 1023 → (2 : ℚ) ^ n ≤ 2 ^ 1023 := fun n hn =>
    pow_le_pow_right₀ (by norm_num) hn
  have h2 : (1 : ℚ) < 2 ^ 1023 := one_lt_pow₀ (by norm_num) (by norm_num)
  cases z with
  | nan => simp [Double.le] at hz
  | inf n =>
    cases n
    · exact ⟨fun n _ => by simp [Double.le], by simp [Double.lt]⟩
    · simp [Double.le] at hz
  | finite s q =>
    have hq : (2 : ℚ) ^ 1023 ≤ Double.signed s q := by
      simpa [Double.le, Double.signed] using hz
    refine ⟨fun n hn => ?_, ?_⟩
    · have := le_trans (h1 n hn) hq
      simpa [Double.le, Double.signed] using this
    · have := lt_of_lt_of_le h2 hq
      simpa [Double.lt, Double.signed] using this

/-- The doubling loop of zoom-in for a zoom factor of at least `2 ^ 1023`: started at a
power of two it runs up to `2 ^ 1023`, the next doubling overflows, and the guard
`newZoom < inf` ends the loop at infinity. -/
theorem whileLoop_overflow (z : Double)
    (hz : Double.le (Double.finite false (2 ^ 1023)) z = true) :
    ∀ (d n : Nat), n + d = 1023 → ∀ fuel, d + 2 ≤ fuel →
      whileLoop
        (fun newZoom => Double.le newZoom z && Double.lt newZoom (Double.inf false))
        Double.mulStep fuel (Double.finite false (2 ^ n)) = some (Double.inf false) := by
  have hbig := (le_of_huge z hz).1
  intro d
  induction d with
  | zero =>
    intro n hn fuel hf
    obtain ⟨f, rfl⟩ : ∃ f, fuel = f + 2 := ⟨fuel - 2, by omega⟩
    have hn2 : n = 1023 := by omega
    subst hn2
    have hm : Double.mulStep (Double.finite false (2 ^ 1023)) = Double.inf false :=
      mulStep_overflow _ (by rw [← pow_succ])
    have hc := hbig 1023 (le_refl _)
    simp [whileLoop, hc, hm, Double.lt]
  | succ d ih =>
    intro n hn fuel hf
    obtain ⟨f, rfl⟩ : ∃ f, fuel = f + 1 := ⟨fuel - 1, by omega⟩
    have hlt : (2 : ℚ) ^ n * 2 < 2 ^ 1024 := by
      rw [← pow_succ]
      exact pow_lt_pow_right₀ (by norm_num) (by omega)
    have hm : Double.mulStep (Double.finite false (2 ^ n)) = Double.finite false (2 ^ (n + 1)) := by
      rw [mulStep_exact _ hlt, pow_succ]
    have hc := hbig n (by omega)
    have hr := ih (n + 1) (by omega) f (by omega)
    rw [← hr]
    simp [whileLoop, hc, hm, Double.lt]

/-- The halving loop of zoom-in for a zoom factor `q`, started at `1 / 2 ^ n`: once
`1 / 2 ^ (n + N)` is at most `q` it has stopped, at a power of two that is at most `q` and
is the start value or more than half of `q`; down to `2 ^ -1074` no halving is rounded. -/
theorem whileLoop_down (q : ℚ) : ∀ (N n : Nat), n + N ≤ 1074 → 1 / 2 ^ (n + N) ≤ q →
    ∀ fuel, N + 1 ≤ fuel → ∃ m : Nat,
      whileLoop (fun newZoom => Double.lt (Double.finite false q) newZoom) Double.divStep fuel
        (Double.finite false (1 / 2 ^ n)) = some (Double.finite false (1 / 2 ^ m)) ∧
      1 / 2 ^ m ≤ q ∧ (m = n ∨ q < 1 / 2 ^ m * 2) := by
  intro N
  induction N with
  | zero =>
    intro n _ hx fuel hf
    obtain ⟨f, rfl⟩ : ∃ f, fuel = f + 1 := ⟨fuel - 1, by omega⟩
    have hx1 : (1 : ℚ) / 2 ^ n ≤ q := by simpa using hx
    have hc : ¬ q < 1 / 2 ^ n := not_lt.mpr hx1
    exact ⟨n, whileLoop_stop _ _ f _ (by rw [lt_finite]; exact decide_eq_false hc), hx1,
      Or.inl rfl⟩
  | succ N ih =>
    intro n hn hx fuel hf
    obtain ⟨f, rfl⟩ : ∃ f, fuel = f + 1 := ⟨fuel - 1, by omega⟩
    by_cases hc : q < 1 / 2 ^ n
    · have hx2 : (1 : ℚ) / 2 ^ (n + 1 + N) ≤ q := by
        have e : n + 1 + N = n + (N + 1) := by omega
        rw [e]; exact hx
      obtain ⟨m, hr, hle, hprev⟩ := ih (n + 1) (by omega) hx2 f (by omega)
      refine ⟨m, ?_, hle, Or.inr ?_⟩
      · rw [← hr, ← divStep_pow n (by omega)]
        exact whileLoop_step _ _ f _ (by rw [lt_finite]; exact decide_eq_true hc)
      · rcases hprev with h0 | hp
        · rw [h0]
          have e : (1 : ℚ) / 2 ^ (n + 1) * 2 = 1 / 2 ^ n := by
            rw [pow_succ]; field_simp; ring
          rw [e]; exact hc
        · exact hp
    · have hx1 : (1 : ℚ) / 2 ^ n ≤ q := not_lt.mp hc
      exact ⟨n, whileLoop_stop _ _ f _ (by rw [lt_finite]; exact decide_eq_false hc), hx1,
        Or.inl rfl⟩

/-- A power of two that is at most `z * 2` lies below every power of two above `z`. -/
theorem least_step (z : ℚ) (k j : ℤ) (hlow : (2 : ℚ) ^ k ≤ z * 2) (hj : z < (2 : ℚ) ^ j) :
    (2 : ℚ) ^ k ≤ (2 : ℚ) ^ j := by
  have h2 : (1 : ℚ) < 2 := by norm_num
  have h : (2 : ℚ) ^ k < (2 : ℚ) ^ (j + 1) := by
    rw [zpow_add_one₀ (by norm_num : (2 : ℚ) ≠ 0)]
    linarith
  have hk : k < j + 1 := (zpow_lt_zpow_iff_right₀ h2).mp h
  exact zpow_le_zpow_right₀ (le_of_lt h2) (by omega)

/-- Zoom-in from a positive zoom factor `q` between `2 ^ -1074` and `2 ^ 1023`: with a fuel
of 1075 the step returns a power of two above `q` that is at most `q * 2`. -/
theorem nextZoom_in (q : ℚ) (hlow : 1 / 2 ^ 1074 ≤ q) (hhigh : q < 2 ^ 1023)
    (newZoomFactor : Double) (fuel : Nat) (hf : 1075 ≤ fuel) :
    ∃ k : ℤ, nextZoom fuel ZoomMode.IN (Double.finite false q) newZoomFactor
        = some (Double.finite false ((2 : ℚ) ^ k)) ∧
      q < (2 : ℚ) ^ k ∧ (2 : ℚ) ^ k ≤ q * 2 := by
  have hpos : 0 < q := lt_of_lt_of_le (by positivity) hlow
  by_cases h1 : 1 < q
  · have hc : Double.lt (Double.finite false 1) (Double.finite false q) = true := by
      simpa [Double.lt, Double.signed] using h1
    obtain ⟨r, n, hr, hn, hlt, hprev⟩ :=
      whileLoop_up q hhigh 1023 1 (by simpa using hhigh) fuel (by omega)
    have hle : r ≤ q * 2 := by
      rcases hprev with h0 | hp
      · rw [h0]; linarith
      · exact hp
    have e : r = (2 : ℚ) ^ (n : ℤ) := by rw [hn, one_mul, zpow_natCast]
    refine ⟨(n : ℤ), ?_, by rw [← e]; exact hlt, by rw [← e]; exact hle⟩
    rw [← e]
    simp only [nextZoom, if_pos hc, hr]
  · have hz1 : q ≤ 1 := not_lt.mp h1
    have hc : ¬ Double.lt (Double.finite false 1) (Double.finite false q) = true := by
      simpa [Double.lt, Double.signed] using hz1
    obtain ⟨m, hr, hle, hprev⟩ :=
      whileLoop_down q 1074 0 (by omega) (by simpa using hlow) fuel (by omega)
    rw [pow_zero, div_one] at hr
    have hm1 : (1 : ℚ) / 2 ^ m ≤ 1 := by
      rw [div_le_one (by positivity)]
      exact one_le_pow₀ (by norm_num)
    have hgt : q < 1 / 2 ^ m * 2 := by
      rcases hprev with h0 | hp
      · rw [h0]; norm_num; linarith
      · exact hp
    have hsmall : (1 : ℚ) / 2 ^ m * 2 < 2 ^ 1024 := by
      have : (2 : ℚ) ^ 1 < 2 ^ 1024 := pow_lt_pow_right₀ (by norm_num) (by norm_num)
      rw [pow_one] at this
      linarith
    have e : (1 : ℚ) / 2 ^ m * 2 = (2 : ℚ) ^ (1 - (m : ℤ)) := by
      rw [zpow_sub₀ (by norm_num : (2 : ℚ) ≠ 0), zpow_one, zpow_natCast]; ring
    refine ⟨1 - (m : ℤ), ?_, by rw [← e]; exact hgt, by rw [← e]; linarith⟩
    rw [← e, ← mulStep_exact _ hsmall]
    simp only [nextZoom, if_neg hc, hr, Option.map_some']

/-- Zoom-in from a zoom factor of at least `2 ^ 1023` (plus infinity included): with a fuel
of 1025 the step returns plus infinity. -/
theorem nextZoom_in_overflow (z : Double)
    (hz : Double.le (Double.finite false (2 ^ 1023)) z = true) (newZoomFactor : Double)
    (fuel : Nat) (hf : 1025 ≤ fuel) :
    nextZoom fuel ZoomMode.IN z newZoomFactor = some (Double.inf false) := by
  have hc := (le_of_huge z hz).2
  have hr := whileLoop_overflow z hz 1023 0 (by omega) fuel (by omega)
  rw [pow_zero] at hr
  simp only [nextZoom, if_pos hc, hr]

/-- The range of the positive finite doubles. -/
theorem isMagnitude_range (q : ℚ) (hq : Double.isMagnitude q) (hpos : 0 < q) :
    1 / 2 ^ 1074 ≤ q ∧ q < 2 ^ 1024 := by
  obtain ⟨m, e, hm, he, rfl⟩ := hq
  have hm0 : m ≠ 0 := by
    rintro rfl
    simp at hpos
  have hm1 : (1 : ℚ) ≤ m := by exact_mod_cast Nat.one_le_iff_ne_zero.mpr hm0
  have hmq : (m : ℚ) < 2 ^ 53 := by exact_mod_cast hm
  have he1 : (1 : ℚ) ≤ 2 ^ e := one_le_pow₀ (by norm_num)
  have he2 : (2 : ℚ) ^ e ≤ 2 ^ 2045 := pow_le_pow_right₀ (by norm_num) he
  have hp : (0 : ℚ) < 2 ^ 1074 := by positivity
  constructor
  · rw [div_le_div_iff_of_pos_right hp]
    nlinarith
  · rw [div_lt_iff₀ hp]
    have h3 : (2 : ℚ) ^ 1024 * 2 ^ 1074 = 2 ^ 53 * 2 ^ 2045 := by
      rw [← pow_add, ← pow_add]
    rw [h3]
    have he0 : (0 : ℚ) < 2 ^ e := by positivity
    calc (m : ℚ) * 2 ^ e < 2 ^ 53 * 2 ^ e := by nlinarith
      _ ≤ 2 ^ 53 * 2 ^ 2045 := by nlinarith

/-- The zoom factor after `zoom` is the value computed by `nextZoom`. -/
theorem zoom_zoomFactor (fuel : Nat) (origin : QPoint) (divide : Double → Double → Double)
    (scale : Double → QPoint → QPoint) (linked : Bool) (self : View) (zoomMode : ZoomMode)
    (zoomPoint : QPoint) (newZoomFactor newZoom : Double)
    (h : nextZoom fuel zoomMode self.zoomFactor newZoomFactor = some newZoom) :
    ∃ v, zoom fuel origin divide scale linked self zoomMode zoomPoint newZoomFactor = some v ∧
      v.zoomFactor = newZoom := by
  unfold zoom
  rw [h]
  exact ⟨_, rfl, rfl⟩


/-- C18 (as amended): zoom-in snaps to the next higher zoom step as long as that step is a
finite double. For every current zoom factor `z > 0` that a double can hold,
`zoom(ZoomMode::IN)` terminates: with a fuel of 1075 or more it returns. If `z` is below
`2 ^ 1023`, the new zoom factor is an integer power `2 ^ k` of `ZOOM_STEP_FACTOR` that is
strictly greater than `z` and is the smallest such power. If `z` is `2 ^ 1023` or more (plus
infinity included), the doubling overflows, the guard `newZoom < inf` ends the loop and the
new zoom factor is plus infinity. The doubles nearest to 1.9 and 0.3 and the double 2 give
the factors 2, 0.5 and 4. -/
theorem zoom_in_next_step (origin : QPoint) (divide : Double → Double → Double)
    (scale : Double → QPoint → QPoint) (linked : Bool) (self : View) (zoomPoint : QPoint)
    (newZoomFactor : Double) (hz : self.zoomFactor.isDouble)
    (hpos : Double.lt (Double.finite false 0) self.zoomFactor = true) :
    (∀ fuel, 1075 ≤ fuel → ∃ v : View,
      zoom fuel origin divide scale linked self ZoomMode.IN zoomPoint newZoomFactor = some v ∧
      (Double.lt self.zoomFactor (Double.finite false (2 ^ 1023)) = true →
        ∃ k : ℤ, v.zoomFactor = Double.finite false ((ZOOM_STEP_FACTOR : ℚ) ^ k) ∧
          Double.lt self.zoomFactor (Double.finite false ((ZOOM_STEP_FACTOR : ℚ) ^ k)) = true ∧
          ∀ j : ℤ,
            Double.lt self.zoomFactor (Double.finite false ((ZOOM_STEP_FACTOR : ℚ) ^ j)) = true →
              (ZOOM_STEP_FACTOR : ℚ) ^ k ≤ (ZOOM_STEP_FACTOR : ℚ) ^ j) ∧
      (Double.le (Double.finite false (2 ^ 1023)) self.zoomFactor = true →
        v.zoomFactor = Double.inf false)) ∧
    (zoom 3 origin divide scale linked (sampleView sampleZoom19) ZoomMode.IN ⟨0, 0⟩
        newZoomFactor).map View.zoomFactor = some (Double.finite false 2) ∧
    (zoom 3 origin divide scale linked (sampleView (Double.finite false 2)) ZoomMode.IN ⟨0, 0⟩
        newZoomFactor).map View.zoomFactor = some (Double.finite false 4) ∧
    (zoom 3 origin divide scale linked (sampleView sampleZoom03) ZoomMode.IN ⟨0, 0⟩
        newZoomFactor).map View.zoomFactor = some (Double.finite false (1 / 2)) := by
  have hS : ((ZOOM_STEP_FACTOR : ℤ) : ℚ) = 2 := by norm_num [ZOOM_STEP_FACTOR]
  rw [hS]
  refine ⟨fun fuel hf => ?_, ?_, ?_, ?_⟩
  · by_cases hbig : Double.le (Double.finite false (2 ^ 1023)) self.zoomFactor = true
    · obtain ⟨v, hv, hvz⟩ := zoom_zoomFactor fuel origin divide scale linked self ZoomMode.IN
        zoomPoint newZoomFactor _
        (nextZoom_in_overflow self.zoomFactor hbig newZoomFactor fuel (by omega))
      refine ⟨v, hv, fun hlt => ?_, fun _ => hvz⟩
      exfalso
      revert hbig hlt
      cases self.zoomFactor with
      | nan => simp [Double.le]
      | inf n => cases n <;> simp [Double.le, Double.lt]
      | finite s q =>
        simp only [Double.le, Double.lt, decide_eq_true_eq]
        intro h1 h2
        exact absurd h2 (not_lt.mpr h1)
    · revert hz hpos hbig
      cases hzf : self.zoomFactor with
      | nan => simp [Double.lt]
      | inf n => cases n <;> simp [Double.le, Double.lt]
      | finite s q =>
        intro hz hpos hbig
        have hq0 : 0 ≤ q := by
          obtain ⟨m, e, -, -, rfl⟩ := hz
          positivity
        cases s with
        | true =>
          have : (0 : ℚ) < -q := by simpa [Double.lt, Double.signed] using hpos
          linarith
        | false =>
          have hqpos : 0 < q := by simpa [Double.lt, Double.signed] using hpos
          have hhigh : q < 2 ^ 1023 := by
            rw [le_finite] at hbig
            simpa using hbig
          obtain ⟨hlow, -⟩ := isMagnitude_range q hz hqpos
          obtain ⟨k, hk, hlt, hle⟩ := nextZoom_in q hlow hhigh newZoomFactor fuel hf
          rw [← hzf] at hk
          obtain ⟨v, hv, hvz⟩ := zoom_zoomFactor fuel origin divide scale linked self
            ZoomMode.IN zoomPoint newZoomFactor _ hk
          refine ⟨v, hv, fun _ => ⟨k, hvz, ?_, fun j hj => ?_⟩, fun h => ?_⟩
          · rw [lt_finite]; exact decide_eq_true hlt
          · rw [lt_finite] at hj
            exact least_step q k j hle (of_decide_eq_true hj)
          · rw [le_finite] at h
            exact absurd (of_decide_eq_true h) (not_le.mpr hhigh)
  · norm_num [zoom, nextZoom, whileLoop, sampleView, sampleZoom19, setZoomFactor,
      QPoint.isNull, Double.lt, Double.le, Double.signed, Double.mulStep, ZOOM_STEP_FACTOR]
  · norm_num [zoom, nextZoom, whileLoop, sampleView, setZoomFactor,
      QPoint.isNull, Double.lt, Double.le, Double.signed, Double.mulStep, ZOOM_STEP_FACTOR]
  · norm_num [zoom, nextZoom, whileLoop, sampleView, sampleZoom03, setZoomFactor,
      QPoint.isNull, Double.lt, Double.le, Double.signed, Double.mulStep, Double.divStep,
      ZOOM_STEP_FACTOR]

/-- Witness for C18: the double nearest to 1.9, with a zoom point away from the widget
centre and linked views requested. -/
theorem zoom_in_next_step_witness :
    (∀ fuel, 1075 ≤ fuel → ∃ v : View,
      zoom fuel ⟨320, 240⟩ sampleDivide sampleScale true (sampleView sampleZoom19) ZoomMode.IN
        ⟨100, 50⟩ (Double.finite false 1) = some v ∧
      (Double.lt (sampleView sampleZoom19).zoomFactor (Double.finite false (2 ^ 1023)) = true →
        ∃ k : ℤ, v.zoomFactor = Double.finite false ((ZOOM_STEP_FACTOR : ℚ) ^ k) ∧
          Double.lt (sampleView sampleZoom19).zoomFactor
            (Double.finite false ((ZOOM_STEP_FACTOR : ℚ) ^ k)) = true ∧
          ∀ j : ℤ,
            Double.lt (sampleView sampleZoom19).zoomFactor
              (Double.finite false ((ZOOM_STEP_FACTOR : ℚ) ^ j)) = true →
              (ZOOM_STEP_FACTOR : ℚ) ^ k ≤ (ZOOM_STEP_FACTOR : ℚ) ^ j) ∧
      (Double.le (Double.finite false (2 ^ 1023)) (sampleView sampleZoom19).zoomFactor = true →
        v.zoomFactor = Double.inf false)) ∧
    (zoom 3 ⟨320, 240⟩ sampleDivide sampleScale true (sampleView sampleZoom19) ZoomMode.IN
        ⟨0, 0⟩ (Double.finite false 1)).map View.zoomFactor = some (Double.finite false 2) :=
  ⟨(zoom_in_next_step ⟨320, 240⟩ sampleDivide sampleScale true (sampleView sampleZoom19)
      ⟨100, 50⟩ (Double.finite false 1) ⟨8556839292003942, 1022, by norm_num, by norm_num,
        by norm_num⟩ (by norm_num [sampleView, sampleZoom19, Double.lt, Double.signed])).1,
   (zoom_in_next_step ⟨320, 240⟩ sampleDivide sampleScale true (sampleView sampleZoom19)
      ⟨100, 50⟩ (Double.finite false 1) ⟨8556839292003942, 1022, by norm_num, by norm_num,
        by norm_num⟩ (by norm_num [sampleView, sampleZoom19, Double.lt, Double.signed])).2.1⟩

/-- Counterexample to C18 as stated: `2 ^ 1023` is a positive zoom factor that a double
holds, and zoom-in terminates on it, but the new zoom factor is plus infinity: it is no
integer power of `ZOOM_STEP_FACTOR`, and so not `2 ^ 1024`, the smallest power above
`2 ^ 1023`. -/
theorem zoom_in_next_step_counterexample :
    sampleZoomHuge.isDouble ∧
    Double.lt (Double.finite false 0) sampleZoomHuge = true ∧
    (∀ fuel, 1025 ≤ fuel →
      (zoom fuel ⟨320, 240⟩ sampleDivide sampleScale true (sampleView sampleZoomHuge)
        ZoomMode.IN ⟨0, 0⟩ (Double.finite false 1)).map View.zoomFactor
        = some (Double.inf false)) ∧
    (∀ k : ℤ, Double.inf false ≠ Double.finite false ((ZOOM_STEP_FACTOR : ℚ) ^ k)) := by
  have hbig : Double.le (Double.finite false (2 ^ 1023)) sampleZoomHuge = true := by
    simp [sampleZoomHuge, Double.le, Double.signed]
  refine ⟨⟨2 ^ 52, 2045, by norm_num, by norm_num, ?_⟩, ?_, fun fuel hf => ?_, fun k h => ?_⟩
  · norm_num
  · simp [sampleZoomHuge, Double.lt, Double.signed]
  · obtain ⟨v, hv, hvz⟩ := zoom_zoomFactor fuel ⟨320, 240⟩ sampleDivide sampleScale true
      (sampleView sampleZoomHuge) ZoomMode.IN ⟨0, 0⟩ (Double.finite false 1) _
      (nextZoom_in_overflow sampleZoomHuge hbig (Double.finite false 1) fuel hf)
    rw [hv, Option.map_some', hvz]
  · exact Double.noConfusion h

end MoveAndZoomableView
